import Mathlib

/-!
# Job matcher and resume parser

A shallow embedding of `src/services/jobMatcher.js` (weighted scoring and
ranking of job postings against a profile) and of `src/services/resumeParser.js`
(extraction of a profile from resume text).

Modelling conventions.

* A JavaScript string is a list of characters (code points).  `toLowerCase`
  and `toUpperCase` are the Unicode default case conversions.
* An object property that may be missing (`undefined` / `null`) is an `Option`;
  `x || dflt` on a string or array property is `getD`.  `yearsOfExperience` is
  a natural number when present, and `!yearsOfExperience` holds when it is
  missing or `0`.  `isRemote` is a boolean (a missing flag is `false`).
* Numbers are IEEE-754 doubles.  Every number the matcher computes is a
  non-negative value far inside the normal range, so a double is modelled by
  the rational it denotes and each arithmetic operation is the exact rational
  operation followed by `fl`, rounding to 53 significant bits, ties to even.
  `Math.round` is exact on a double: the nearest integer, ties towards +∞.
* Scores are integers (`ℤ`).
* A function that may raise returns an `Except`; the error is the exception.
  The matcher raises in one case only, a seniority that names a property
  inherited from `Object.prototype`: `calcRoleAlignmentCall` is the call with
  that case, and `calcRoleAlignment`, `scoreJob` and `rankJobs` give the value
  of a call that returns.
-/

namespace JobAgent

set_option maxRecDepth 20000

/-! ## Strings -/

/-- A JavaScript string, as the list of its characters. -/
abbrev JsString := List Char

/-! ## Case conversion

`String.prototype.toLowerCase` and `String.prototype.toUpperCase` follow the
default case conversion of the Unicode standard: every character is replaced
by its full lower-case (upper-case) mapping, which can be several characters,
and a capital sigma becomes a final sigma at the end of a word.  The tables
below are those of Unicode 14.  On ASCII text only the letters `A`-`Z`
(`a`-`z`) change. -/

/-- The characters outside ASCII with a one-character lower-case mapping, as
progressions `(first, last, step, image of first)`: the character `first + k *
step`, up to `last`, maps to `image of first + k * step`. -/
def lowerCaseRanges : List (ℕ × ℕ × ℕ × ℕ) :=
  [
    (192, 214, 1, 224), (216, 222, 1, 248), (256, 302, 2, 257), (306, 310, 2, 307), (313, 327, 2,
    314), (330, 374, 2, 331), (376, 376, 1, 255), (377, 381, 2, 378), (385, 385, 1, 595), (386,
    388, 2, 387), (390, 390, 1, 596), (391, 391, 1, 392), (393, 394, 1, 598), (395, 395, 1, 396),
    (398, 398, 1, 477), (399, 399, 1, 601), (400, 400, 1, 603), (401, 401, 1, 402), (403, 403, 1,
    608), (404, 404, 1, 611), (406, 406, 1, 617), (407, 407, 1, 616), (408, 408, 1, 409), (412,
    412, 1, 623), (413, 413, 1, 626), (415, 415, 1, 629), (416, 420, 2, 417), (422, 422, 1, 640),
    (423, 423, 1, 424), (425, 425, 1, 643), (428, 428, 1, 429), (430, 430, 1, 648), (431, 431, 1,
    432), (433, 434, 1, 650), (435, 437, 2, 436), (439, 439, 1, 658), (440, 440, 1, 441), (444,
    444, 1, 445), (452, 452, 1, 454), (453, 453, 1, 454), (455, 455, 1, 457), (456, 456, 1, 457),
    (458, 458, 1, 460), (459, 475, 2, 460), (478, 494, 2, 479), (497, 497, 1, 499), (498, 500, 2,
    499), (502, 502, 1, 405), (503, 503, 1, 447), (504, 542, 2, 505), (544, 544, 1, 414), (546,
    562, 2, 547), (570, 570, 1, 11365), (571, 571, 1, 572), (573, 573, 1, 410), (574, 574, 1,
    11366), (577, 577, 1, 578), (579, 579, 1, 384), (580, 580, 1, 649), (581, 581, 1, 652), (582,
    590, 2, 583), (880, 882, 2, 881), (886, 886, 1, 887), (895, 895, 1, 1011), (902, 902, 1, 940),
    (904, 906, 1, 941), (908, 908, 1, 972), (910, 911, 1, 973), (913, 929, 1, 945), (931, 939, 1,
    963), (975, 975, 1, 983), (984, 1006, 2, 985), (1012, 1012, 1, 952), (1015, 1015, 1, 1016),
    (1017, 1017, 1, 1010), (1018, 1018, 1, 1019), (1021, 1023, 1, 891), (1024, 1039, 1, 1104),
    (1040, 1071, 1, 1072), (1120, 1152, 2, 1121), (1162, 1214, 2, 1163), (1216, 1216, 1, 1231),
    (1217, 1229, 2, 1218), (1232, 1326, 2, 1233), (1329, 1366, 1, 1377), (4256, 4293, 1, 11520),
    (4295, 4295, 1, 11559), (4301, 4301, 1, 11565), (5024, 5103, 1, 43888), (5104, 5109, 1, 5112),
    (7312, 7354, 1, 4304), (7357, 7359, 1, 4349), (7680, 7828, 2, 7681), (7838, 7838, 1, 223),
    (7840, 7934, 2, 7841), (7944, 7951, 1, 7936), (7960, 7965, 1, 7952), (7976, 7983, 1, 7968),
    (7992, 7999, 1, 7984), (8008, 8013, 1, 8000), (8025, 8031, 2, 8017), (8040, 8047, 1, 8032),
    (8072, 8079, 1, 8064), (8088, 8095, 1, 8080), (8104, 8111, 1, 8096), (8120, 8121, 1, 8112),
    (8122, 8123, 1, 8048), (8124, 8124, 1, 8115), (8136, 8139, 1, 8050), (8140, 8140, 1, 8131),
    (8152, 8153, 1, 8144), (8154, 8155, 1, 8054), (8168, 8169, 1, 8160), (8170, 8171, 1, 8058),
    (8172, 8172, 1, 8165), (8184, 8185, 1, 8056), (8186, 8187, 1, 8060), (8188, 8188, 1, 8179),
    (8486, 8486, 1, 969), (8490, 8490, 1, 107), (8491, 8491, 1, 229), (8498, 8498, 1, 8526),
    (8544, 8559, 1, 8560), (8579, 8579, 1, 8580), (9398, 9423, 1, 9424), (11264, 11311, 1, 11312),
    (11360, 11360, 1, 11361), (11362, 11362, 1, 619), (11363, 11363, 1, 7549), (11364, 11364, 1,
    637), (11367, 11371, 2, 11368), (11373, 11373, 1, 593), (11374, 11374, 1, 625), (11375, 11375,
    1, 592), (11376, 11376, 1, 594), (11378, 11378, 1, 11379), (11381, 11381, 1, 11382), (11390,
    11391, 1, 575), (11392, 11490, 2, 11393), (11499, 11501, 2, 11500), (11506, 11506, 1, 11507),
    (42560, 42604, 2, 42561), (42624, 42650, 2, 42625), (42786, 42798, 2, 42787), (42802, 42862,
    2, 42803), (42873, 42875, 2, 42874), (42877, 42877, 1, 7545), (42878, 42886, 2, 42879),
    (42891, 42891, 1, 42892), (42893, 42893, 1, 613), (42896, 42898, 2, 42897), (42902, 42920, 2,
    42903), (42922, 42922, 1, 614), (42923, 42923, 1, 604), (42924, 42924, 1, 609), (42925, 42925,
    1, 620), (42926, 42926, 1, 618), (42928, 42928, 1, 670), (42929, 42929, 1, 647), (42930,
    42930, 1, 669), (42931, 42931, 1, 43859), (42932, 42946, 2, 42933), (42948, 42948, 1, 42900),
    (42949, 42949, 1, 642), (42950, 42950, 1, 7566), (42951, 42953, 2, 42952), (42960, 42960, 1,
    42961), (42966, 42968, 2, 42967), (42997, 42997, 1, 42998), (65313, 65338, 1, 65345), (66560,
    66599, 1, 66600), (66736, 66771, 1, 66776), (66928, 66938, 1, 66967), (66940, 66954, 1,
    66979), (66956, 66962, 1, 66995), (66964, 66965, 1, 67003), (68736, 68786, 1, 68800), (71840,
    71871, 1, 71872), (93760, 93791, 1, 93792), (125184, 125217, 1, 125218) ]

/-- The characters outside ASCII with a one-character upper-case mapping, in the
same form. -/
def upperCaseRanges : List (ℕ × ℕ × ℕ × ℕ) :=
  [
    (181, 181, 1, 924), (224, 246, 1, 192), (248, 254, 1, 216), (255, 255, 1, 376), (257, 303, 2,
    256), (305, 305, 1, 73), (307, 311, 2, 306), (314, 328, 2, 313), (331, 375, 2, 330), (378,
    382, 2, 377), (383, 383, 1, 83), (384, 384, 1, 579), (387, 389, 2, 386), (392, 392, 1, 391),
    (396, 396, 1, 395), (402, 402, 1, 401), (405, 405, 1, 502), (409, 409, 1, 408), (410, 410, 1,
    573), (414, 414, 1, 544), (417, 421, 2, 416), (424, 424, 1, 423), (429, 429, 1, 428), (432,
    432, 1, 431), (436, 438, 2, 435), (441, 441, 1, 440), (445, 445, 1, 444), (447, 447, 1, 503),
    (453, 453, 1, 452), (454, 454, 1, 452), (456, 456, 1, 455), (457, 457, 1, 455), (459, 459, 1,
    458), (460, 460, 1, 458), (462, 476, 2, 461), (477, 477, 1, 398), (479, 495, 2, 478), (498,
    498, 1, 497), (499, 499, 1, 497), (501, 501, 1, 500), (505, 543, 2, 504), (547, 563, 2, 546),
    (572, 572, 1, 571), (575, 576, 1, 11390), (578, 578, 1, 577), (583, 591, 2, 582), (592, 592,
    1, 11375), (593, 593, 1, 11373), (594, 594, 1, 11376), (595, 595, 1, 385), (596, 596, 1, 390),
    (598, 599, 1, 393), (601, 601, 1, 399), (603, 603, 1, 400), (604, 604, 1, 42923), (608, 608,
    1, 403), (609, 609, 1, 42924), (611, 611, 1, 404), (613, 613, 1, 42893), (614, 614, 1, 42922),
    (616, 616, 1, 407), (617, 617, 1, 406), (618, 618, 1, 42926), (619, 619, 1, 11362), (620, 620,
    1, 42925), (623, 623, 1, 412), (625, 625, 1, 11374), (626, 626, 1, 413), (629, 629, 1, 415),
    (637, 637, 1, 11364), (640, 640, 1, 422), (642, 642, 1, 42949), (643, 643, 1, 425), (647, 647,
    1, 42929), (648, 648, 1, 430), (649, 649, 1, 580), (650, 651, 1, 433), (652, 652, 1, 581),
    (658, 658, 1, 439), (669, 669, 1, 42930), (670, 670, 1, 42928), (837, 837, 1, 921), (881, 883,
    2, 880), (887, 887, 1, 886), (891, 893, 1, 1021), (940, 940, 1, 902), (941, 943, 1, 904),
    (945, 961, 1, 913), (962, 962, 1, 931), (963, 971, 1, 931), (972, 972, 1, 908), (973, 974, 1,
    910), (976, 976, 1, 914), (977, 977, 1, 920), (981, 981, 1, 934), (982, 982, 1, 928), (983,
    983, 1, 975), (985, 1007, 2, 984), (1008, 1008, 1, 922), (1009, 1009, 1, 929), (1010, 1010, 1,
    1017), (1011, 1011, 1, 895), (1013, 1013, 1, 917), (1016, 1016, 1, 1015), (1019, 1019, 1,
    1018), (1072, 1103, 1, 1040), (1104, 1119, 1, 1024), (1121, 1153, 2, 1120), (1163, 1215, 2,
    1162), (1218, 1230, 2, 1217), (1231, 1231, 1, 1216), (1233, 1327, 2, 1232), (1377, 1414, 1,
    1329), (4304, 4346, 1, 7312), (4349, 4351, 1, 7357), (5112, 5117, 1, 5104), (7296, 7296, 1,
    1042), (7297, 7297, 1, 1044), (7298, 7298, 1, 1054), (7299, 7300, 1, 1057), (7301, 7301, 1,
    1058), (7302, 7302, 1, 1066), (7303, 7303, 1, 1122), (7304, 7304, 1, 42570), (7545, 7545, 1,
    42877), (7549, 7549, 1, 11363), (7566, 7566, 1, 42950), (7681, 7829, 2, 7680), (7835, 7835, 1,
    7776), (7841, 7935, 2, 7840), (7936, 7943, 1, 7944), (7952, 7957, 1, 7960), (7968, 7975, 1,
    7976), (7984, 7991, 1, 7992), (8000, 8005, 1, 8008), (8017, 8023, 2, 8025), (8032, 8039, 1,
    8040), (8048, 8049, 1, 8122), (8050, 8053, 1, 8136), (8054, 8055, 1, 8154), (8056, 8057, 1,
    8184), (8058, 8059, 1, 8170), (8060, 8061, 1, 8186), (8112, 8113, 1, 8120), (8126, 8126, 1,
    921), (8144, 8145, 1, 8152), (8160, 8161, 1, 8168), (8165, 8165, 1, 8172), (8526, 8526, 1,
    8498), (8560, 8575, 1, 8544), (8580, 8580, 1, 8579), (9424, 9449, 1, 9398), (11312, 11359, 1,
    11264), (11361, 11361, 1, 11360), (11365, 11365, 1, 570), (11366, 11366, 1, 574), (11368,
    11372, 2, 11367), (11379, 11379, 1, 11378), (11382, 11382, 1, 11381), (11393, 11491, 2,
    11392), (11500, 11502, 2, 11499), (11507, 11507, 1, 11506), (11520, 11557, 1, 4256), (11559,
    11559, 1, 4295), (11565, 11565, 1, 4301), (42561, 42605, 2, 42560), (42625, 42651, 2, 42624),
    (42787, 42799, 2, 42786), (42803, 42863, 2, 42802), (42874, 42876, 2, 42873), (42879, 42887,
    2, 42878), (42892, 42892, 1, 42891), (42897, 42899, 2, 42896), (42900, 42900, 1, 42948),
    (42903, 42921, 2, 42902), (42933, 42947, 2, 42932), (42952, 42954, 2, 42951), (42961, 42961,
    1, 42960), (42967, 42969, 2, 42966), (42998, 42998, 1, 42997), (43859, 43859, 1, 42931),
    (43888, 43967, 1, 5024), (65345, 65370, 1, 65313), (66600, 66639, 1, 66560), (66776, 66811, 1,
    66736), (66967, 66977, 1, 66928), (66979, 66993, 1, 66940), (66995, 67001, 1, 66956), (67003,
    67004, 1, 66964), (68800, 68850, 1, 68736), (71872, 71903, 1, 71840), (93792, 93823, 1,
    93760), (125218, 125251, 1, 125184) ]

/-- The characters whose upper-case mapping has several characters. -/
def upperCaseSpecial : List (ℕ × List ℕ) :=
  [
    (223, [83, 83]), (329, [700, 78]), (496, [74, 780]), (912, [921, 776, 769]), (944, [933, 776,
    769]), (1415, [1333, 1362]), (7830, [72, 817]), (7831, [84, 776]), (7832, [87, 778]), (7833,
    [89, 778]), (7834, [65, 702]), (8016, [933, 787]), (8018, [933, 787, 768]), (8020, [933, 787,
    769]), (8022, [933, 787, 834]), (8064, [7944, 921]), (8065, [7945, 921]), (8066, [7946, 921]),
    (8067, [7947, 921]), (8068, [7948, 921]), (8069, [7949, 921]), (8070, [7950, 921]), (8071,
    [7951, 921]), (8072, [7944, 921]), (8073, [7945, 921]), (8074, [7946, 921]), (8075, [7947,
    921]), (8076, [7948, 921]), (8077, [7949, 921]), (8078, [7950, 921]), (8079, [7951, 921]),
    (8080, [7976, 921]), (8081, [7977, 921]), (8082, [7978, 921]), (8083, [7979, 921]), (8084,
    [7980, 921]), (8085, [7981, 921]), (8086, [7982, 921]), (8087, [7983, 921]), (8088, [7976,
    921]), (8089, [7977, 921]), (8090, [7978, 921]), (8091, [7979, 921]), (8092, [7980, 921]),
    (8093, [7981, 921]), (8094, [7982, 921]), (8095, [7983, 921]), (8096, [8040, 921]), (8097,
    [8041, 921]), (8098, [8042, 921]), (8099, [8043, 921]), (8100, [8044, 921]), (8101, [8045,
    921]), (8102, [8046, 921]), (8103, [8047, 921]), (8104, [8040, 921]), (8105, [8041, 921]),
    (8106, [8042, 921]), (8107, [8043, 921]), (8108, [8044, 921]), (8109, [8045, 921]), (8110,
    [8046, 921]), (8111, [8047, 921]), (8114, [8122, 921]), (8115, [913, 921]), (8116, [902,
    921]), (8118, [913, 834]), (8119, [913, 834, 921]), (8124, [913, 921]), (8130, [8138, 921]),
    (8131, [919, 921]), (8132, [905, 921]), (8134, [919, 834]), (8135, [919, 834, 921]), (8140,
    [919, 921]), (8146, [921, 776, 768]), (8147, [921, 776, 769]), (8150, [921, 834]), (8151,
    [921, 776, 834]), (8162, [933, 776, 768]), (8163, [933, 776, 769]), (8164, [929, 787]), (8166,
    [933, 834]), (8167, [933, 776, 834]), (8178, [8186, 921]), (8179, [937, 921]), (8180, [911,
    921]), (8182, [937, 834]), (8183, [937, 834, 921]), (8188, [937, 921]), (64256, [70, 70]),
    (64257, [70, 73]), (64258, [70, 76]), (64259, [70, 70, 73]), (64260, [70, 70, 76]), (64261,
    [83, 84]), (64262, [83, 84]), (64275, [1348, 1350]), (64276, [1348, 1333]), (64277, [1348,
    1339]), (64278, [1358, 1350]), (64279, [1348, 1341]) ]

/-- The cased letters that are not case-ignorable, as ranges `(first, last)`. -/
def casedRanges : List (ℕ × ℕ) :=
  [
    (65, 90), (97, 122), (170, 170), (181, 181), (186, 186), (192, 214), (216, 246), (248, 442),
    (444, 447), (452, 659), (661, 687), (880, 883), (886, 887), (891, 893), (895, 895), (902,
    902), (904, 906), (908, 908), (910, 929), (931, 1013), (1015, 1153), (1162, 1327), (1329,
    1366), (1376, 1416), (4256, 4293), (4295, 4295), (4301, 4301), (4304, 4346), (4349, 4351),
    (5024, 5109), (5112, 5117), (7296, 7304), (7312, 7354), (7357, 7359), (7424, 7467), (7531,
    7543), (7545, 7578), (7680, 7957), (7960, 7965), (7968, 8005), (8008, 8013), (8016, 8023),
    (8025, 8025), (8027, 8027), (8029, 8029), (8031, 8061), (8064, 8116), (8118, 8124), (8126,
    8126), (8130, 8132), (8134, 8140), (8144, 8147), (8150, 8155), (8160, 8172), (8178, 8180),
    (8182, 8188), (8450, 8450), (8455, 8455), (8458, 8467), (8469, 8469), (8473, 8477), (8484,
    8484), (8486, 8486), (8488, 8488), (8490, 8493), (8495, 8500), (8505, 8505), (8508, 8511),
    (8517, 8521), (8526, 8526), (8544, 8575), (8579, 8580), (9398, 9449), (11264, 11387), (11390,
    11492), (11499, 11502), (11506, 11507), (11520, 11557), (11559, 11559), (11565, 11565),
    (42560, 42605), (42624, 42651), (42786, 42863), (42865, 42887), (42891, 42894), (42896,
    42954), (42960, 42961), (42963, 42963), (42965, 42969), (42997, 42998), (43002, 43002),
    (43824, 43866), (43872, 43880), (43888, 43967), (64256, 64262), (64275, 64279), (65313,
    65338), (65345, 65370), (66560, 66639), (66736, 66771), (66776, 66811), (66928, 66938),
    (66940, 66954), (66956, 66962), (66964, 66965), (66967, 66977), (66979, 66993), (66995,
    67001), (67003, 67004), (68736, 68786), (68800, 68850), (71840, 71903), (93760, 93823),
    (119808, 119892), (119894, 119964), (119966, 119967), (119970, 119970), (119973, 119974),
    (119977, 119980), (119982, 119993), (119995, 119995), (119997, 120003), (120005, 120069),
    (120071, 120074), (120077, 120084), (120086, 120092), (120094, 120121), (120123, 120126),
    (120128, 120132), (120134, 120134), (120138, 120144), (120146, 120485), (120488, 120512),
    (120514, 120538), (120540, 120570), (120572, 120596), (120598, 120628), (120630, 120654),
    (120656, 120686), (120688, 120712), (120714, 120744), (120746, 120770), (120772, 120779),
    (122624, 122633), (122635, 122654), (125184, 125251), (127280, 127305), (127312, 127337),
    (127344, 127369) ]

/-- The case-ignorable characters, as ranges `(first, last)`. -/
def caseIgnorableRanges : List (ℕ × ℕ) :=
  [
    (39, 39), (46, 46), (58, 58), (94, 94), (96, 96), (168, 168), (173, 173), (175, 175), (180,
    180), (183, 184), (688, 879), (884, 885), (890, 890), (900, 901), (903, 903), (1155, 1161),
    (1369, 1369), (1375, 1375), (1425, 1469), (1471, 1471), (1473, 1474), (1476, 1477), (1479,
    1479), (1524, 1524), (1536, 1541), (1552, 1562), (1564, 1564), (1600, 1600), (1611, 1631),
    (1648, 1648), (1750, 1757), (1759, 1768), (1770, 1773), (1807, 1807), (1809, 1809), (1840,
    1866), (1958, 1968), (2027, 2037), (2042, 2042), (2045, 2045), (2070, 2093), (2137, 2139),
    (2184, 2184), (2192, 2193), (2200, 2207), (2249, 2306), (2362, 2362), (2364, 2364), (2369,
    2376), (2381, 2381), (2385, 2391), (2402, 2403), (2417, 2417), (2433, 2433), (2492, 2492),
    (2497, 2500), (2509, 2509), (2530, 2531), (2558, 2558), (2561, 2562), (2620, 2620), (2625,
    2626), (2631, 2632), (2635, 2637), (2641, 2641), (2672, 2673), (2677, 2677), (2689, 2690),
    (2748, 2748), (2753, 2757), (2759, 2760), (2765, 2765), (2786, 2787), (2810, 2815), (2817,
    2817), (2876, 2876), (2879, 2879), (2881, 2884), (2893, 2893), (2901, 2902), (2914, 2915),
    (2946, 2946), (3008, 3008), (3021, 3021), (3072, 3072), (3076, 3076), (3132, 3132), (3134,
    3136), (3142, 3144), (3146, 3149), (3157, 3158), (3170, 3171), (3201, 3201), (3260, 3260),
    (3263, 3263), (3270, 3270), (3276, 3277), (3298, 3299), (3328, 3329), (3387, 3388), (3393,
    3396), (3405, 3405), (3426, 3427), (3457, 3457), (3530, 3530), (3538, 3540), (3542, 3542),
    (3633, 3633), (3636, 3642), (3654, 3662), (3761, 3761), (3764, 3772), (3782, 3782), (3784,
    3789), (3864, 3865), (3893, 3893), (3895, 3895), (3897, 3897), (3953, 3966), (3968, 3972),
    (3974, 3975), (3981, 3991), (3993, 4028), (4038, 4038), (4141, 4144), (4146, 4151), (4153,
    4154), (4157, 4158), (4184, 4185), (4190, 4192), (4209, 4212), (4226, 4226), (4229, 4230),
    (4237, 4237), (4253, 4253), (4348, 4348), (4957, 4959), (5906, 5908), (5938, 5939), (5970,
    5971), (6002, 6003), (6068, 6069), (6071, 6077), (6086, 6086), (6089, 6099), (6103, 6103),
    (6109, 6109), (6155, 6159), (6211, 6211), (6277, 6278), (6313, 6313), (6432, 6434), (6439,
    6440), (6450, 6450), (6457, 6459), (6679, 6680), (6683, 6683), (6742, 6742), (6744, 6750),
    (6752, 6752), (6754, 6754), (6757, 6764), (6771, 6780), (6783, 6783), (6823, 6823), (6832,
    6862), (6912, 6915), (6964, 6964), (6966, 6970), (6972, 6972), (6978, 6978), (7019, 7027),
    (7040, 7041), (7074, 7077), (7080, 7081), (7083, 7085), (7142, 7142), (7144, 7145), (7149,
    7149), (7151, 7153), (7212, 7219), (7222, 7223), (7288, 7293), (7376, 7378), (7380, 7392),
    (7394, 7400), (7405, 7405), (7412, 7412), (7416, 7417), (7468, 7530), (7544, 7544), (7579,
    7679), (8125, 8125), (8127, 8129), (8141, 8143), (8157, 8159), (8173, 8175), (8189, 8190),
    (8203, 8207), (8216, 8217), (8228, 8228), (8231, 8231), (8234, 8238), (8288, 8292), (8294,
    8303), (8305, 8305), (8319, 8319), (8336, 8348), (8400, 8432), (11388, 11389), (11503, 11505),
    (11631, 11631), (11647, 11647), (11744, 11775), (11823, 11823), (12293, 12293), (12330,
    12333), (12337, 12341), (12347, 12347), (12441, 12446), (12540, 12542), (40981, 40981),
    (42232, 42237), (42508, 42508), (42607, 42610), (42612, 42621), (42623, 42623), (42652,
    42655), (42736, 42737), (42752, 42785), (42864, 42864), (42888, 42890), (42994, 42996),
    (43000, 43001), (43010, 43010), (43014, 43014), (43019, 43019), (43045, 43046), (43052,
    43052), (43204, 43205), (43232, 43249), (43263, 43263), (43302, 43309), (43335, 43345),
    (43392, 43394), (43443, 43443), (43446, 43449), (43452, 43453), (43471, 43471), (43493,
    43494), (43561, 43566), (43569, 43570), (43573, 43574), (43587, 43587), (43596, 43596),
    (43632, 43632), (43644, 43644), (43696, 43696), (43698, 43700), (43703, 43704), (43710,
    43711), (43713, 43713), (43741, 43741), (43756, 43757), (43763, 43764), (43766, 43766),
    (43867, 43871), (43881, 43883), (44005, 44005), (44008, 44008), (44013, 44013), (64286,
    64286), (64434, 64450), (65024, 65039), (65043, 65043), (65056, 65071), (65106, 65106),
    (65109, 65109), (65279, 65279), (65287, 65287), (65294, 65294), (65306, 65306), (65342,
    65342), (65344, 65344), (65392, 65392), (65438, 65439), (65507, 65507), (65529, 65531),
    (66045, 66045), (66272, 66272), (66422, 66426), (67456, 67461), (67463, 67504), (67506,
    67514), (68097, 68099), (68101, 68102), (68108, 68111), (68152, 68154), (68159, 68159),
    (68325, 68326), (68900, 68903), (69291, 69292), (69446, 69456), (69506, 69509), (69633,
    69633), (69688, 69702), (69744, 69744), (69747, 69748), (69759, 69761), (69811, 69814),
    (69817, 69818), (69821, 69821), (69826, 69826), (69837, 69837), (69888, 69890), (69927,
    69931), (69933, 69940), (70003, 70003), (70016, 70017), (70070, 70078), (70089, 70092),
    (70095, 70095), (70191, 70193), (70196, 70196), (70198, 70199), (70206, 70206), (70367,
    70367), (70371, 70378), (70400, 70401), (70459, 70460), (70464, 70464), (70502, 70508),
    (70512, 70516), (70712, 70719), (70722, 70724), (70726, 70726), (70750, 70750), (70835,
    70840), (70842, 70842), (70847, 70848), (70850, 70851), (71090, 71093), (71100, 71101),
    (71103, 71104), (71132, 71133), (71219, 71226), (71229, 71229), (71231, 71232), (71339,
    71339), (71341, 71341), (71344, 71349), (71351, 71351), (71453, 71455), (71458, 71461),
    (71463, 71467), (71727, 71735), (71737, 71738), (71995, 71996), (71998, 71998), (72003,
    72003), (72148, 72151), (72154, 72155), (72160, 72160), (72193, 72202), (72243, 72248),
    (72251, 72254), (72263, 72263), (72273, 72278), (72281, 72283), (72330, 72342), (72344,
    72345), (72752, 72758), (72760, 72765), (72767, 72767), (72850, 72871), (72874, 72880),
    (72882, 72883), (72885, 72886), (73009, 73014), (73018, 73018), (73020, 73021), (73023,
    73029), (73031, 73031), (73104, 73105), (73109, 73109), (73111, 73111), (73459, 73460),
    (78896, 78904), (92912, 92916), (92976, 92982), (92992, 92995), (94031, 94031), (94095,
    94111), (94176, 94177), (94179, 94180), (110576, 110579), (110581, 110587), (110589, 110590),
    (113821, 113822), (113824, 113827), (118528, 118573), (118576, 118598), (119143, 119145),
    (119155, 119170), (119173, 119179), (119210, 119213), (119362, 119364), (121344, 121398),
    (121403, 121452), (121461, 121461), (121476, 121476), (121499, 121503), (121505, 121519),
    (122880, 122886), (122888, 122904), (122907, 122913), (122915, 122916), (122918, 122922),
    (123184, 123197), (123566, 123566), (123628, 123631), (125136, 125142), (125252, 125259),
    (127995, 127999), (917505, 917505), (917536, 917631), (917760, 917999) ]

/-- Whether the code point lies in one of the ranges. -/
def inRanges (ranges : List (ℕ × ℕ)) (n : ℕ) : Bool :=
  ranges.any (fun r => decide (r.1 ≤ n ∧ n ≤ r.2))

/-- The image of a character under a table of progressions; a character that
the table does not list is unchanged. -/
def mapByRanges (ranges : List (ℕ × ℕ × ℕ × ℕ)) (c : Char) : Char :=
  match ranges.find? (fun r =>
      decide (r.1 ≤ c.toNat ∧ c.toNat ≤ r.2.1 ∧ (c.toNat - r.1) % r.2.2.1 = 0)) with
  | some r => Char.ofNat (r.2.2.2 + (c.toNat - r.1))
  | none => c

/-- A case-ignorable character. -/
def isCaseIgnorable (c : Char) : Bool := inRanges caseIgnorableRanges c.toNat

/-- A cased letter that is not case-ignorable. -/
def isCasedLetter (c : Char) : Bool := inRanges casedRanges c.toNat

/-- The next character of the text that is not case-ignorable is a cased
letter. -/
def casedNext (text : List Char) : Bool :=
  match text.dropWhile isCaseIgnorable with
  | x :: _ => isCasedLetter x
  | [] => false

/-- The condition `Final_Sigma`: a cased letter comes before (`before` holds the
preceding text, nearest character first) and none comes after, case-ignorable
characters skipped on both sides. -/
def isFinalSigma (before after : List Char) : Bool :=
  casedNext before && !casedNext after

/-- The lower-case mapping of one character in its context: an ASCII character
by the ASCII rule, the capital sigma (U+03A3) by `Final_Sigma`, the dotted
capital I (U+0130) to `i` and a combining dot, every other one by the table. -/
def lowerChar (before : List Char) (c : Char) (after : List Char) : List Char :=
  if c.toNat < 128 then [c.toLower]
  else if c.toNat = 931 then
    [if isFinalSigma before after then Char.ofNat 962 else Char.ofNat 963]
  else if c.toNat = 304 then [Char.ofNat 105, Char.ofNat 775]
  else [mapByRanges lowerCaseRanges c]

/-- Lower-case the text `rest` that follows `before` (nearest character first). -/
def lowerFrom : List Char → List Char → List Char
  | _, [] => []
  | before, c :: cs => lowerChar before c cs ++ lowerFrom (c :: before) cs

/-- The method `String.prototype.toLowerCase`. -/
def toLowerCase (s : JsString) : JsString := lowerFrom [] s

/-- The upper-case mapping of one character. -/
def upperChar (c : Char) : List Char :=
  if c.toNat < 128 then [c.toUpper]
  else
    match upperCaseSpecial.find? (fun e => e.1 == c.toNat) with
    | some e => e.2.map Char.ofNat
    | none => [mapByRanges upperCaseRanges c]

/-- The method `String.prototype.toUpperCase`. -/
def toUpperCase (s : JsString) : JsString := s.flatMap upperChar

/-- The test `hay.includes(needle)`: `needle` occurs in `hay` as a contiguous block. -/
def includes (hay needle : JsString) : Bool :=
  (List.tails hay).any (fun t => needle.isPrefixOf t)

/-- The class `\d` of a non-unicode regular expression: the ten ASCII digits. -/
def isRegexDigit (c : Char) : Bool := decide (48 ≤ c.toNat ∧ c.toNat ≤ 57)

/-- The class `\s`: the ECMAScript white space and line terminator code points. -/
def isRegexSpace (c : Char) : Bool :=
  decide (c.toNat ∈ [9, 10, 11, 12, 13, 32, 160, 5760, 8232, 8233, 8239, 8287, 12288, 65279])
    || decide (8192 ≤ c.toNat ∧ c.toNat ≤ 8202)

/-- The call `parseInt(s, 10)` on a string of decimal digits. -/
def parseInt (s : JsString) : ℕ := s.foldl (fun n c => 10 * n + (c.toNat - 48)) 0

/-! ### The pattern `/(\d{1,2})\+?\s*(?:years?|yrs?)/`

The matcher below follows the backtracking order of the regular expression:
each quantifier is greedy, so the longer alternative is tried first. -/

/-- Ways `(\d{1,2})` can match at the head of `cs`: the captured digits and the
remaining input, two digits before one. -/
def digitAlts (cs : JsString) : List (JsString × JsString) :=
  match cs with
  | a :: b :: rest =>
      (if isRegexDigit a && isRegexDigit b then [([a, b], rest)] else [])
        ++ (if isRegexDigit a then [([a], b :: rest)] else [])
  | [a] => if isRegexDigit a then [([a], [])] else []
  | [] => []

/-- Ways `\+?` can match at the head of `cs`: the remaining inputs, taking the
plus sign before skipping it. -/
def plusAlts (cs : JsString) : List JsString :=
  match cs with
  | c :: rest => if c = Char.ofNat 43 then [rest, c :: rest] else [c :: rest]
  | [] => [[]]

/-- Ways `\s*` can match at the head of `cs`: the remaining inputs, longest
run of white space first. -/
def spaceAlts (cs : JsString) : List JsString :=
  match cs with
  | c :: rest => if isRegexSpace c then spaceAlts rest ++ [c :: rest] else [c :: rest]
  | [] => [[]]

/-- Whether `(?:years?|yrs?)` matches at the head of `cs`.  The optional `s`
never decides the match. -/
def unitAt (cs : JsString) : Bool :=
  "year".toList.isPrefixOf cs || "yr".toList.isPrefixOf cs

/-- The capture group of the first successful way to match the whole pattern
starting exactly at the head of `cs`. -/
def experiencePatternAt (cs : JsString) : Option JsString :=
  ((digitAlts cs).flatMap fun dr =>
    (plusAlts dr.2).flatMap fun r2 =>
      (spaceAlts r2).filterMap fun r3 => if unitAt r3 then some dr.1 else none).head?

/-- The call `desc.match(/(\d{1,2})\+?\s*(?:years?|yrs?)/)`: capture group 1 of the
leftmost match, `none` when the pattern does not occur. -/
def experiencePattern (desc : JsString) : Option JsString :=
  match desc with
  | [] => experiencePatternAt []
  | c :: rest =>
      match experiencePatternAt (c :: rest) with
      | some cap => some cap
      | none => experiencePattern rest

/-- The test `/(k1|k2|...)/i.test(s)` for lower-case ASCII keywords: some keyword
occurs in `s`, the case of the ASCII letters ignored.  Without the flag `u` a
character outside ASCII never matches an ASCII letter. -/
def regexTestAnyCI (keywords : List JsString) (s : JsString) : Bool :=
  keywords.any (fun k => includes (s.map Char.toLower) k)

/-! ## Double-precision arithmetic -/

/-- Nearest integer, ties to the even one. -/
def roundTiesEven (x : ℚ) : ℤ :=
  let f := ⌊x⌋
  let d := x - f
  if d < 1 / 2 then f else if 1 / 2 < d then f + 1 else if f % 2 = 0 then f else f + 1

/-- Round a rational to the nearest double (53 significant bits, ties to
even).  Valid in the normal range of the format. -/
def fl (x : ℚ) : ℚ :=
  if x = 0 then 0
  else
    let u : ℚ := (2 : ℚ) ^ (Int.log 2 |x| - 52)
    (roundTiesEven (x / u) : ℚ) * u

/-- Double addition. -/
def fadd (a b : ℚ) : ℚ := fl (a + b)

/-- Double multiplication. -/
def fmul (a b : ℚ) : ℚ := fl (a * b)

/-- Double division. -/
def fdiv (a b : ℚ) : ℚ := fl (a / b)

/-- The function `Math.round`: the nearest integer, ties towards +∞. -/
def mathRound (x : ℚ) : ℤ := ⌊x + 1 / 2⌋

/-! ## Data model -/

/-- The fields of a job posting that the matcher reads. -/
structure Job where
  title : Option JsString
  description : Option JsString
  skills : Option (List JsString)
  isRemote : Bool
  location : Option JsString
  company : Option JsString
  /-- Every other property of the posting (id, salary, applyLink, ...), by name. -/
  otherFields : List (String × JsString) := []
deriving DecidableEq

/-- The fields of a profile that the matcher reads. -/
structure Profile where
  skills : Option (List JsString)
  yearsOfExperience : Option ℕ
  seniority : Option JsString
  domains : Option (List JsString)
  preferredLocations : Option (List JsString)
  companyPreferences : Option (List JsString)
  /-- Every other property of the profile (name, email, ...), by name. -/
  otherFields : List (String × JsString) := []
deriving DecidableEq

/-- One entry of `MatchResult.factors`. -/
structure Factor where
  score : ℤ
  weight : ℕ
  label : String
deriving DecidableEq

/-- The result of scoring one job against one profile.  `factors` is the
object literal as its list of key/value pairs; `explanation` is missing in the
degraded result. -/
structure MatchResult where
  total : ℤ
  factors : List (String × Factor)
  explanation : Option String
deriving DecidableEq

/-! ## The matcher -/

/-- Rows of `seniorityMap`: the title keywords of each seniority tier, `none`
for a name that is not a key of the object literal.  A name that the literal
inherits from `Object.prototype` (such as "constructor") is not a key either;
what the lookup does with it is told by `expectedKeywords`. -/
def seniorityMap (seniority : JsString) : Option (List JsString) :=
  if seniority = "Executive".toList then
    some ["director".toList, "vp".toList, "chief".toList, "head".toList]
  else if seniority = "Staff / Principal".toList then
    some ["staff".toList, "principal".toList, "distinguished".toList]
  else if seniority = "Senior".toList then
    some ["senior".toList, "sr".toList, "lead".toList]
  else if seniority = "Mid-Level".toList then
    some ["mid".toList, "intermediate".toList, []]
  else if seniority = "Junior / Entry-Level".toList then
    some ["junior".toList, "jr".toList, "associate".toList, "entry".toList, "intern".toList]
  else none

/-- The alternatives of `/(senior|junior|lead|intern|staff)/i`. -/
def midLevelExcluded : List JsString :=
  ["senior".toList, "junior".toList, "lead".toList, "intern".toList, "staff".toList]

/-- Number of profile skills counted as matched: the loop of `calcSkillMatch`. -/
def countMatched (jobSkills : List JsString) (descLower : JsString)
    (userSkills : List JsString) : ℕ :=
  userSkills.foldl
    (fun matched s =>
      if jobSkills.any (fun js => includes js s || includes s js) then matched + 1
      else if includes descLower s then matched + 1
      else matched)
    0

/-- Skill factor. -/
def calcSkillMatch (job : Job) (profile : Profile) : ℤ :=
  if (profile.skills.getD []).length = 0 then 50
  else
    let jobSkills := (job.skills.getD []).map toLowerCase
    let descLower := toLowerCase (job.description.getD [])
    let userSkills := (profile.skills.getD []).map toLowerCase
    let matched := countMatched jobSkills descLower userSkills
    let quotient := fdiv (matched : ℚ) ((max userSkills.length 1 : ℕ) : ℚ)
    mathRound (fmul quotient 100)

/-- Experience factor. -/
def calcExperienceMatch (job : Job) (profile : Profile) : ℤ :=
  match profile.yearsOfExperience with
  | none => 60
  | some years =>
      if years = 0 then 60
      else
        match experiencePattern (toLowerCase (job.description.getD [])) with
        | none => 70
        | some cap =>
            let required := parseInt cap
            let diff : ℤ := (years : ℤ) - (required : ℤ)
            if 0 ≤ diff ∧ diff ≤ 3 then 100
            else if 3 < diff then 80
            else if -1 ≤ diff then 70
            else if -3 ≤ diff then 40
            else 20

/-- Role factor: the number that `calcRoleAlignment` returns.  The call raises
for a seniority that names a property inherited from `Object.prototype`; what
the call does for every seniority is told by `calcRoleAlignmentCall`. -/
def calcRoleAlignment (job : Job) (profile : Profile) : ℤ :=
  let title := toLowerCase (job.title.getD [])
  let domains := (profile.domains.getD []).map toLowerCase
  let expected := ((profile.seniority.bind seniorityMap).getD [])
  let afterSeniority : ℤ :=
    if expected.any (fun k => !k.isEmpty && includes title k) then 50 + 30
    else if profile.seniority = some "Mid-Level".toList
        && !regexTestAnyCI midLevelExcluded title then 50 + 25
    else 50
  let afterDomain : ℤ :=
    if domains.any (fun d =>
        includes title d || includes (toLowerCase (job.description.getD [])) d)
    then afterSeniority + 20
    else afterSeniority
  min 100 afterDomain

/-- The names of the properties that an object literal inherits from
`Object.prototype`. -/
def objectPrototypeNames : List JsString :=
  ["constructor", "hasOwnProperty", "isPrototypeOf", "propertyIsEnumerable",
    "toLocaleString", "toString", "valueOf", "__proto__", "__defineGetter__",
    "__defineSetter__", "__lookupGetter__", "__lookupSetter__"].map String.toList

/-- What a call of `calcRoleAlignment` can raise: the `TypeError`
"expected.some is not a function". -/
inductive RoleError where
  | notAFunction
deriving DecidableEq

/-- The receiver of `expected.some(...)`, where `expected` is
`seniorityMap[profile.seniority] || []`: the keywords of an own key; the empty
array for a missing seniority and for a name the object does not have; for a
name inherited from `Object.prototype` the lookup yields a function or an
object, which is truthy and has no method `some`, and the call raises. -/
def expectedKeywords (seniority : Option JsString) : Except RoleError (List JsString) :=
  match seniority with
  | none => .ok []
  | some name =>
      match seniorityMap name with
      | some keywords => .ok keywords
      | none => if name ∈ objectPrototypeNames then .error .notAFunction else .ok []

/-- The call `calcRoleAlignment(job, profile)`: the role factor, or the error
that the call raises. -/
def calcRoleAlignmentCall (job : Job) (profile : Profile) : Except RoleError ℤ :=
  let title := toLowerCase (job.title.getD [])
  let domains := (profile.domains.getD []).map toLowerCase
  match expectedKeywords profile.seniority with
  | .error e => .error e
  | .ok expected =>
      let afterSeniority : ℤ :=
        if expected.any (fun k => !k.isEmpty && includes title k) then 50 + 30
        else if profile.seniority = some "Mid-Level".toList
            && !regexTestAnyCI midLevelExcluded title then 50 + 25
        else 50
      let afterDomain : ℤ :=
        if domains.any (fun d =>
            includes title d || includes (toLowerCase (job.description.getD [])) d)
        then afterSeniority + 20
        else afterSeniority
      .ok (min 100 afterDomain)

/-- Location factor. -/
def calcLocationFit (job : Job) (profile : Profile) : ℤ :=
  if job.isRemote then 90
  else if (profile.preferredLocations.getD []).length = 0 then 70
  else
    let loc := toLowerCase (job.location.getD [])
    if (profile.preferredLocations.getD []).any (fun pl => includes loc (toLowerCase pl))
    then 100
    else 30

/-- Company factor. -/
def calcCompanyPref (job : Job) (profile : Profile) : ℤ :=
  if (profile.companyPreferences.getD []).length = 0 then 70
  else
    let co := toLowerCase (job.company.getD [])
    if (profile.companyPreferences.getD []).any (fun pref => includes co (toLowerCase pref))
    then 100
    else 50

/-- The array `parts` of `buildExplanation` just before it is joined. -/
def explanationParts (skillScore expScore roleScore : ℤ) : List String :=
  let parts : List String := []
  let parts :=
    if 70 ≤ skillScore then parts ++ ["Strong skill overlap with your profile."]
    else if 40 ≤ skillScore then parts ++ ["Some matching skills found."]
    else parts ++ ["Limited skill overlap — consider upskilling."]
  let parts :=
    if 80 ≤ expScore then parts ++ ["Your experience level is a great fit."]
    else if expScore < 50 then parts ++ ["Experience requirements may be challenging."]
    else parts
  let parts :=
    if 70 ≤ roleScore then parts ++ ["Role aligns well with your career trajectory."]
    else parts
  parts

/-- Explanation text.  The job and the profile are parameters of the source
function as well; its body does not read them. -/
def buildExplanation (skillScore expScore roleScore : ℤ) (_job : Job) (_profile : Profile) :
    String :=
  " ".intercalate (explanationParts skillScore expScore roleScore)

/-- The double written `0.4` in the source. -/
def w04 : ℚ := fl (2 / 5)

/-- The double written `0.2` in the source. -/
def w02 : ℚ := fl (1 / 5)

/-- The double written `0.1` in the source. -/
def w01 : ℚ := fl (1 / 10)

/-- The weighted sum inside `Math.round`, evaluated left to right in doubles. -/
def weightedSum (skillScore expScore roleScore locScore compScore : ℤ) : ℚ :=
  fadd (fadd (fadd (fadd (fmul skillScore w04) (fmul expScore w02)) (fmul roleScore w02))
    (fmul locScore w01)) (fmul compScore w01)

/-- Score one job against one profile: the result that the call returns.
Either argument may be missing.  The call raises only when
`calcRoleAlignmentCall` does. -/
def scoreJob (job : Option Job) (profile : Option Profile) : MatchResult :=
  match profile, job with
  | none, _ => { total := 0, factors := [], explanation := none }
  | _, none => { total := 0, factors := [], explanation := none }
  | some profile, some job =>
      let skillScore := calcSkillMatch job profile
      let expScore := calcExperienceMatch job profile
      let roleScore := calcRoleAlignment job profile
      let locScore := calcLocationFit job profile
      let compScore := calcCompanyPref job profile
      let total := mathRound (weightedSum skillScore expScore roleScore locScore compScore)
      { total := min 100 (max 0 total)
        factors :=
          [("skills", { score := skillScore, weight := 40, label := "Skill Match" }),
           ("experience", { score := expScore, weight := 20, label := "Experience" }),
           ("role", { score := roleScore, weight := 20, label := "Role Alignment" }),
           ("location", { score := locScore, weight := 10, label := "Location Fit" }),
           ("company", { score := compScore, weight := 10, label := "Company Pref" })]
        explanation := some (buildExplanation skillScore expScore roleScore job profile) }

/-! ## Reference definitions

The factor functions as the specification words them, stated with the
substring relation `<:+:` on lists of characters. -/

/-- Location factor as specified. -/
def calcLocationFitSpec (job : Job) (profile : Profile) : ℤ :=
  if job.isRemote = true then 90
  else if profile.preferredLocations = none ∨ profile.preferredLocations = some [] then 70
  else if ∃ pl ∈ profile.preferredLocations.getD [],
      toLowerCase pl <:+: toLowerCase (job.location.getD []) then 100
  else 30

/-- Company factor as specified. -/
def calcCompanyPrefSpec (job : Job) (profile : Profile) : ℤ :=
  if profile.companyPreferences = none ∨ profile.companyPreferences = some [] then 70
  else if ∃ pref ∈ profile.companyPreferences.getD [],
      toLowerCase pref <:+: toLowerCase (job.company.getD []) then 100
  else 50

/-- The skill sentence of an explanation. -/
def skillSentence (skillScore : ℤ) : String :=
  if 70 ≤ skillScore then "Strong skill overlap with your profile."
  else if 40 ≤ skillScore then "Some matching skills found."
  else "Limited skill overlap — consider upskilling."

/-- The experience sentence of an explanation, when there is one. -/
def experienceSentence (expScore : ℤ) : Option String :=
  if 80 ≤ expScore then some "Your experience level is a great fit."
  else if expScore < 50 then some "Experience requirements may be challenging."
  else none

/-- The role sentence of an explanation, when there is one. -/
def roleSentence (roleScore : ℤ) : Option String :=
  if 70 ≤ roleScore then some "Role aligns well with your career trajectory." else none

/-- The sentences of an explanation as specified, in order. -/
def explanationSentences (skillScore expScore roleScore : ℤ) : List String :=
  skillSentence skillScore
    :: ((experienceSentence expScore).toList ++ (roleSentence roleScore).toList)

/-- The experience factor as a function of `diff = profileYears - requiredYears`. -/
def experienceTable (diff : ℤ) : ℤ :=
  if 0 ≤ diff ∧ diff ≤ 3 then 100
  else if 3 < diff then 80
  else if -1 ≤ diff then 70
  else if -3 ≤ diff then 40
  else 20

/-- Some keyword of the list occurs in the title. -/
def containsAny (keywords : List JsString) (title : JsString) : Prop :=
  ∃ k ∈ keywords, k <:+: title

instance (keywords : List JsString) (title : JsString) :
    Decidable (containsAny keywords title) :=
  inferInstanceAs (Decidable (∃ k ∈ keywords, k <:+: title))

/-- Seniority bonus as the claim words it: 30 for a keyword of the profile's
tier in the title; a Mid-Level profile gets 25 when the title has none of
senior/junior/lead/intern/staff and 0 otherwise; 0 in every other case. -/
def seniorityBonusClaimed (seniority : Option JsString) (title : JsString) : ℤ :=
  if seniority = some "Executive".toList then
    if containsAny ["director".toList, "vp".toList, "chief".toList, "head".toList] title
    then 30 else 0
  else if seniority = some "Staff / Principal".toList then
    if containsAny ["staff".toList, "principal".toList, "distinguished".toList] title
    then 30 else 0
  else if seniority = some "Senior".toList then
    if containsAny ["senior".toList, "sr".toList, "lead".toList] title then 30 else 0
  else if seniority = some "Junior / Entry-Level".toList then
    if containsAny
        ["junior".toList, "jr".toList, "associate".toList, "entry".toList, "intern".toList] title
    then 30 else 0
  else if seniority = some "Mid-Level".toList then
    if containsAny midLevelExcluded title then 0 else 25
  else 0

/-- Seniority bonus, amended: a Mid-Level profile gets 30 when the title has
"mid" or "intermediate", and only otherwise 25 or 0 as claimed. -/
def seniorityBonusAmended (seniority : Option JsString) (title : JsString) : ℤ :=
  if seniority = some "Mid-Level".toList then
    if containsAny ["mid".toList, "intermediate".toList] title then 30
    else if containsAny midLevelExcluded title then 0
    else 25
  else seniorityBonusClaimed seniority title

/-- Domain bonus as specified: 20, once, when some lower-cased profile domain
occurs in the lower-cased title or description. -/
def domainBonusSpec (job : Job) (profile : Profile) : ℤ :=
  if ∃ d ∈ profile.domains.getD [],
      toLowerCase d <:+: toLowerCase (job.title.getD [])
        ∨ toLowerCase d <:+: toLowerCase (job.description.getD []) then 20
  else 0

/-- Role factor as the claim words it. -/
def calcRoleAlignmentClaimed (job : Job) (profile : Profile) : ℤ :=
  min 100 (50 + seniorityBonusClaimed profile.seniority (toLowerCase (job.title.getD []))
    + domainBonusSpec job profile)

/-- Role factor, amended. -/
def calcRoleAlignmentAmended (job : Job) (profile : Profile) : ℤ :=
  min 100 (50 + seniorityBonusAmended profile.seniority (toLowerCase (job.title.getD []))
    + domainBonusSpec job profile)

/-- A profile skill counts as matched: some lower-cased job skill is a
substring of it or contains it, or the lower-cased description contains it. -/
def skillMatched (job : Job) (skill : JsString) : Prop :=
  (∃ js ∈ job.skills.getD [],
      toLowerCase js <:+: toLowerCase skill ∨ toLowerCase skill <:+: toLowerCase js)
    ∨ toLowerCase skill <:+: toLowerCase (job.description.getD [])

instance (job : Job) (skill : JsString) : Decidable (skillMatched job skill) :=
  inferInstanceAs (Decidable ((∃ js ∈ job.skills.getD [],
      toLowerCase js <:+: toLowerCase skill ∨ toLowerCase skill <:+: toLowerCase js)
    ∨ toLowerCase skill <:+: toLowerCase (job.description.getD [])))

/-- Number of matched profile skills as specified. -/
def matchedCountSpec (job : Job) (profile : Profile) : ℕ :=
  (profile.skills.getD []).countP (fun skill => decide (skillMatched job skill))

/-- Skill factor as the claim words it: 50 without profile skills, else
`matched / n * 100` rounded to the nearest integer (half up). -/
def calcSkillMatchSpec (job : Job) (profile : Profile) : ℤ :=
  if profile.skills = none ∨ profile.skills = some [] then 50
  else
    ⌊(matchedCountSpec job profile : ℚ) / ((profile.skills.getD []).length : ℚ) * 100 + 1 / 2⌋

/-- Skill factor, amended: the quotient and the product are doubles, and
`Math.round` is applied to the double product. -/
def calcSkillMatchDouble (job : Job) (profile : Profile) : ℤ :=
  if profile.skills = none ∨ profile.skills = some [] then 50
  else
    mathRound (fmul (fdiv (matchedCountSpec job profile : ℚ)
      ((profile.skills.getD []).length : ℚ)) 100)

/-- The exact value `100 * matched / n` lies half-way between two integers. -/
def skillTie (job : Job) (profile : Profile) : Prop :=
  (200 * matchedCountSpec job profile + (profile.skills.getD []).length)
    % (2 * (profile.skills.getD []).length) = 0

instance (job : Job) (profile : Profile) : Decidable (skillTie job profile) :=
  inferInstanceAs (Decidable (_ % _ = 0))

/-! ## Sample inputs -/

/-- A profile of which only the skills are known. -/
def profileWithSkills (skills : List String) : Profile :=
  { skills := some (skills.map String.toList), yearsOfExperience := none, seniority := none,
    domains := none, preferredLocations := none, companyPreferences := none }

/-- Forty different skills; the first twenty-three occur in `stackDescription`. -/
def fortySkills : List String :=
  ["python", "javascript", "typescript", "react", "docker", "kubernetes", "aws", "terraform",
    "postgresql", "redis", "kafka", "graphql", "linux", "git", "jenkins", "ansible", "nginx",
    "mongodb", "django", "flask", "pandas", "numpy", "spark",
    "rust", "golang", "swift", "kotlin", "scala", "haskell", "elixir", "erlang", "perl", "ruby",
    "php", "matlab", "fortran", "cobol", "lua", "julia", "dart"]

/-- A job description that names twenty-three skills. -/
def stackDescription : String :=
  "Stack: python, javascript, typescript, react, docker, kubernetes, aws, terraform, " ++
  "postgresql, redis, kafka, graphql, linux, git, jenkins, ansible, nginx, mongodb, django, " ++
  "flask, pandas, numpy, spark."

/-- A job of which only the description is known. -/
def jobWithDescription (description : String) : Job :=
  { title := none, description := some description.toList, skills := none,
    isRemote := false, location := none, company := none }

/-- A job whose texts have letters outside ASCII, in upper case. -/
def umlautJob : Job :=
  { title := none, description := none, skills := some ["öpnv".toList],
    isRemote := false, location := some "ZÜRICH".toList, company := some "ÖBB".toList }

/-- A profile that names the same skill, place and company in the other case. -/
def umlautProfile : Profile :=
  { skills := some ["ÖPNV".toList], yearsOfExperience := none, seniority := none,
    domains := none, preferredLocations := some ["zürich".toList],
    companyPreferences := some ["öbb".toList] }

/-- A job of which only the title is known. -/
def jobWithTitle (title : String) : Job :=
  { title := some title.toList, description := none, skills := none,
    isRemote := false, location := none, company := none }

/-- A profile of which only the years of experience are known. -/
def profileWithYears (years : ℕ) : Profile :=
  { skills := none, yearsOfExperience := some years, seniority := none,
    domains := none, preferredLocations := none, companyPreferences := none }

/-- A profile of which only the seniority is known. -/
def profileWithSeniority (seniority : String) : Profile :=
  { skills := none, yearsOfExperience := none, seniority := some seniority.toList,
    domains := none, preferredLocations := none, companyPreferences := none }

/-! ## Ranking -/

/-- A job as `rankJobs` returns it: the spread copy of the posting together with
its `matchResult`. -/
structure RankedJob where
  job : Job
  matchResult : MatchResult
deriving DecidableEq

/-- The method `Array.prototype.sort` with a comparator.  The sort is stable
(ECMAScript 2019): `a` stays before `b` unless `compare a b > 0`. -/
def arraySort {α : Type} (compare : α → α → ℤ) (l : List α) : List α :=
  l.insertionSort (fun a b => compare a b ≤ 0)

/-- The object `{ ...job, matchResult: scoreJob(job, profile) }`. -/
def annotate (profile : Option Profile) (job : Job) : RankedJob :=
  { job := job, matchResult := scoreJob (some job) profile }

/-- Annotate every job with its match result and sort by total, descending. -/
def rankJobs (jobs : List Job) (profile : Option Profile) : List RankedJob :=
  arraySort (fun a b => b.matchResult.total - a.matchResult.total) (jobs.map (annotate profile))

/-- A profile for the ranking example. -/
def rankingProfile : Profile :=
  { skills := some ["go".toList, "rust".toList], yearsOfExperience := some 5,
    seniority := some "Senior".toList, domains := none, preferredLocations := none,
    companyPreferences := none }

/-- A job that scores 30 against `rankingProfile`. -/
def jobThirty : Job :=
  { title := none, description := some "9 years COBOL".toList, skills := none,
    isRemote := true, location := none, company := none }

/-- A job that scores 90 against `rankingProfile`. -/
def jobNinety : Job :=
  { title := some "Senior Engineer".toList, description := some "Go and Rust, 3 years".toList,
    skills := none, isRemote := false, location := none, company := none }

/-- A job that scores 60 against `rankingProfile`. -/
def jobSixty : Job :=
  { title := some "Engineer".toList, description := some "Rust, 1 year".toList,
    skills := none, isRemote := false, location := none, company := none }

/-- The job `jobSixty` as another source lists it: same scored fields, other
identifier and salary. -/
def jobSixtyRelisted : Job :=
  { jobSixty with
    otherFields := [("id", "arbeitnow-77".toList), ("salary", "$90k".toList)] }

/-- The profile `rankingProfile` with a name and an email. -/
def rankingProfileNamed : Profile :=
  { rankingProfile with
    otherFields := [("name", "Ada".toList), ("email", "ada@example.org".toList)] }

/-! ## Regular expressions

A backtracking matcher for the regular expressions of `resumeParser.js`.  A
match state lists every way a pattern can match, in the priority order of the
ECMAScript matcher: the first entry is the match the engine reports.  Inside
a repetition a capture keeps the value of its last iteration.  A character
outside the Basic Multilingual Plane is one character here; no pattern of the
parser can match inside a surrogate pair. -/

/-- An item between the brackets of a character class. -/
inductive ClassItem where
  | range (lo hi : Char)
  | space
  | nonSpace
  | digit
deriving DecidableEq

/-- The abstract syntax of a pattern. -/
inductive Regex where
  | empty
  | char (c : Char)
  | anyChar
  | charClass (negated : Bool) (items : List ClassItem)
  | lineStart
  | lineEnd
  | wordBoundary
  | seq (r1 r2 : Regex)
  | alt (r1 r2 : Regex)
  | rep (min : ℕ) (max : Option ℕ) (greedy : Bool) (r : Regex)
  | group (index : ℕ) (r : Regex)
deriving DecidableEq

/-- The flags `i` and `m`. -/
structure RegexFlags where
  ignoreCase : Bool
  multiline : Bool
deriving DecidableEq

/-- A position in the subject: the text before it (nearest character first),
the text from it on, and the captures made so far. -/
structure MatchState where
  before : List Char
  rest : List Char
  captures : List (ℕ × JsString)
deriving DecidableEq

/-- A successful match: the text before it, the matched text, the state at its
end and the captures. -/
structure RegexMatch where
  leading : JsString
  matched : JsString
  stop : MatchState
deriving DecidableEq

/-- Line terminators: LF, CR, LS, PS. -/
def isLineTerminator (c : Char) : Bool := decide (c.toNat ∈ [10, 13, 8232, 8233])

/-- The class `\w`. -/
def isWordChar (c : Char) : Bool := c.isAlphanum || decide (c.toNat = 95)

/-- Equality of a pattern character and a subject character under the flag `i`. -/
def charEq (ignoreCase : Bool) (a b : Char) : Bool :=
  if ignoreCase then decide (a.toLower = b.toLower) else decide (a = b)

/-- Whether a class item admits the character, under the flag `i`. -/
def ClassItem.admits (ignoreCase : Bool) (c : Char) : ClassItem → Bool
  | .range lo hi =>
      let within := fun (x : Char) => decide (lo.toNat ≤ x.toNat ∧ x.toNat ≤ hi.toNat)
      within c || (ignoreCase && (within c.toLower || within c.toUpper))
  | .space => isRegexSpace c
  | .nonSpace => !isRegexSpace c
  | .digit => isRegexDigit c

/-- Consume one character that satisfies `p`. -/
def MatchState.step (s : MatchState) (p : Char → Bool) : List MatchState :=
  match s.rest with
  | x :: xs => if p x then [{ s with before := x :: s.before, rest := xs }] else []
  | [] => []

/-- The text consumed between two states of one run. -/
def MatchState.consumedTo (s s2 : MatchState) : JsString :=
  s.rest.take (s.rest.length - s2.rest.length)

/-- The repetition `body{min,max}`, greedy or lazy.  Once `min` is met, an
iteration that consumes nothing is rejected, so `fuel` above the length of the
remaining text plus `min` is never exhausted. -/
def repLoop (body : MatchState → List MatchState) (greedy : Bool) :
    ℕ → ℕ → Option ℕ → MatchState → List MatchState
  | 0, min, _, s => if min = 0 then [s] else []
  | fuel + 1, min, max, s =>
      if max = some 0 then [s]
      else
        let more := (body s).flatMap fun s2 =>
          if min = 0 ∧ s2.rest.length = s.rest.length then []
          else repLoop body greedy fuel (min - 1) (max.map (fun k => k - 1)) s2
        if 0 < min then more
        else if greedy then more ++ [s]
        else s :: more

/-- Every way the pattern matches at the state, best first. -/
def Regex.run (flags : RegexFlags) : Regex → MatchState → List MatchState
  | .empty, s => [s]
  | .char c, s => s.step (fun x => charEq flags.ignoreCase c x)
  | .anyChar, s => s.step (fun x => !isLineTerminator x)
  | .charClass negated items, s =>
      s.step (fun x => (items.any (fun item => item.admits flags.ignoreCase x)) != negated)
  | .lineStart, s =>
      match s.before with
      | [] => [s]
      | x :: _ => if flags.multiline && isLineTerminator x then [s] else []
  | .lineEnd, s =>
      match s.rest with
      | [] => [s]
      | x :: _ => if flags.multiline && isLineTerminator x then [s] else []
  | .wordBoundary, s =>
      let a := match s.before with
        | [] => false
        | x :: _ => isWordChar x
      let b := match s.rest with
        | [] => false
        | x :: _ => isWordChar x
      if a != b then [s] else []
  | .seq r1 r2, s => (r1.run flags s).flatMap (fun s2 => r2.run flags s2)
  | .alt r1 r2, s => r1.run flags s ++ r2.run flags s
  | .rep min max greedy r, s => repLoop (r.run flags) greedy (s.rest.length + min + 1) min max s
  | .group index r, s =>
      (r.run flags s).map fun s2 =>
        { s2 with
          captures := (index, s.consumedTo s2) :: s2.captures.filter (fun kv => kv.1 != index) }

/-- The match that starts exactly at the given position, if any. -/
def Regex.execAt (flags : RegexFlags) (r : Regex) (before rest : List Char) :
    Option RegexMatch :=
  ((r.run flags { before := before, rest := rest, captures := [] }).head?).map fun s2 =>
    { leading := before.reverse, matched := rest.take (rest.length - s2.rest.length), stop := s2 }

/-- The leftmost match at or after the given position. -/
def Regex.execFrom (flags : RegexFlags) (r : Regex) : List Char → List Char → Option RegexMatch
  | before, [] => r.execAt flags before []
  | before, c :: cs =>
      match r.execAt flags before (c :: cs) with
      | some m => some m
      | none => r.execFrom flags (c :: before) cs

/-- The call `text.match(re)` for a pattern without the flag `g`. -/
def Regex.exec (flags : RegexFlags) (r : Regex) (text : JsString) : Option RegexMatch :=
  r.execFrom flags [] text

/-- The call `re.test(text)` on a fresh pattern. -/
def Regex.test (flags : RegexFlags) (r : Regex) (text : JsString) : Bool :=
  (r.exec flags text).isSome

/-- Capture group `index` of a match; unset groups read as the empty string. -/
def RegexMatch.capture (m : RegexMatch) (index : ℕ) : JsString :=
  ((m.stop.captures.find? (fun kv => kv.1 == index)).map (fun kv => kv.2)).getD []

/-- The successive matches of `text.match(re)` for a pattern with the flag `g`;
after an empty match the search resumes one character further. -/
def Regex.matchAllFrom (flags : RegexFlags) (r : Regex) :
    ℕ → List Char → List Char → List JsString
  | 0, _, _ => []
  | fuel + 1, before, rest =>
      match r.execFrom flags before rest with
      | none => []
      | some m =>
          if m.matched.isEmpty then
            match m.stop.rest with
            | [] => [m.matched]
            | c :: cs => m.matched :: r.matchAllFrom flags fuel (c :: m.stop.before) cs
          else m.matched :: r.matchAllFrom flags fuel m.stop.before m.stop.rest

/-- All matches of a global pattern, in order. -/
def Regex.matchAll (flags : RegexFlags) (r : Regex) (text : JsString) : List JsString :=
  r.matchAllFrom flags (text.length + 1) [] text

/-- The call `text.replace(re, replacement)` for a pattern without the flag `g`. -/
def Regex.replaceFirst (flags : RegexFlags) (r : Regex) (text replacement : JsString) :
    JsString :=
  match r.exec flags text with
  | none => text
  | some m => m.leading ++ replacement ++ m.stop.rest

/-- The pattern that matches the given text literally. -/
def Regex.lit : List Char → Regex
  | [] => .empty
  | c :: cs => .seq (.char c) (Regex.lit cs)

/-- The alternation of the given patterns, first alternative first. -/
def Regex.anyOf : List Regex → Regex
  | [] => .charClass false []
  | [r] => r
  | r :: rs => .alt r (Regex.anyOf rs)

/-- The sequence of the given patterns. -/
def Regex.seqs : List Regex → Regex
  | [] => .empty
  | r :: rs => .seq r (Regex.seqs rs)

/-! ## Resume parser

The parser of `resumeParser.js`.  The profile fields modelled are those the
stated properties are about; the other fields (name, email, phone, city,
country, current role, CTC, summary) come from pattern matches on the text
that cannot raise and that these fields do not depend on. -/

/-- Why the `RegExp` constructor rejects a pattern. -/
inductive PatternError where
  | nothingToRepeat
  | outsideModel
deriving DecidableEq

/-- What `parseResume` raises: `Error('No text provided')`,
`Error('Text too short to analyze')`, or the `SyntaxError` of the `RegExp`
constructor for the pattern with the given source. -/
inductive ParseError where
  | noText
  | tooShort
  | invalidPattern (source : JsString) (reason : PatternError)
deriving DecidableEq

/-- The last term read by the pattern parser, to which a quantifier may still
apply. -/
inductive Pending where
  | nothing
  | atom (r : Regex)
  | quantified (min : ℕ) (max : Option ℕ) (r : Regex)
  | quantifiedLazy (min : ℕ) (max : Option ℕ) (r : Regex)
deriving DecidableEq

/-- Append the pending term to the sequence read so far. -/
def Pending.flush (acc : Regex) : Pending → Regex
  | .nothing => acc
  | .atom r => .seq acc r
  | .quantified min max r => .seq acc (.rep min max true r)
  | .quantifiedLazy min max r => .seq acc (.rep min max false r)

/-- The pattern syntax that a keyword of the tables can contain.  A letter, a
digit, a blank or a slash is a literal; a dot is any character; `+`, `*` and
`?` quantify the preceding atom, and `?` after a quantifier makes it lazy.  A
quantifier with no atom to apply to is the error "Nothing to repeat".  The
other syntax characters occur in no keyword and are outside the model. -/
def parseKeyword : List Char → Regex → Pending → Except PatternError Regex
  | [], acc, pending => .ok (pending.flush acc)
  | c :: cs, acc, pending =>
      if c = '+' ∨ c = '*' ∨ c = '?' then
        match pending with
        | .atom r =>
            if c = '+' then parseKeyword cs acc (.quantified 1 none r)
            else if c = '*' then parseKeyword cs acc (.quantified 0 none r)
            else parseKeyword cs acc (.quantified 0 (some 1) r)
        | .quantified min max r =>
            if c = '?' then parseKeyword cs acc (.quantifiedLazy min max r)
            else .error .nothingToRepeat
        | _ => .error .nothingToRepeat
      else if c = '.' then parseKeyword cs (pending.flush acc) (.atom .anyChar)
      else if c.toNat ∈ [36, 40, 41, 91, 92, 93, 94, 123, 124, 125] then .error .outsideModel
      else parseKeyword cs (pending.flush acc) (.atom (.char c))

/-- The pattern with source `\b` + keyword + `\b`. -/
def wordPattern (keyword : JsString) : Except PatternError Regex :=
  match parseKeyword keyword .wordBoundary .nothing with
  | .ok r => .ok (.seq r .wordBoundary)
  | .error e => .error e

/-- The callback `new RegExp("\\b" + keyword + "\\b", 'i').test(text)`. -/
def keywordTest (text keyword : JsString) : Except ParseError Bool :=
  match wordPattern keyword with
  | .ok r => .ok (r.test { ignoreCase := true, multiline := false } text)
  | .error e => .error (.invalidPattern ("\\b".toList ++ keyword ++ "\\b".toList) e)

/-- The method `Array.prototype.filter` with a callback that may raise. -/
def filterE {ε α : Type} (f : α → Except ε Bool) : List α → Except ε (List α)
  | [] => .ok []
  | x :: xs =>
      match f x with
      | .error e => .error e
      | .ok keep =>
          match filterE f xs with
          | .error e => .error e
          | .ok ys => .ok (if keep then x :: ys else ys)

/-- The method `Array.prototype.some` with a callback that may raise; it stops
at the first element the callback accepts. -/
def someE {ε α : Type} (f : α → Except ε Bool) : List α → Except ε Bool
  | [] => .ok false
  | x :: xs =>
      match f x with
      | .error e => .error e
      | .ok true => .ok true
      | .ok false => someE f xs

/-- The table `SKILL_KEYWORDS`. -/
def SKILL_KEYWORDS : List JsString :=
  ["JavaScript", "TypeScript", "React", "Vue", "Angular", "Node.js", "Python", "Java", "C++",
    "Go", "Rust", "AWS", "Azure", "GCP", "Docker", "Kubernetes", "SQL", "NoSQL", "MongoDB",
    "PostgreSQL", "Redis", "GraphQL", "REST", "CI/CD", "Git", "Agile", "Scrum", "TDD",
    "Machine Learning", "AI", "Data Science", "Big Data", "UI/UX", "Figma", "System Design",
    "Microservices"].map String.toList

/-- A row of `DOMAIN_KEYWORDS`. -/
structure DomainRow where
  name : JsString
  keywords : List JsString
deriving DecidableEq

/-- The table `DOMAIN_KEYWORDS`. -/
def DOMAIN_KEYWORDS : List DomainRow :=
  [ { name := "Frontend".toList,
      keywords := ["React", "Vue", "Angular", "CSS", "HTML", "Frontend", "UI"].map String.toList },
    { name := "Backend".toList,
      keywords :=
        ["Node.js", "Python", "Java", "Go", "Backend", "API", "Database"].map String.toList },
    { name := "Full Stack".toList,
      keywords := ["Full Stack", "MERN", "MEAN"].map String.toList },
    { name := "DevOps".toList,
      keywords :=
        ["Docker", "Kubernetes", "AWS", "CI/CD", "DevOps", "Terraform"].map String.toList },
    { name := "Data".toList,
      keywords :=
        ["Data Science", "Machine Learning", "Big Data", "SQL", "Python", "Analytics"].map
          String.toList },
    { name := "Mobile".toList,
      keywords :=
        ["React Native", "Flutter", "iOS", "Android", "Swift", "Kotlin"].map String.toList } ]

/-- The property `length` of a string: its number of UTF-16 code units. -/
def jsLength (s : JsString) : ℕ := (s.map (fun c => if c.toNat < 65536 then 1 else 2)).sum

/-- The call `text.split(sep)` for a one-character separator. -/
def splitOnChar (sep : Char) : List Char → List JsString
  | [] => [[]]
  | c :: cs =>
      if c = sep then [] :: splitOnChar sep cs
      else
        match splitOnChar sep cs with
        | [] => [[c]]
        | l :: ls => (c :: l) :: ls

/-- The method `String.prototype.trim`. -/
def trim (s : JsString) : JsString :=
  (((s.dropWhile isRegexSpace).reverse).dropWhile isRegexSpace).reverse

/-- The array `[...new Set(xs)]`: the first occurrence of each value, in order. -/
def uniqueInOrder (xs : List JsString) : List JsString :=
  xs.foldl (fun seen x => if x ∈ seen then seen else seen ++ [x]) []

/-- The flags of a pattern written `/.../i`. -/
def flagsI : RegexFlags := { ignoreCase := true, multiline := false }

/-- The flags of a pattern written without `i` and `m`. -/
def flagsNone : RegexFlags := { ignoreCase := false, multiline := false }

/-- The class `[a-zA-Z0-9_-]`. -/
def slugClass : Regex :=
  .charClass false [.range 'a' 'z', .range 'A' 'Z', .range '0' '9', .range '_' '_',
    .range '-' '-']

/-- The pattern `/linkedin\.com\/in\/[a-zA-Z0-9_-]+/i`. -/
def linkedinPattern : Regex :=
  .seq (Regex.lit "linkedin.com/in/".toList) (.rep 1 none true slugClass)

/-- The pattern `/github\.com\/[a-zA-Z0-9_-]+/i`. -/
def githubPattern : Regex :=
  .seq (Regex.lit "github.com/".toList) (.rep 1 none true slugClass)

/-- The pattern
`/(https?:\/\/)?(www\.)?([a-zA-Z0-9-]+\.)+[a-zA-Z]{2,}(\/[a-zA-Z0-9_-]+)*\/?/g`. -/
def portfolioPattern : Regex :=
  Regex.seqs
    [ .rep 0 (some 1) true
        (.group 1 (Regex.seqs [Regex.lit "http".toList, .rep 0 (some 1) true (.char 's'),
          Regex.lit "://".toList])),
      .rep 0 (some 1) true (.group 2 (Regex.lit "www.".toList)),
      .rep 1 none true
        (.group 3 (.seq
          (.rep 1 none true
            (.charClass false [.range 'a' 'z', .range 'A' 'Z', .range '0' '9', .range '-' '-']))
          (.char '.'))),
      .rep 2 none true (.charClass false [.range 'a' 'z', .range 'A' 'Z']),
      .rep 0 none true (.group 4 (.seq (.char '/') (.rep 1 none true slugClass))),
      .rep 0 (some 1) true (.char '/') ]

/-- The pattern
`/(?:experience|employment|work history)([\s\S]*?)(?:education|skills|projects|$)/i`. -/
def sectionPattern : Regex :=
  Regex.seqs
    [ Regex.anyOf [Regex.lit "experience".toList, Regex.lit "employment".toList,
        Regex.lit "work history".toList],
      .group 1 (.rep 0 none false (.charClass false [.space, .nonSpace])),
      Regex.anyOf [Regex.lit "education".toList, Regex.lit "skills".toList,
        Regex.lit "projects".toList, .lineEnd] ]

/-- The pattern `/(\d+)\s+years?/i`. -/
def yearsPattern : Regex :=
  Regex.seqs
    [ .group 1 (.rep 1 none true (.charClass false [.digit])),
      .rep 1 none true (.charClass false [.space]),
      Regex.lit "year".toList,
      .rep 0 (some 1) true (.char 's') ]

/-- The pattern `/senior|lead|principal|architect|manager/i`. -/
def seniorityPattern : Regex :=
  Regex.anyOf (["senior", "lead", "principal", "architect", "manager"].map
    (fun w => Regex.lit w.toList))

/-- The pattern `/improved|increased|reduced|led|built|launched|managed/i`. -/
def achievementPattern : Regex :=
  Regex.anyOf (["improved", "increased", "reduced", "led", "built", "launched", "managed"].map
    (fun w => Regex.lit w.toList))

/-- The pattern `/^[•\-\*]\s*/`. -/
def bulletPattern : Regex :=
  Regex.seqs
    [ .lineStart,
      .charClass false [.range '•' '•', .range '-' '-', .range '*' '*'],
      .rep 0 none true (.charClass false [.space]) ]

/-- The expression `m.startsWith('http') ? m : 'https://' + m`. -/
def withHttps (m : JsString) : JsString :=
  if "http".toList.isPrefixOf m then m else "https://".toList ++ m

/-- The first URL-like match of the text that contains none of linkedin,
github, google and facebook. -/
def portfolioMatch (text : JsString) : Option JsString :=
  (portfolioPattern.matchAll flagsNone text).find? fun url =>
    !includes url "linkedin".toList && !includes url "github".toList
      && !includes url "google".toList && !includes url "facebook".toList

/-- The experience section: capture 1 of the section pattern, or the empty
string. -/
def experienceSection (text : JsString) : JsString :=
  match sectionPattern.exec flagsI text with
  | some m => m.capture 1
  | none => []

/-- The years of experience read from the experience section, 0 by default. -/
def yearsOfExperience (sectionText : JsString) : ℕ :=
  match yearsPattern.exec flagsI sectionText with
  | some m => parseInt (m.capture 1)
  | none => 0

/-- The seniority label chosen from the years and the text. -/
def detectSeniority (years : ℕ) (text : JsString) : JsString :=
  if 5 < years ∨ seniorityPattern.test flagsI text = true then "Senior".toList
  else if 2 < years then "Mid-Level".toList
  else "Junior".toList

/-- The achievements of an experience section. -/
def extractAchievements (text : JsString) : List JsString :=
  (((splitOnChar (Char.ofNat 10) text).filter (fun l => achievementPattern.test flagsI l)).map
    (fun l => trim (bulletPattern.replaceFirst flagsNone l []))).take 3

/-- The profile fields that `parseResume` returns and the properties below
are about. -/
structure ParsedProfile where
  linkedin_url : JsString
  github_url : JsString
  portfolio_url : JsString
  skills : List JsString
  yearsOfExperience : ℕ
  seniority : JsString
  domains : List JsString
  achievements : List JsString
deriving DecidableEq

/-- Extract a profile from resume text. -/
def parseResume (text : Option JsString) : Except ParseError ParsedProfile :=
  match text with
  | none => .error .noText
  | some text =>
      if text.isEmpty then .error .noText
      else if jsLength text < 50 then .error .tooShort
      else
        let linkedinMatch := linkedinPattern.exec flagsI text
        let githubMatch := githubPattern.exec flagsI text
        let portfolio := portfolioMatch text
        let sectionText := experienceSection text
        let years := yearsOfExperience sectionText
        match filterE (keywordTest text) SKILL_KEYWORDS with
        | .error e => .error e
        | .ok detectedSkills =>
            match filterE (fun row => someE (keywordTest text) row.keywords) DOMAIN_KEYWORDS with
            | .error e => .error e
            | .ok rows =>
                .ok
                  { linkedin_url := (linkedinMatch.map (fun m => withHttps m.matched)).getD []
                    github_url := (githubMatch.map (fun m => withHttps m.matched)).getD []
                    portfolio_url := (portfolio.map withHttps).getD []
                    skills := uniqueInOrder detectedSkills
                    yearsOfExperience := years
                    seniority := detectSeniority years text
                    domains := uniqueInOrder (rows.map (fun row => row.name))
                    achievements := extractAchievements sectionText }

/-- A resume text of 66 characters. -/
def sampleResume : JsString :=
  "Jane Doe, backend developer. Five years of Python and SQL at Acme.".toList

/-- A resume text that names React more than once. -/
def resumeRepeatedSkill : JsString :=
  "React developer. React, Vue and React Native apps for five years at Acme Corp.".toList

/-- A resume text of a senior engineer. -/
def resumeSenior : JsString :=
  "Senior Software Engineer with 8 years of experience building data platforms.".toList

/-- An experience section with an indented bullet and a doubled bullet. -/
def sectionWithBullets : JsString :=
  [Char.ofNat 10] ++ "  - Led the platform team".toList ++ [Char.ofNat 10]
    ++ "* * Built the billing service".toList ++ [Char.ofNat 10]

/-- A resume text whose experience section is `sectionWithBullets`. -/
def resumeWithBullets : JsString :=
  "Jane Doe, platform engineer".toList ++ [Char.ofNat 10] ++ "Experience".toList
    ++ sectionWithBullets ++ "Education: MIT".toList

/-- A resume text that names a site whose host begins with the letters http. -/
def resumeWithSite : JsString :=
  "Portfolio at httpbin.org/jane and linkedin.com/in/jane-doe, open to backend roles.".toList

/-- The resume text of the parsing example. -/
def resumeExample : JsString :=
  ("Senior Software Engineer with 8 years of experience... Led migration to Kubernetes, "
    ++ "increased throughput by 40%").toList

/-! ## Job search: normalisation, filtering and deduplication

The pure part of `src/services/jobSearch.js`.  The two network fetches are
inputs: a response is the list of raw postings, or nothing when the request
failed. -/

/-- The call `text.replace(re, replacement)` for a pattern with the flag `g`:
the text between matches is copied and every match is replaced; after an empty
match one character is copied.  Offsets are counted from the start of `rest`. -/
def Regex.replaceAllFrom (flags : RegexFlags) (r : Regex) (replacement : JsString) :
    ℕ → List Char → List Char → JsString
  | 0, _, rest => rest
  | fuel + 1, before, rest =>
      match r.execFrom flags before rest with
      | none => rest
      | some m =>
          let start := m.leading.length - before.length
          let stop := rest.length - m.stop.rest.length
          if stop = start then
            match rest.drop stop with
            | [] => rest.take start ++ replacement
            | c :: cs =>
                rest.take start ++ replacement
                  ++ c :: r.replaceAllFrom flags replacement fuel
                    (c :: ((rest.take stop).reverse ++ before)) cs
          else
            rest.take start ++ replacement
              ++ r.replaceAllFrom flags replacement fuel ((rest.take stop).reverse ++ before)
                (rest.drop stop)

/-- Replace every match of a global pattern. -/
def Regex.replaceAll (flags : RegexFlags) (r : Regex) (text replacement : JsString) : JsString :=
  r.replaceAllFrom flags replacement (text.length + 1) [] text

/-- The call `text.replace(c, replacement)` for a one-character string `c`:
the first occurrence is replaced. -/
def replaceFirstChar (c : Char) (replacement : JsString) : JsString → JsString
  | [] => []
  | x :: xs => if x = c then replacement ++ xs else x :: replaceFirstChar c replacement xs

/-- The call `parts.join(sep)`. -/
def joinWith (sep : JsString) : List JsString → JsString
  | [] => []
  | [x] => x
  | x :: y :: rest => x ++ sep ++ joinWith sep (y :: rest)

/-- The expression `value || fallback` for a string property: an absent or
empty value gives the fallback. -/
def orElse (value : Option JsString) (fallback : JsString) : JsString :=
  match value with
  | some s => if s.isEmpty then fallback else s
  | none => fallback

/-- The expression `value || null` for a string property. -/
def orNull (value : Option JsString) : Option JsString :=
  match value with
  | some s => if s.isEmpty then none else some s
  | none => none

/-- The class `[^>]`. -/
def notGreater : Regex := .charClass true [.range '>' '>']

/-- The pattern `/<br\s*\/?>/gi`. -/
def brPattern : Regex :=
  Regex.seqs
    [ Regex.lit "<br".toList, .rep 0 none true (.charClass false [.space]),
      .rep 0 (some 1) true (.char '/'), .char '>' ]

/-- The pattern `/<\/?(p|div|li|h[1-6])[^>]*>/gi`. -/
def blockPattern : Regex :=
  Regex.seqs
    [ .char '<', .rep 0 (some 1) true (.char '/'),
      .group 1 (Regex.anyOf [Regex.lit "p".toList, Regex.lit "div".toList, Regex.lit "li".toList,
        .seq (.char 'h') (.charClass false [.range '1' '6'])]),
      .rep 0 none true notGreater, .char '>' ]

/-- The pattern `/<[^>]+>/g`. -/
def tagPattern : Regex :=
  Regex.seqs [.char '<', .rep 1 none true notGreater, .char '>']

/-- The pattern `/&#\d+;/g`. -/
def numericEntityPattern : Regex :=
  Regex.seqs [Regex.lit "&#".toList, .rep 1 none true (.charClass false [.digit]), .char ';']

/-- The pattern `/\n{3,}/g`. -/
def newlinesPattern : Regex := .rep 3 none true (.char (Char.ofNat 10))

/-- The pattern `/\s+/g`. -/
def spacesPattern : Regex := .rep 1 none true (.charClass false [.space])

/-- The flags of a pattern written `/.../gi`, as far as matching goes. -/
def flagsGI : RegexFlags := { ignoreCase := true, multiline := false }

/-- The text after the three tag replacements of `stripHtml`. -/
def removeTags (html : JsString) : JsString :=
  let s := brPattern.replaceAll flagsGI html [Char.ofNat 10]
  let s := blockPattern.replaceAll flagsGI s [Char.ofNat 10]
  tagPattern.replaceAll flagsNone s []

/-- The entity replacements of `stripHtml`, in source order. -/
def replaceEntities (s : JsString) : JsString :=
  let s := (Regex.lit "&amp;".toList).replaceAll flagsNone s "&".toList
  let s := (Regex.lit "&lt;".toList).replaceAll flagsNone s "<".toList
  let s := (Regex.lit "&gt;".toList).replaceAll flagsNone s ">".toList
  let s := (Regex.lit "&nbsp;".toList).replaceAll flagsNone s " ".toList
  numericEntityPattern.replaceAll flagsNone s []

/-- Plain text of an HTML description. -/
def stripHtml (html : JsString) : JsString :=
  trim (newlinesPattern.replaceAll flagsNone (replaceEntities (removeTags html))
    [Char.ofNat 10, Char.ofNat 10])

/-- The table `check` of `extractJobSkills`: keyword and label. -/
def skillTable : List (JsString × JsString) :=
  [("python", "Python"), ("javascript", "JavaScript"), ("typescript", "TypeScript"),
    ("react", "React"), ("node.js", "Node.js"), ("aws", "AWS"), ("docker", "Docker"),
    ("kubernetes", "Kubernetes"), ("sql", "SQL"), ("java ", "Java"), ("golang", "Go"),
    ("rust", "Rust"), ("c++", "C++"), ("angular", "Angular"), ("vue", "Vue.js"),
    ("postgresql", "PostgreSQL"), ("mongodb", "MongoDB"), ("redis", "Redis"),
    ("tensorflow", "TensorFlow"), ("pytorch", "PyTorch"), ("kafka", "Kafka"),
    ("terraform", "Terraform"), ("linux", "Linux"), ("azure", "Azure"), ("gcp", "GCP"),
    ("graphql", "GraphQL"), ("rest api", "REST API"), ("ci/cd", "CI/CD"),
    ("machine learning", "ML"), ("data engineer", "Data Eng"),
    ("agile", "Agile"), ("scrum", "Scrum"), ("next.js", "Next.js"),
    ("django", "Django"), ("flask", "Flask"), ("spring", "Spring")].map
    (fun kv => (kv.1.toList, kv.2.toList))

/-- The call `set.add(x)` on a set kept in insertion order. -/
def setAdd (seen : List JsString) (x : JsString) : List JsString :=
  if x ∈ seen then seen else seen ++ [x]

/-- The text that `extractJobSkills` scans: `(desc + ' ' + tags.join(' '))`,
lower-cased. -/
def skillScanText (desc : JsString) (tags : List JsString) : JsString :=
  toLowerCase (desc ++ " ".toList ++ joinWith " ".toList tags)

/-- Skills of a posting: its tags, then the labels whose keyword occurs in the
description or the tags; at most eight. -/
def extractJobSkills (desc : JsString) (tags : List JsString) : List JsString :=
  let skills := uniqueInOrder ((tags.map trim).filter (fun t => !t.isEmpty))
  let lower := skillScanText desc tags
  let skills := skillTable.foldl
    (fun acc kv => if includes lower kv.1 then setAdd acc kv.2 else acc) skills
  skills.take 8

/-- A normalized posting. `companyLogo` and `salary` may be `null`. -/
structure NormalizedJob where
  id : JsString
  title : JsString
  company : JsString
  companyLogo : Option JsString
  location : JsString
  isRemote : Bool
  employmentType : JsString
  description : JsString
  salary : Option JsString
  applyLink : JsString
  postedAt : JsString
  skills : List JsString
  source : JsString
  category : JsString
deriving DecidableEq

/-- The properties of a raw Remotive posting that the normaliser reads.  The
identifier is given by its string form; an absent property is `none`. -/
structure RawRemotive where
  id : Option JsString := none
  title : Option JsString := none
  company_name : Option JsString := none
  company_logo : Option JsString := none
  candidate_required_location : Option JsString := none
  job_type : Option JsString := none
  description : Option JsString := none
  salary : Option JsString := none
  url : Option JsString := none
  publication_date : Option JsString := none
  tags : Option (List JsString) := none
  category : Option JsString := none
deriving DecidableEq

/-- The properties of a raw Arbeitnow posting that the normaliser reads;
`created_at` is a number of seconds. -/
structure RawArbeitnow where
  slug : Option JsString := none
  title : Option JsString := none
  company_name : Option JsString := none
  location : Option JsString := none
  remote : Option Bool := none
  description : Option JsString := none
  url : Option JsString := none
  created_at : Option ℤ := none
  tags : Option (List JsString) := none
deriving DecidableEq

/-- The template value of a property that may be absent: an absent value
prints as `undefined`. -/
def templateValue (value : Option JsString) : JsString :=
  match value with
  | some s => s
  | none => "undefined".toList

/-- Normalise a Remotive posting. -/
def normalizeRemotive (raw : RawRemotive) : NormalizedJob :=
  { id := "remotive-".toList ++ templateValue raw.id
    title := orElse raw.title "Untitled".toList
    company := orElse raw.company_name "Unknown".toList
    companyLogo := orNull raw.company_logo
    location := orElse raw.candidate_required_location "Worldwide".toList
    isRemote := true
    employmentType := replaceFirstChar '_' " ".toList (orElse raw.job_type "full_time".toList)
    description := stripHtml (orElse raw.description [])
    salary := orNull raw.salary
    applyLink := orElse raw.url []
    postedAt := orElse raw.publication_date []
    skills := extractJobSkills (orElse raw.description []) (raw.tags.getD [])
    source := "Remotive".toList
    category := orElse raw.category [] }

/-- A decimal digit. -/
def digitChar (d : ℕ) : Char := Char.ofNat (48 + d % 10)

/-- Two decimal digits. -/
def pad2 (n : ℕ) : JsString := [digitChar (n / 10), digitChar n]

/-- Three decimal digits. -/
def pad3 (n : ℕ) : JsString := [digitChar (n / 100), digitChar (n / 10), digitChar n]

/-- Four decimal digits. -/
def pad4 (n : ℕ) : JsString :=
  [digitChar (n / 1000), digitChar (n / 100), digitChar (n / 10), digitChar n]

/-- Six decimal digits. -/
def pad6 (n : ℕ) : JsString :=
  [digitChar (n / 100000), digitChar (n / 10000), digitChar (n / 1000), digitChar (n / 100),
    digitChar (n / 10), digitChar n]

/-- Year, month and day of the proleptic Gregorian calendar for a day number
counted from 1970-01-01. -/
def civilFromDays (days : ℤ) : ℤ × ℕ × ℕ :=
  let z := days + 719468
  let era := z / 146097
  let doe := z - era * 146097
  let yoe := (doe - doe / 1460 + doe / 36524 - doe / 146096) / 365
  let y := yoe + era * 400
  let doy := doe - (365 * yoe + yoe / 4 - yoe / 100)
  let mp := (5 * doy + 2) / 153
  let d := doy - (153 * mp + 2) / 5 + 1
  let m := if mp < 10 then mp + 3 else mp - 9
  (if m ≤ 2 then y + 1 else y, m.toNat, d.toNat)

/-- The text of `new Date(ms).toISOString()` for a valid time value. -/
def toISOString (ms : ℤ) : JsString :=
  let date := civilFromDays (ms / 86400000)
  let rest := (ms % 86400000).toNat
  let year :=
    if 0 ≤ date.1 ∧ date.1 ≤ 9999 then pad4 date.1.toNat
    else if date.1 < 0 then '-' :: pad6 date.1.natAbs
    else '+' :: pad6 date.1.toNat
  year ++ "-".toList ++ pad2 date.2.1 ++ "-".toList ++ pad2 date.2.2 ++ "T".toList
    ++ pad2 (rest / 3600000) ++ ":".toList ++ pad2 (rest / 60000 % 60) ++ ":".toList
    ++ pad2 (rest / 1000 % 60) ++ ".".toList ++ pad3 (rest % 1000) ++ "Z".toList

/-- What a normaliser raises: the `RangeError` of `toISOString` on a time value
outside ±8.64e15 ms. -/
inductive NormalizeError where
  | invalidTime
deriving DecidableEq

/-- The expression
`raw.created_at ? new Date(raw.created_at * 1000).toISOString() : ''`. -/
def arbeitnowPostedAt (created_at : Option ℤ) : Except NormalizeError JsString :=
  match created_at with
  | none => .ok []
  | some seconds =>
      if seconds = 0 then .ok []
      else if -8640000000000000 ≤ seconds * 1000 ∧ seconds * 1000 ≤ 8640000000000000 then
        .ok (toISOString (seconds * 1000))
      else .error .invalidTime

/-- The expression `raw.slug || raw.title?.replace(/\s+/g, '-')`, as it prints
in a template. -/
def arbeitnowSlug (raw : RawArbeitnow) : JsString :=
  match orNull raw.slug with
  | some slug => slug
  | none => templateValue (raw.title.map fun t => spacesPattern.replaceAll flagsNone t "-".toList)

/-- Normalise an Arbeitnow posting. -/
def normalizeArbeitnow (raw : RawArbeitnow) : Except NormalizeError NormalizedJob :=
  match arbeitnowPostedAt raw.created_at with
  | .error e => .error e
  | .ok postedAt =>
      .ok
        { id := "arbeitnow-".toList ++ arbeitnowSlug raw
          title := orElse raw.title "Untitled".toList
          company := orElse raw.company_name "Unknown".toList
          companyLogo := none
          location := orElse raw.location "Not specified".toList
          isRemote := raw.remote.getD false
          employmentType := "Full-time".toList
          description := stripHtml (orElse raw.description [])
          salary := none
          applyLink := orElse raw.url []
          postedAt := postedAt
          skills := extractJobSkills (orElse raw.description []) (raw.tags.getD [])
          source := "Arbeitnow".toList
          category := [] }

/-- The method `Array.prototype.map` with a callback that may raise. -/
def mapE {ε α β : Type} (f : α → Except ε β) : List α → Except ε (List β)
  | [] => .ok []
  | x :: xs =>
      match f x with
      | .error e => .error e
      | .ok y =>
          match mapE f xs with
          | .error e => .error e
          | .ok ys => .ok (y :: ys)

/-- The jobs `fetchRemotive` resolves to, given the postings of the response
(`none` when the request failed): any failure gives the empty list. -/
def fetchRemotive (response : Option (List RawRemotive)) : List NormalizedJob :=
  (response.getD []).map normalizeRemotive

/-- Whether `s` is set (`if (s)`): present and not empty. -/
def isSet (s : Option JsString) : Bool :=
  match s with
  | some t => !t.isEmpty
  | none => false

/-- The jobs `fetchArbeitnow` resolves to, given the postings of the response:
the postings that match the query, the first fifty of them normalised; any
failure, a raising normaliser included, gives the empty list. -/
def fetchArbeitnow (query : Option JsString) (response : Option (List RawArbeitnow)) :
    List NormalizedJob :=
  let jobs := response.getD []
  let jobs :=
    if isSet query then
      let q := toLowerCase (query.getD [])
      jobs.filter fun j =>
        includes (toLowerCase (orElse j.title [])) q
          || includes (toLowerCase (orElse j.company_name [])) q
          || includes (toLowerCase (orElse j.description [])) q
    else jobs
  match mapE normalizeArbeitnow (jobs.take 50) with
  | .ok normalized => normalized
  | .error _ => []

/-- The search criteria that the filter stage reads. -/
structure SearchCriteria where
  query : Option JsString := none
  location : Option JsString := none
  employmentType : Option JsString := none
  remoteOnly : Bool := false
deriving DecidableEq

/-- The deduplication key of a job. -/
def dedupKey (job : NormalizedJob) : JsString :=
  toLowerCase job.title ++ "|".toList ++ toLowerCase job.company

/-- The last `filter` of `searchJobs`: keep a job unless its key was seen. -/
def dedupBySeen : List NormalizedJob → List JsString → List NormalizedJob
  | [], _ => []
  | job :: rest, seen =>
      if dedupKey job ∈ seen then dedupBySeen rest seen
      else job :: dedupBySeen rest (seen ++ [dedupKey job])

/-- The filters of `searchJobs`, applied in source order. -/
def applyFilters (criteria : SearchCriteria) (results : List NormalizedJob) :
    List NormalizedJob :=
  let filtered := results
  let filtered :=
    if isSet criteria.query then
      let q := toLowerCase (criteria.query.getD [])
      filtered.filter fun job =>
        includes (toLowerCase job.title) q || includes (toLowerCase job.company) q
          || includes (toLowerCase job.description) q
          || job.skills.any (fun s => includes (toLowerCase s) q)
    else filtered
  let filtered :=
    if isSet criteria.location then
      let loc := toLowerCase (criteria.location.getD [])
      filtered.filter fun job => includes (toLowerCase job.location) loc
    else filtered
  let filtered := if criteria.remoteOnly then filtered.filter (fun job => job.isRemote) else filtered
  let filtered :=
    if isSet criteria.employmentType then
      filtered.filter fun job =>
        includes (toUpperCase job.employmentType) (toUpperCase (criteria.employmentType.getD []))
    else filtered
  filtered

/-- The filter and deduplication stages of `searchJobs` on the fetched jobs. -/
def filterAndDedup (criteria : SearchCriteria) (results : List NormalizedJob) :
    List NormalizedJob :=
  dedupBySeen (applyFilters criteria results) []

/-- Search both sources: Remotive results first, then Arbeitnow results. -/
def searchJobs (criteria : SearchCriteria) (remotive : Option (List RawRemotive))
    (arbeitnow : Option (List RawArbeitnow)) : List NormalizedJob :=
  filterAndDedup criteria (fetchRemotive remotive ++ fetchArbeitnow criteria.query arbeitnow)

/-! ## Job search: reference definitions and sample postings -/

/-- The tags of a posting as `extractJobSkills` takes them: trimmed, the empty
ones dropped. -/
def cleanTags (tags : List JsString) : List JsString :=
  (tags.map trim).filter (fun t => !t.isEmpty)

/-- Skills of a posting as specified: the first eight entries of the
duplicate-free sequence of the clean tags followed by the labels whose keyword
occurs in the scanned text, in table order. -/
def extractJobSkillsSpec (desc : JsString) (tags : List JsString) : List JsString :=
  (uniqueInOrder (cleanTags tags
    ++ (skillTable.filter (fun kv => decide (kv.1 <:+: skillScanText desc tags))).map
      (fun kv => kv.2))).take 8

/-- A job meets the criteria that are set. -/
def meetsCriteria (criteria : SearchCriteria) (job : NormalizedJob) : Prop :=
  (isSet criteria.query = true →
      (toLowerCase (criteria.query.getD []) <:+: toLowerCase job.title
        ∨ toLowerCase (criteria.query.getD []) <:+: toLowerCase job.company
        ∨ toLowerCase (criteria.query.getD []) <:+: toLowerCase job.description
        ∨ ∃ s ∈ job.skills, toLowerCase (criteria.query.getD []) <:+: toLowerCase s))
    ∧ (isSet criteria.location = true →
      toLowerCase (criteria.location.getD []) <:+: toLowerCase job.location)
    ∧ (criteria.remoteOnly = true → job.isRemote = true)
    ∧ (isSet criteria.employmentType = true →
      toUpperCase (criteria.employmentType.getD []) <:+: toUpperCase job.employmentType)

instance (criteria : SearchCriteria) (job : NormalizedJob) :
    Decidable (meetsCriteria criteria job) :=
  inferInstanceAs (Decidable (_ ∧ _ ∧ _ ∧ _))

/-- A text contains an HTML tag: `<`, one or more characters other than `>`,
and `>`. -/
def containsTag (s : JsString) : Prop :=
  ∃ a m b : JsString, s = a ++ '<' :: m ++ '>' :: b ∧ m ≠ [] ∧ ∀ c ∈ m, c ≠ '>'

/-- A Remotive posting with no property at all. -/
def emptyRemotive : RawRemotive := {}

/-- An Arbeitnow posting with no property at all. -/
def emptyArbeitnow : RawArbeitnow := {}

/-- A Remotive posting. -/
def acmeRemotive : RawRemotive :=
  { id := some "101".toList, title := some "Backend Engineer".toList,
    company_name := some "Acme".toList, description := some "<p>Go &amp; SQL</p>".toList }

/-- The same position as Arbeitnow lists it. -/
def acmeArbeitnow : RawArbeitnow :=
  { slug := some "backend-engineer-acme".toList, title := some "backend engineer".toList,
    company_name := some "ACME".toList, created_at := some 1700000000 }

/-- A normalised job located in "Österreich". -/
def wienJob : NormalizedJob :=
  { normalizeRemotive emptyRemotive with
    id := "remotive-7".toList, title := "Fahrer".toList, company := "ÖBB".toList,
    location := "Österreich".toList }

/-- A normalised job with an accented title. -/
def cafeManager : NormalizedJob :=
  { normalizeRemotive emptyRemotive with
    id := "remotive-8".toList, title := "Café Manager".toList, company := "X".toList }

/-- The same position, spelled in capitals by the other source. -/
def cafeManagerUpper : NormalizedJob :=
  { normalizeRemotive emptyRemotive with
    id := "arbeitnow-cafe".toList, title := "CAFÉ MANAGER".toList, company := "x".toList,
    source := "Arbeitnow".toList }

/-- An Arbeitnow posting whose `created_at` is beyond the range of `Date`. -/
def farFutureArbeitnow : RawArbeitnow :=
  { title := some "Time Traveller".toList, created_at := some 10000000000000 }

/-! ## Job search: reference semantics of a global replace

A global replace read one character at a time, and the matches of the patterns
of `stripHtml` written as list functions.  The theorems below show that the
matcher computes them. -/

/-- A global replace, read character by character.  The function `matchAt`
tells, for the text from a position on, what is left after the match that
starts there. -/
def replaceAllSpec (matchAt : List Char → Option (List Char)) (replacement : JsString) :
    ℕ → List Char → JsString
  | 0, rest => rest
  | _ + 1, [] =>
      match matchAt [] with
      | some _ => replacement
      | none => []
  | fuel + 1, c :: cs =>
      match matchAt (c :: cs) with
      | none => c :: replaceAllSpec matchAt replacement fuel cs
      | some post =>
          if post.length < cs.length + 1 then
            replacement ++ replaceAllSpec matchAt replacement fuel post
          else replacement ++ c :: replaceAllSpec matchAt replacement fuel cs

/-- What is left after `min` or more characters of the class `p` followed by
the character `stopChar`, the class taken as far as it goes. -/
def spanAt (p : Char → Bool) (min : ℕ) (stopChar : Char) (rest : List Char) :
    Option (List Char) :=
  if min ≤ (rest.takeWhile p).length then
    match rest.dropWhile p with
    | x :: post => if x = stopChar then some post else none
    | [] => none
  else none

/-- What is left after a match of `/<[^>]+>/` at the head of the text. -/
def tagAt (rest : List Char) : Option (List Char) :=
  match rest with
  | x :: t => if x = '<' then spanAt (fun c => c != '>') 1 '>' t else none
  | [] => none

/-- What is left after a match of `/\n{3,}/` at the head of the text. -/
def newlinesAt (rest : List Char) : Option (List Char) :=
  if 3 ≤ (rest.takeWhile (fun c => c == Char.ofNat 10)).length then
    some (rest.dropWhile (fun c => c == Char.ofNat 10))
  else none

/-- What is left after the literal text `w` at the head of the text. -/
def litAt (w rest : List Char) : Option (List Char) :=
  if w.isPrefixOf rest then some (rest.drop w.length) else none

/-- What is left after a match of `/&#\d+;/` at the head of the text. -/
def numericEntityAt (rest : List Char) : Option (List Char) :=
  match rest with
  | x :: y :: t => if x = '&' ∧ y = '#' then spanAt isRegexDigit 1 ';' t else none
  | _ => none

/-- A text without markup: none of the characters `<`, `&`, `;` and line feed. -/
def isPlainText (s : JsString) : Prop :=
  ∀ c ∈ s, c ≠ '<' ∧ c ≠ '&' ∧ c ≠ ';' ∧ c ≠ Char.ofNat 10

instance (s : JsString) : Decidable (isPlainText s) :=
  inferInstanceAs (Decidable (∀ c ∈ s, _))

/-! ## Rounding lemmas -/

theorem roundTiesEven_err (y : ℚ) : |((roundTiesEven y : ℤ) : ℚ) - y| ≤ 1 / 2 := by
  have h1 : ((⌊y⌋ : ℤ) : ℚ) ≤ y := Int.floor_le y
  have h2 : y < ((⌊y⌋ : ℤ) : ℚ) + 1 := Int.lt_floor_add_one y
  unfold roundTiesEven
  simp only []
  split_ifs with ha hb hc
  · rw [abs_le]; constructor <;> linarith
  · rw [abs_le]; push_cast; constructor <;> linarith
  · rw [abs_le]; constructor <;> linarith
  · rw [abs_le]; push_cast; constructor <;> linarith

theorem fl_zero : fl 0 = 0 := by simp [fl]

theorem fl_err (x : ℚ) : |fl x - x| ≤ |x| / 2 ^ 53 := by
  by_cases hx : x = 0
  · subst hx; simp [fl]
  · have hpos : 0 < |x| := abs_pos.mpr hx
    have hu : (0 : ℚ) < (2 : ℚ) ^ (Int.log 2 |x| - 52) := by positivity
    have hlog : ((2 : ℕ) : ℚ) ^ Int.log 2 |x| ≤ |x| := Int.zpow_log_le_self (by norm_num) hpos
    have hsplit : (2 : ℚ) ^ (Int.log 2 |x| - 52) = (2 : ℚ) ^ Int.log 2 |x| / 2 ^ 52 := by
      rw [zpow_sub₀ (by norm_num : (2 : ℚ) ≠ 0)]; norm_num
    have hr := roundTiesEven_err (x / (2 : ℚ) ^ (Int.log 2 |x| - 52))
    have key : fl x - x
        = (((roundTiesEven (x / (2 : ℚ) ^ (Int.log 2 |x| - 52)) : ℤ) : ℚ)
            - x / (2 : ℚ) ^ (Int.log 2 |x| - 52)) * (2 : ℚ) ^ (Int.log 2 |x| - 52) := by
      simp only [fl, if_neg hx]
      field_simp
    rw [key, abs_mul, abs_of_pos hu]
    calc |((roundTiesEven (x / (2 : ℚ) ^ (Int.log 2 |x| - 52)) : ℤ) : ℚ)
            - x / (2 : ℚ) ^ (Int.log 2 |x| - 52)| * (2 : ℚ) ^ (Int.log 2 |x| - 52)
        ≤ 1 / 2 * (2 : ℚ) ^ (Int.log 2 |x| - 52) :=
          mul_le_mul_of_nonneg_right hr hu.le
      _ = (2 : ℚ) ^ Int.log 2 |x| / 2 ^ 53 := by rw [hsplit]; ring
      _ ≤ |x| / 2 ^ 53 := by
          apply div_le_div_of_nonneg_right _ (by positivity)
          simpa using hlog

theorem fl_nonneg {x : ℚ} (hx : 0 ≤ x) : 0 ≤ fl x := by
  have h := fl_err x
  rw [abs_of_nonneg hx, abs_le] at h
  have : x / 2 ^ 53 ≤ x := div_le_self hx (by norm_num)
  linarith [h.1]

/-- Evaluation of `fl` at a value whose binade and rounded mantissa are known. -/
theorem fl_eval (x : ℚ) (e m : ℤ) (hx : 0 < x) (h1 : (2 : ℚ) ^ e ≤ x)
    (h2 : x < (2 : ℚ) ^ (e + 1)) (h3 : |x / (2 : ℚ) ^ (e - 52) - m| < 1 / 2) :
    fl x = m * (2 : ℚ) ^ (e - 52) := by
  have hlog : Int.log 2 |x| = e := by
    rw [abs_of_pos hx]
    apply le_antisymm
    · have := (Int.lt_zpow_iff_log_lt (b := 2) (by norm_num) hx (x := e + 1)).mp
        (by simpa using h2)
      omega
    · exact (Int.zpow_le_iff_le_log (b := 2) (by norm_num) hx).mp (by simpa using h1)
  have hm : roundTiesEven (x / (2 : ℚ) ^ (e - 52)) = m := by
    have hr := roundTiesEven_err (x / (2 : ℚ) ^ (e - 52))
    have hlt : |((roundTiesEven (x / (2 : ℚ) ^ (e - 52)) - m : ℤ) : ℚ)| < 1 := by
      push_cast
      rw [abs_lt] at *
      rw [abs_le] at hr
      constructor <;> linarith [hr.1, hr.2, h3.1, h3.2]
    have : |roundTiesEven (x / (2 : ℚ) ^ (e - 52)) - m| < 1 := by exact_mod_cast hlt
    have := Int.abs_lt_one_iff.mp this
    omega
  simp only [fl, if_neg hx.ne', hlog, hm]

/-! ## Substring lemmas -/

theorem includes_iff (hay needle : JsString) : includes hay needle = true ↔ needle <:+: hay := by
  unfold includes
  rw [List.any_eq_true]
  constructor
  · rintro ⟨t, ht, hp⟩
    rw [List.mem_tails] at ht
    rw [List.isPrefixOf_iff_prefix] at hp
    exact List.infix_iff_prefix_suffix.mpr ⟨t, hp, ht⟩
  · intro h
    obtain ⟨t, hp, ht⟩ := List.infix_iff_prefix_suffix.mp h
    exact ⟨t, (List.mem_tails _ _).mpr ht, List.isPrefixOf_iff_prefix.mpr hp⟩

theorem getD_length_eq_zero_iff {α : Type} (o : Option (List α)) :
    (o.getD []).length = 0 ↔ (o = none ∨ o = some []) := by
  cases o with
  | none => simp
  | some l => cases l <;> simp

theorem any_includes_iff (l : List JsString) (hay : JsString) :
    (l.any (fun x => includes hay (toLowerCase x)) = true)
      ↔ ∃ x ∈ l, toLowerCase x <:+: hay := by
  simp [List.any_eq_true, includes_iff]

/-! ## Degraded result (C2) -/

/-- C2: when the profile is absent, or the job is absent, `scoreJob` returns
exactly `{total: 0, factors: {}}`, whatever the other argument is. -/
theorem scoreJob_absent :
    (∀ job : Option Job, scoreJob job none = { total := 0, factors := [], explanation := none })
    ∧ (∀ profile : Option Profile,
        scoreJob none profile = { total := 0, factors := [], explanation := none }) := by
  constructor
  · intro job; cases job <;> rfl
  · intro profile; cases profile <;> rfl

/-! ## Location and company factors (C8, C9) -/

/-- C8: `calcLocationFit` equals its reference definition: 90 for a remote job,
else 70 without preferred locations, else 100 when the lower-cased job location
contains a lower-cased preferred location, else 30.  Lower-casing is that of
`toLowerCase`: the location "ZÜRICH" fits the preferred location "zürich". -/
theorem calcLocationFit_eq_spec (job : Job) (profile : Profile) :
    calcLocationFit job profile = calcLocationFitSpec job profile
    ∧ toLowerCase "ZÜRICH".toList = "zürich".toList
    ∧ calcLocationFit umlautJob umlautProfile = 100 := by
  refine ⟨?_, by decide, by decide⟩
  unfold calcLocationFit calcLocationFitSpec
  simp only [getD_length_eq_zero_iff, any_includes_iff]

/-- C9: `calcCompanyPref` equals its reference definition: 70 without company
preferences, else 100 when the lower-cased job company contains a lower-cased
preferred company, else 50.  Lower-casing is that of `toLowerCase`: the company
"ÖBB" meets the preference "öbb". -/
theorem calcCompanyPref_eq_spec (job : Job) (profile : Profile) :
    calcCompanyPref job profile = calcCompanyPrefSpec job profile
    ∧ toLowerCase "ÖBB".toList = "öbb".toList
    ∧ calcCompanyPref umlautJob umlautProfile = 100 := by
  refine ⟨?_, by decide, by decide⟩
  unfold calcCompanyPref calcCompanyPrefSpec
  simp only [getD_length_eq_zero_iff, any_includes_iff]

/-! ## Experience factor (C4, C5) -/

theorem calcExperienceMatch_of_pattern (job : Job) (profile : Profile) (years : ℕ)
    (cap : JsString) (hy : profile.yearsOfExperience = some years) (hpos : 1 ≤ years)
    (hm : experiencePattern (toLowerCase (job.description.getD [])) = some cap) :
    calcExperienceMatch job profile = experienceTable ((years : ℤ) - (parseInt cap : ℤ)) := by
  have h0 : years ≠ 0 := by omega
  simp only [calcExperienceMatch, hy, hm, if_neg h0, experienceTable]

theorem calcExperienceMatch_no_pattern (job : Job) (profile : Profile) (years : ℕ)
    (hy : profile.yearsOfExperience = some years) (hpos : 1 ≤ years)
    (hm : experiencePattern (toLowerCase (job.description.getD [])) = none) :
    calcExperienceMatch job profile = 70 := by
  have h0 : years ≠ 0 := by omega
  simp only [calcExperienceMatch, hy, hm, if_neg h0]

theorem experienceTable_ne_sixty (diff : ℤ) : experienceTable diff ≠ 60 := by
  unfold experienceTable
  split_ifs <;> decide

/-- C4: for a profile with `yearsOfExperience = years ≥ 1` and a job whose
description has a first match of the years pattern capturing `cap`, the
experience factor is, with `diff = years - parseInt cap`: 100 if
`0 ≤ diff ≤ 3`, else 80 if `diff > 3`, else 70 if `diff ≥ -1`, else 40 if
`diff ≥ -3`, else 20; so `diff = -1, -2, -3, -4` give 70, 40, 40, 20, 5 years
against "3+ years required" gives 100 and 1 year against "5+ years required"
gives 20. -/
theorem calcExperienceMatch_table (job : Job) (profile : Profile) (years : ℕ) (cap : JsString)
    (hy : profile.yearsOfExperience = some years) (hpos : 1 ≤ years)
    (hm : experiencePattern (toLowerCase (job.description.getD [])) = some cap) :
    (calcExperienceMatch job profile
        = (let diff : ℤ := (years : ℤ) - (parseInt cap : ℤ)
           if 0 ≤ diff ∧ diff ≤ 3 then 100
           else if 3 < diff then 80
           else if -1 ≤ diff then 70
           else if -3 ≤ diff then 40
           else 20))
    ∧ ((years : ℤ) - (parseInt cap : ℤ) = -1 → calcExperienceMatch job profile = 70)
    ∧ ((years : ℤ) - (parseInt cap : ℤ) = -2 → calcExperienceMatch job profile = 40)
    ∧ ((years : ℤ) - (parseInt cap : ℤ) = -3 → calcExperienceMatch job profile = 40)
    ∧ ((years : ℤ) - (parseInt cap : ℤ) = -4 → calcExperienceMatch job profile = 20)
    ∧ calcExperienceMatch (jobWithDescription "3+ years required") (profileWithYears 5) = 100
    ∧ calcExperienceMatch (jobWithDescription "5+ years required") (profileWithYears 1) = 20 := by
  have h := calcExperienceMatch_of_pattern job profile years cap hy hpos hm
  refine ⟨by rw [h]; rfl, ?_, ?_, ?_, ?_, by decide, by decide⟩
  all_goals
    intro hd
    rw [h, hd]
    decide

/-- Witness for C4: 2 years of experience against "Requires 4 yrs of Java"
(capture "4", `diff = -2`). -/
theorem calcExperienceMatch_table_witness :
    calcExperienceMatch (jobWithDescription "Requires 4 yrs of Java") (profileWithYears 2) = 40 :=
  (calcExperienceMatch_table (jobWithDescription "Requires 4 yrs of Java") (profileWithYears 2)
    2 "4".toList rfl (by decide) (by decide)).2.2.1 (by decide)

/-- C5, as stated, fails: a profile whose `yearsOfExperience` is `0` and a job
whose description has no years pattern get 60, not 70. -/
theorem calcExperienceMatch_zero_years_counterexample :
    (profileWithYears 0).yearsOfExperience = some 0
    ∧ experiencePattern
        (toLowerCase ((jobWithDescription "Backend engineer, Go").description.getD [])) = none
    ∧ calcExperienceMatch (jobWithDescription "Backend engineer, Go") (profileWithYears 0) = 60
    ∧ calcExperienceMatch (jobWithDescription "Backend engineer, Go") (profileWithYears 0) ≠ 70 := by
  decide

/-- C5, amended: the experience factor is the neutral 60 exactly when the
profile's `yearsOfExperience` is absent or `0`; for every profile with
`yearsOfExperience ≥ 1` and every job whose description has no years pattern
it is 70. -/
theorem calcExperienceMatch_default (job : Job) (profile : Profile) :
    (calcExperienceMatch job profile = 60
        ↔ (profile.yearsOfExperience = none ∨ profile.yearsOfExperience = some 0))
    ∧ (∀ years : ℕ, profile.yearsOfExperience = some years → 1 ≤ years →
        experiencePattern (toLowerCase (job.description.getD [])) = none →
        calcExperienceMatch job profile = 70) := by
  refine ⟨?_, fun years hy hpos hm => calcExperienceMatch_no_pattern job profile years hy hpos hm⟩
  cases hy : profile.yearsOfExperience with
  | none => simp [calcExperienceMatch, hy]
  | some years =>
    rcases Nat.eq_zero_or_pos years with h0 | hpos
    · subst h0; simp [calcExperienceMatch, hy]
    · have hne : years ≠ 0 := by omega
      cases hm : experiencePattern (toLowerCase (job.description.getD [])) with
      | none =>
        rw [calcExperienceMatch_no_pattern job profile years hy hpos hm]
        simp [hne]
      | some cap =>
        rw [calcExperienceMatch_of_pattern job profile years cap hy hpos hm]
        simp [hne, experienceTable_ne_sixty]

/-- Witness for C5 amended: 4 years of experience, no years pattern in the
description. -/
theorem calcExperienceMatch_default_witness :
    calcExperienceMatch (jobWithDescription "Backend engineer, Go") (profileWithYears 4) = 70 :=
  (calcExperienceMatch_default (jobWithDescription "Backend engineer, Go")
    (profileWithYears 4)).2 4 rfl (by decide) (by decide)

/-! ## Seniority label of the parser (C7) -/

/-- C7: the code at the failing input.  A profile with seniority "Junior" and
the title "Junior Developer" get no seniority bonus: the role factor is 50,
below 80, because "Junior" is not a key of `seniorityMap`. -/
theorem calcRoleAlignment_junior_no_bonus :
    seniorityMap "Junior".toList = none
    ∧ includes (toLowerCase "Junior Developer".toList) "junior".toList = true
    ∧ calcRoleAlignment (jobWithTitle "Junior Developer") (profileWithSeniority "Junior") = 50 := by
  decide

/-! ## Explanation (C10) -/

theorem explanationParts_eq (s e r : ℤ) : explanationParts s e r = explanationSentences s e r := by
  unfold explanationParts explanationSentences skillSentence experienceSentence roleSentence
  split_ifs <;> rfl

/-- C10: the explanation depends on the skill, experience and role scores
only; it is the single-space join of one skill sentence chosen by tier, an
experience sentence present iff `experience ≥ 80` or `experience < 50`, and a
role sentence present iff `role ≥ 70`, in that order, hence one to three
sentences; this is the explanation `scoreJob` puts in the result. -/
theorem buildExplanation_eq_spec (s e r : ℤ) (job : Job) (profile : Profile) :
    buildExplanation s e r job profile = " ".intercalate (explanationSentences s e r)
    ∧ explanationSentences s e r
        = [skillSentence s] ++ (experienceSentence e).toList ++ (roleSentence r).toList
    ∧ 1 ≤ (explanationSentences s e r).length
    ∧ (explanationSentences s e r).length ≤ 3
    ∧ ((experienceSentence e).isSome = true ↔ (80 ≤ e ∨ e < 50))
    ∧ ((roleSentence r).isSome = true ↔ 70 ≤ r)
    ∧ (scoreJob (some job) (some profile)).explanation
        = some (" ".intercalate (explanationSentences (calcSkillMatch job profile)
            (calcExperienceMatch job profile) (calcRoleAlignment job profile))) := by
  refine ⟨?_, ?_, ?_, ?_, ?_, ?_, ?_⟩
  · simp only [buildExplanation, explanationParts_eq]
  · simp [explanationSentences]
  · simp [explanationSentences]
  · unfold explanationSentences experienceSentence roleSentence
    split_ifs <;> simp
  · unfold experienceSentence
    split_ifs with h1 h2 <;> simp <;> omega
  · unfold roleSentence
    split_ifs with h1 <;> simp <;> omega
  · simp only [scoreJob, buildExplanation, explanationParts_eq]

/-! ## Role factor (C6) -/

theorem toNat_ofNat_small (n : ℕ) (h : n < 55296) : (Char.ofNat n).toNat = n := by
  have hv : n.isValidChar := Or.inl h
  simp only [Char.ofNat, hv, dite_true, Char.toNat, Char.ofNatAux]
  rfl

theorem toLower_toLower (c : Char) : Char.toLower (Char.toLower c) = Char.toLower c := by
  by_cases h : c.toNat ≥ 65 ∧ c.toNat ≤ 90
  · have h1 : Char.toLower c = Char.ofNat (c.toNat + 32) := by
      simp only [Char.toLower, h, and_self, if_true]
    have h2 : (Char.ofNat (c.toNat + 32)).toNat = c.toNat + 32 :=
      toNat_ofNat_small _ (by omega)
    have h3 : ¬ ((Char.ofNat (c.toNat + 32)).toNat ≥ 65
        ∧ (Char.ofNat (c.toNat + 32)).toNat ≤ 90) := by
      rw [h2]; omega
    rw [h1]
    simp only [Char.toLower, h3, if_false]
  · have h1 : Char.toLower c = c := by
      simp only [Char.toLower, h, if_false]
    rw [h1, h1]

theorem toLower_of_not_upper (c : Char) (h : ¬ (c.toNat ≥ 65 ∧ c.toNat ≤ 90)) :
    Char.toLower c = c := by
  simp only [Char.toLower, h, if_false]

theorem toNat_ofNat_cases (m : ℕ) : (Char.ofNat m).toNat = m ∨ (Char.ofNat m).toNat = 0 := by
  by_cases hv : m.isValidChar
  · left
    simp only [Char.ofNat, hv, dite_true, Char.toNat, Char.ofNatAux]
    rfl
  · right
    simp only [Char.ofNat, hv, dite_false]
    rfl

theorem toLower_ofNat (m : ℕ) (h : 90 < m) : Char.toLower (Char.ofNat m) = Char.ofNat m := by
  apply toLower_of_not_upper
  rcases toNat_ofNat_cases m with h1 | h1 <;> rw [h1] <;> omega

theorem lowerCaseRanges_image : ∀ r ∈ lowerCaseRanges, 90 < r.2.2.2 := by
  decide

theorem toLower_mapByRanges (c : Char) (hc : ¬ c.toNat < 128) :
    Char.toLower (mapByRanges lowerCaseRanges c) = mapByRanges lowerCaseRanges c := by
  unfold mapByRanges
  cases hf : lowerCaseRanges.find? (fun r =>
      decide (r.1 ≤ c.toNat ∧ c.toNat ≤ r.2.1 ∧ (c.toNat - r.1) % r.2.2.1 = 0)) with
  | none => exact toLower_of_not_upper c (by omega)
  | some r =>
    have hr := lowerCaseRanges_image r (List.mem_of_find?_eq_some hf)
    exact toLower_ofNat _ (by omega)

theorem toLower_lowerChar (before : List Char) (c : Char) (after : List Char) :
    ∀ x ∈ lowerChar before c after, Char.toLower x = x := by
  intro x hx
  unfold lowerChar at hx
  split_ifs at hx with h1 h2 h3 h4
  · rw [List.mem_singleton] at hx
    rw [hx]; exact toLower_toLower c
  · rw [List.mem_singleton] at hx
    rw [hx]; exact toLower_ofNat 962 (by decide)
  · rw [List.mem_singleton] at hx
    rw [hx]; exact toLower_ofNat 963 (by decide)
  · simp only [List.mem_cons, List.mem_singleton, List.not_mem_nil, or_false] at hx
    rcases hx with hx | hx
    · rw [hx]; exact toLower_ofNat 105 (by decide)
    · rw [hx]; exact toLower_ofNat 775 (by decide)
  · rw [List.mem_singleton] at hx
    rw [hx]; exact toLower_mapByRanges c h1

theorem toLower_lowerFrom : ∀ (s before : List Char), ∀ x ∈ lowerFrom before s,
    Char.toLower x = x := by
  intro s
  induction s with
  | nil => intro before x hx; cases hx
  | cons c cs ih =>
    intro before x hx
    unfold lowerFrom at hx
    rcases List.mem_append.mp hx with h | h
    · exact toLower_lowerChar before c cs x h
    · exact ih (c :: before) x h

theorem map_toLower_toLowerCase (s : JsString) :
    (toLowerCase s).map Char.toLower = toLowerCase s := by
  have h : ∀ x ∈ toLowerCase s, Char.toLower x = id x := toLower_lowerFrom s []
  rw [List.map_congr_left h, List.map_id]

theorem regexTestAnyCI_lower (keywords : List JsString) (s : JsString) :
    regexTestAnyCI keywords (toLowerCase s) = true ↔ containsAny keywords (toLowerCase s) := by
  simp [regexTestAnyCI, containsAny, map_toLower_toLowerCase, List.any_eq_true, includes_iff]

theorem domain_any_iff (job : Job) (profile : Profile) :
    (((profile.domains.getD []).map toLowerCase).any (fun d =>
        includes (toLowerCase (job.title.getD [])) d
          || includes (toLowerCase (job.description.getD [])) d) = true)
      ↔ ∃ d ∈ profile.domains.getD [],
          toLowerCase d <:+: toLowerCase (job.title.getD [])
            ∨ toLowerCase d <:+: toLowerCase (job.description.getD []) := by
  simp [List.any_eq_true, includes_iff]

theorem any_keyword_iff (keywords : List JsString) (title : JsString) :
    (keywords.any (fun k => !k.isEmpty && includes title k) = true)
      ↔ containsAny (keywords.filter (fun k => !k.isEmpty)) title := by
  simp only [containsAny, List.any_eq_true, List.mem_filter, Bool.and_eq_true, includes_iff]
  constructor
  · rintro ⟨k, hk, hne, hin⟩; exact ⟨k, ⟨hk, hne⟩, hin⟩
  · rintro ⟨k, ⟨hk, hne⟩, hin⟩; exact ⟨k, hk, hne, hin⟩

theorem seniorityMap_other (s : JsString) (h1 : s ≠ "Executive".toList)
    (h2 : s ≠ "Staff / Principal".toList) (h3 : s ≠ "Senior".toList)
    (h4 : s ≠ "Mid-Level".toList) (h5 : s ≠ "Junior / Entry-Level".toList) :
    seniorityMap s = none := by
  simp only [seniorityMap, if_neg h1, if_neg h2, if_neg h3, if_neg h4, if_neg h5]

theorem seniority_step (seniority : Option JsString) (t : JsString) :
    (if ((seniority.bind seniorityMap).getD []).any
          (fun k => !k.isEmpty && includes (toLowerCase t) k) then (50 : ℤ) + 30
      else if (decide (seniority = some "Mid-Level".toList)
          && !regexTestAnyCI midLevelExcluded (toLowerCase t)) = true then 50 + 25
      else 50)
      = 50 + seniorityBonusAmended seniority (toLowerCase t) := by
  have hreg := regexTestAnyCI_lower midLevelExcluded t
  simp only [any_keyword_iff, Bool.and_eq_true, decide_eq_true_eq, Bool.not_eq_eq_eq_not,
    Bool.not_eq_true] at *
  rcases seniority with _ | s
  · simp [seniorityBonusAmended, seniorityBonusClaimed, containsAny]
  · by_cases h : s = "Executive".toList
    ·
      subst h
      have hk : (((some "Executive".toList).bind seniorityMap).getD []).filter
          (fun k => !k.isEmpty)
          = ["director".toList, "vp".toList, "chief".toList, "head".toList] := by decide
      have hd0 : ("Executive".toList ≠ "Mid-Level".toList) := by decide
      rw [hk]
      simp only [seniorityBonusAmended, seniorityBonusClaimed, Option.some.injEq, hd0,
        if_false, if_true, false_and]
      split_ifs <;> rfl
    by_cases h2 : s = "Staff / Principal".toList
    · clear h
      have h := h2
      subst h
      have hk : (((some "Staff / Principal".toList).bind seniorityMap).getD []).filter
          (fun k => !k.isEmpty)
          = ["staff".toList, "principal".toList, "distinguished".toList] := by decide
      have hd0 : ("Staff / Principal".toList ≠ "Mid-Level".toList) := by decide
      have hd1 : ("Staff / Principal".toList ≠ "Executive".toList) := by decide
      rw [hk]
      simp only [seniorityBonusAmended, seniorityBonusClaimed, Option.some.injEq, hd0, hd1,
        if_false, if_true, false_and]
      split_ifs <;> rfl
    by_cases h3 : s = "Senior".toList
    · clear h
      have h := h3
      subst h
      have hk : (((some "Senior".toList).bind seniorityMap).getD []).filter
          (fun k => !k.isEmpty)
          = ["senior".toList, "sr".toList, "lead".toList] := by decide
      have hd0 : ("Senior".toList ≠ "Mid-Level".toList) := by decide
      have hd1 : ("Senior".toList ≠ "Executive".toList) := by decide
      have hd2 : ("Senior".toList ≠ "Staff / Principal".toList) := by decide
      rw [hk]
      simp only [seniorityBonusAmended, seniorityBonusClaimed, Option.some.injEq, hd0, hd1, hd2,
        if_false, if_true, false_and]
      split_ifs <;> rfl
    by_cases h5 : s = "Junior / Entry-Level".toList
    · clear h
      have h := h5
      subst h
      have hk : (((some "Junior / Entry-Level".toList).bind seniorityMap).getD []).filter
          (fun k => !k.isEmpty)
          = ["junior".toList, "jr".toList, "associate".toList, "entry".toList, "intern".toList] := by decide
      have hd0 : ("Junior / Entry-Level".toList ≠ "Mid-Level".toList) := by decide
      have hd1 : ("Junior / Entry-Level".toList ≠ "Executive".toList) := by decide
      have hd2 : ("Junior / Entry-Level".toList ≠ "Staff / Principal".toList) := by decide
      have hd3 : ("Junior / Entry-Level".toList ≠ "Senior".toList) := by decide
      rw [hk]
      simp only [seniorityBonusAmended, seniorityBonusClaimed, Option.some.injEq, hd0, hd1, hd2, hd3,
        if_false, if_true, false_and]
      split_ifs <;> rfl
    by_cases h4 : s = "Mid-Level".toList
    · subst h4
      have hk : (((some "Mid-Level".toList).bind seniorityMap).getD []).filter
          (fun k => !k.isEmpty) = ["mid".toList, "intermediate".toList] := by decide
      rw [hk]
      simp only [seniorityBonusAmended, if_true]
      by_cases ha : containsAny ["mid".toList, "intermediate".toList] (toLowerCase t)
      · simp only [ha, if_true]
      · by_cases hb : containsAny midLevelExcluded (toLowerCase t)
        · have hr : regexTestAnyCI midLevelExcluded (toLowerCase t) = true := hreg.mpr hb
          simp only [ha, hb, hr, if_false, if_true, true_and, Bool.true_eq_false]
          rfl
        · have hr : regexTestAnyCI midLevelExcluded (toLowerCase t) = false := by
            rw [← Bool.not_eq_true]; exact fun hc => hb (hreg.mp hc)
          simp only [ha, hb, hr, if_false, if_true, true_and]
          rfl
    · have hnone : seniorityMap s = none := seniorityMap_other s h h2 h3 h4 h5
      have hempty : ¬ containsAny [] (toLowerCase t) := by simp [containsAny]
      simp only [seniorityBonusAmended, seniorityBonusClaimed, hnone, Option.some.injEq, h, h2,
        h3, h4, h5, if_false, false_and, Option.bind, Option.getD, List.filter_nil, hempty]
      rfl

theorem expectedKeywords_inherited (name : JsString) (h : name ∈ objectPrototypeNames) :
    expectedKeywords (some name) = .error .notAFunction := by
  have hown : ∀ n ∈ objectPrototypeNames, seniorityMap n = none := by decide
  simp only [expectedKeywords, hown name h, h, if_true]

theorem expectedKeywords_other (seniority : Option JsString)
    (h : ∀ name, seniority = some name → name ∉ objectPrototypeNames) :
    expectedKeywords seniority = .ok ((seniority.bind seniorityMap).getD []) := by
  cases seniority with
  | none => rfl
  | some name =>
    have hn := h name rfl
    cases hm : seniorityMap name with
    | none => simp only [expectedKeywords, hm, hn, if_false, Option.bind, Option.getD]
    | some keywords => simp only [expectedKeywords, hm, Option.bind, Option.getD]

theorem calcRoleAlignmentCall_ok (job : Job) (profile : Profile)
    (h : ∀ name, profile.seniority = some name → name ∉ objectPrototypeNames) :
    calcRoleAlignmentCall job profile = .ok (calcRoleAlignment job profile) := by
  simp only [calcRoleAlignmentCall, expectedKeywords_other profile.seniority h,
    calcRoleAlignment]

theorem roleAlignment_amended_aux (job : Job) (profile : Profile) :
    calcRoleAlignment job profile = calcRoleAlignmentAmended job profile := by
  unfold calcRoleAlignment calcRoleAlignmentAmended domainBonusSpec
  simp only [domain_any_iff, seniority_step]
  split_ifs <;> ring_nf

/-- C6, as stated, fails: for a Mid-Level profile and the title
"Mid-Level Engineer" the code adds 30 (keyword "mid"), giving 80, where the
claim gives 50 + 25 = 75. -/
theorem calcRoleAlignment_mid_counterexample :
    calcRoleAlignmentCall (jobWithTitle "Mid-Level Engineer")
        (profileWithSeniority "Mid-Level") = .ok 80
    ∧ calcRoleAlignment (jobWithTitle "Mid-Level Engineer")
        (profileWithSeniority "Mid-Level") = 80
    ∧ calcRoleAlignmentClaimed (jobWithTitle "Mid-Level Engineer")
        (profileWithSeniority "Mid-Level") = 75 :=
  ⟨(calcRoleAlignmentCall_ok _ _ (by decide)).trans (congrArg Except.ok (by decide)),
    by decide, by decide⟩

/-! ## Error analysis of the double computations -/

theorem fl_close {x B : ℚ} (h0 : 0 ≤ x) (hB : x ≤ B) :
    0 ≤ fl x ∧ |fl x - x| ≤ B / 2 ^ 53 := by
  refine ⟨fl_nonneg h0, (fl_err x).trans ?_⟩
  rw [abs_of_nonneg h0]
  exact div_le_div_of_nonneg_right hB (by positivity)

theorem mathRound_eq_of_close {x E δ : ℚ} {k : ℤ} (h : |x - E| ≤ δ)
    (hlo : (k : ℚ) + δ ≤ E + 1 / 2) (hhi : E + 1 / 2 + δ < (k : ℚ) + 1) :
    mathRound x = k := by
  rw [abs_le] at h
  unfold mathRound
  rw [Int.floor_eq_iff]
  constructor <;> linarith [h.1, h.2]

/-- A score times a weight constant: the double product is within `201 / 2^53`
of the exact product with the decimal weight. -/
theorem fmul_weight_close (s : ℤ) (c : ℚ) (hs0 : 0 ≤ s) (hs : s ≤ 100) (hc0 : 0 ≤ c)
    (hc : c ≤ 1) :
    0 ≤ fmul (s : ℚ) (fl c) ∧ |fmul (s : ℚ) (fl c) - (s : ℚ) * c| ≤ 201 / 2 ^ 53 := by
  have hsq0 : (0 : ℚ) ≤ (s : ℚ) := by exact_mod_cast hs0
  have hsq : (s : ℚ) ≤ 100 := by exact_mod_cast hs
  obtain ⟨hw0, hw⟩ := fl_close hc0 hc
  rw [abs_le] at hw
  have hwle : fl c ≤ c + 1 / 2 ^ 53 := by linarith [hw.2]
  have hwge : c - 1 / 2 ^ 53 ≤ fl c := by linarith [hw.1]
  have hprod0 : 0 ≤ (s : ℚ) * fl c := mul_nonneg hsq0 hw0
  have hup : (s : ℚ) * fl c ≤ (s : ℚ) * c + 100 / 2 ^ 53 := by
    have := mul_le_mul_of_nonneg_left hwle hsq0
    nlinarith
  have hdown : (s : ℚ) * c - 100 / 2 ^ 53 ≤ (s : ℚ) * fl c := by
    have := mul_le_mul_of_nonneg_left hwge hsq0
    nlinarith
  have hsc : (s : ℚ) * c ≤ 100 := by nlinarith
  have hprodB : (s : ℚ) * fl c ≤ 101 := by
    have : (100 : ℚ) / 2 ^ 53 ≤ 1 := by norm_num
    linarith
  obtain ⟨hf0, hf⟩ := fl_close hprod0 hprodB
  refine ⟨hf0, ?_⟩
  rw [abs_le] at hf ⊢
  unfold fmul
  constructor <;> linarith [hf.1, hf.2]

/-- Double addition of two non-negative values whose sum is at most 200. -/
theorem fadd_close {a b : ℚ} (ha : 0 ≤ a) (hb : 0 ≤ b) (hab : a + b ≤ 200) :
    0 ≤ fadd a b ∧ |fadd a b - (a + b)| ≤ 200 / 2 ^ 53 :=
  fl_close (add_nonneg ha hb) hab

/-- The exact weighted sum of five scores. -/
theorem weightedSum_close (s e r l c : ℤ) (hs0 : 0 ≤ s) (hs : s ≤ 100) (he0 : 0 ≤ e)
    (he : e ≤ 100) (hr0 : 0 ≤ r) (hr : r ≤ 100) (hl0 : 0 ≤ l) (hl : l ≤ 100) (hc0 : 0 ≤ c)
    (hc : c ≤ 100) :
    0 ≤ weightedSum s e r l c
    ∧ |weightedSum s e r l c
        - ((2 / 5 : ℚ) * s + (1 / 5) * e + (1 / 5) * r + (1 / 10) * l + (1 / 10) * c)|
      ≤ 2000 / 2 ^ 53 := by
  have hsq : (s : ℚ) ≤ 100 := by exact_mod_cast hs
  have heq : (e : ℚ) ≤ 100 := by exact_mod_cast he
  have hrq : (r : ℚ) ≤ 100 := by exact_mod_cast hr
  have hlq : (l : ℚ) ≤ 100 := by exact_mod_cast hl
  have hcq : (c : ℚ) ≤ 100 := by exact_mod_cast hc
  have hsq0 : (0 : ℚ) ≤ (s : ℚ) := by exact_mod_cast hs0
  have heq0 : (0 : ℚ) ≤ (e : ℚ) := by exact_mod_cast he0
  have hrq0 : (0 : ℚ) ≤ (r : ℚ) := by exact_mod_cast hr0
  have hlq0 : (0 : ℚ) ≤ (l : ℚ) := by exact_mod_cast hl0
  have hcq0 : (0 : ℚ) ≤ (c : ℚ) := by exact_mod_cast hc0
  have hsmall : (1 : ℚ) / 2 ^ 53 ≤ 1 / 1000000 := by norm_num
  obtain ⟨p1, q1⟩ := fmul_weight_close s (2 / 5) hs0 hs (by norm_num) (by norm_num)
  obtain ⟨p2, q2⟩ := fmul_weight_close e (1 / 5) he0 he (by norm_num) (by norm_num)
  obtain ⟨p3, q3⟩ := fmul_weight_close r (1 / 5) hr0 hr (by norm_num) (by norm_num)
  obtain ⟨p4, q4⟩ := fmul_weight_close l (1 / 10) hl0 hl (by norm_num) (by norm_num)
  obtain ⟨p5, q5⟩ := fmul_weight_close c (1 / 10) hc0 hc (by norm_num) (by norm_num)
  rw [abs_le] at q1 q2 q3 q4 q5
  obtain ⟨a0, a1⟩ := fadd_close p1 p2 (by linarith [q1.2, q2.2])
  rw [abs_le] at a1
  obtain ⟨b0, b1⟩ := fadd_close a0 p3 (by linarith [q1.2, q2.2, q3.2, a1.2])
  rw [abs_le] at b1
  obtain ⟨c0, c1⟩ := fadd_close b0 p4 (by linarith [q1.2, q2.2, q3.2, q4.2, a1.2, b1.2])
  rw [abs_le] at c1
  obtain ⟨d0, d1⟩ := fadd_close c0 p5
    (by linarith [q1.2, q2.2, q3.2, q4.2, q5.2, a1.2, b1.2, c1.2])
  rw [abs_le] at d1
  refine ⟨d0, ?_⟩
  rw [abs_le]
  unfold weightedSum w04 w02 w01
  constructor <;>
    linarith [q1.1, q1.2, q2.1, q2.2, q3.1, q3.2, q4.1, q4.2, q5.1, q5.2, a1.1, a1.2, b1.1, b1.2,
      c1.1, c1.2, d1.1, d1.2]

/-- Rounding the double weighted sum gives the exactly rounded weighted sum,
as long as the exact sum is not half-way between two integers. -/
theorem mathRound_weightedSum (s e r l c : ℤ) (hs0 : 0 ≤ s) (hs : s ≤ 100) (he0 : 0 ≤ e)
    (he : e ≤ 100) (hr0 : 0 ≤ r) (hr : r ≤ 100) (hl0 : 0 ≤ l) (hl : l ≤ 100) (hc0 : 0 ≤ c)
    (hc : c ≤ 100) (htie : (4 * s + 2 * e + 2 * r + l + c) % 10 ≠ 5) :
    mathRound (weightedSum s e r l c) = (4 * s + 2 * e + 2 * r + l + c + 5) / 10
    ∧ ⌊(2 / 5 : ℚ) * s + (1 / 5) * e + (1 / 5) * r + (1 / 10) * l + (1 / 10) * c + 1 / 2⌋
        = (4 * s + 2 * e + 2 * r + l + c + 5) / 10 := by
  obtain ⟨-, hclose⟩ := weightedSum_close s e r l c hs0 hs he0 he hr0 hr hl0 hl hc0 hc
  set N : ℤ := 4 * s + 2 * e + 2 * r + l + c with hN
  have hdiv : (N + 5) = 10 * ((N + 5) / 10) + (N + 5) % 10 := (Int.ediv_add_emod (N + 5) 10).symm
  have hmod1 : 1 ≤ (N + 5) % 10 := by omega
  have hmod9 : (N + 5) % 10 ≤ 9 := by omega
  have hE : (2 / 5 : ℚ) * s + (1 / 5) * e + (1 / 5) * r + (1 / 10) * l + (1 / 10) * c + 1 / 2
      = (((N + 5) / 10 : ℤ) : ℚ) + (((N + 5) % 10 : ℤ) : ℚ) / 10 := by
    have hq : ((N + 5 : ℤ) : ℚ) = 10 * (((N + 5) / 10 : ℤ) : ℚ) + (((N + 5) % 10 : ℤ) : ℚ) := by
      exact_mod_cast hdiv
    have hNq : ((N + 5 : ℤ) : ℚ) = 4 * s + 2 * e + 2 * r + l + c + 5 := by
      rw [hN]; push_cast; ring
    linarith
  have hm1 : (1 : ℚ) ≤ (((N + 5) % 10 : ℤ) : ℚ) := by exact_mod_cast hmod1
  have hm9 : (((N + 5) % 10 : ℤ) : ℚ) ≤ 9 := by exact_mod_cast hmod9
  have hsmall : (2000 : ℚ) / 2 ^ 53 ≤ 1 / 100 := by norm_num
  constructor
  · apply mathRound_eq_of_close hclose <;> linarith
  · rw [Int.floor_eq_iff]
    constructor <;> linarith

/-! ## Skill factor (C3) -/

theorem foldl_count (p : JsString → Bool) (l : List JsString) (k : ℕ) :
    l.foldl (fun matched s => if p s then matched + 1 else matched) k = k + l.countP p := by
  induction l generalizing k with
  | nil => simp
  | cons a l ih =>
    simp only [List.foldl_cons, List.countP_cons, ih]
    split_ifs <;> omega

theorem countMatched_eq (job : Job) (profile : Profile) :
    countMatched ((job.skills.getD []).map toLowerCase) (toLowerCase (job.description.getD []))
        ((profile.skills.getD []).map toLowerCase)
      = matchedCountSpec job profile := by
  have hfun : ∀ (js : List JsString) (d : JsString),
      (fun (matched : ℕ) (s : JsString) =>
        if js.any (fun j => includes j s || includes s j) then matched + 1
        else if includes d s then matched + 1 else matched)
      = (fun (matched : ℕ) (s : JsString) =>
        if (js.any (fun j => includes j s || includes s j) || includes d s) = true
        then matched + 1 else matched) := by
    intro js d
    funext matched s
    by_cases h1 : js.any (fun j => includes j s || includes s j) = true
    · simp [h1]
    · simp [h1]
  unfold countMatched matchedCountSpec
  rw [hfun, foldl_count, List.countP_map, Nat.zero_add]
  congr 1
  funext skill
  simp only [Function.comp_def, skillMatched]
  rw [Bool.eq_iff_iff]
  simp only [Bool.or_eq_true, List.any_eq_true, List.mem_map, includes_iff, decide_eq_true_eq]
  constructor
  · rintro (⟨j, ⟨js, hjs, rfl⟩, h⟩ | h)
    · exact Or.inl ⟨js, hjs, h.symm⟩
    · exact Or.inr h
  · rintro (⟨js, hjs, h⟩ | h)
    · exact Or.inl ⟨_, ⟨js, hjs, rfl⟩, h.symm⟩
    · exact Or.inr h

theorem matchedCountSpec_le (job : Job) (profile : Profile) :
    matchedCountSpec job profile ≤ (profile.skills.getD []).length :=
  List.countP_le_length _

theorem calcSkillMatch_eq_double (job : Job) (profile : Profile) :
    calcSkillMatch job profile = calcSkillMatchDouble job profile := by
  unfold calcSkillMatch calcSkillMatchDouble
  simp only [getD_length_eq_zero_iff, countMatched_eq, List.length_map]
  by_cases h : profile.skills = none ∨ profile.skills = some []
  · simp only [h, if_true]
  · simp only [h, if_false]
    have hlen : 1 ≤ (profile.skills.getD []).length := by
      rw [Nat.one_le_iff_ne_zero]
      intro h0
      exact h ((getD_length_eq_zero_iff _).mp h0)
    rw [max_eq_left hlen]

/-- The double value of `matched / n * 100` is within `300 / 2^53` of the exact
value. -/
theorem skill_double_close (m n : ℕ) (hn : 1 ≤ n) (hm : m ≤ n) :
    0 ≤ fmul (fdiv (m : ℚ) (n : ℚ)) 100
    ∧ |fmul (fdiv (m : ℚ) (n : ℚ)) 100 - (m : ℚ) / (n : ℚ) * 100| ≤ 300 / 2 ^ 53 := by
  have hnq : (0 : ℚ) < (n : ℚ) := by exact_mod_cast hn
  have hmq : (m : ℚ) ≤ (n : ℚ) := by exact_mod_cast hm
  have hr0 : (0 : ℚ) ≤ (m : ℚ) / (n : ℚ) := by positivity
  have hr1 : (m : ℚ) / (n : ℚ) ≤ 1 := (div_le_one hnq).mpr hmq
  obtain ⟨hq0, hq⟩ := fl_close hr0 hr1
  rw [abs_le] at hq
  have hp0 : 0 ≤ fl ((m : ℚ) / (n : ℚ)) * 100 := by positivity
  have hp1 : fl ((m : ℚ) / (n : ℚ)) * 100 ≤ 101 := by
    have : (1 : ℚ) / 2 ^ 53 ≤ 1 / 100 := by norm_num
    linarith [hq.2]
  obtain ⟨hx0, hx⟩ := fl_close hp0 hp1
  rw [abs_le] at hx
  unfold fmul fdiv
  refine ⟨hx0, ?_⟩
  rw [abs_le]
  constructor <;> linarith [hq.1, hq.2, hx.1, hx.2]

theorem skill_round_range (m n : ℕ) (hn : 1 ≤ n) (hm : m ≤ n) :
    0 ≤ mathRound (fmul (fdiv (m : ℚ) (n : ℚ)) 100)
    ∧ mathRound (fmul (fdiv (m : ℚ) (n : ℚ)) 100) ≤ 100 := by
  obtain ⟨hx0, hx⟩ := skill_double_close m n hn hm
  rw [abs_le] at hx
  have hnq : (0 : ℚ) < (n : ℚ) := by exact_mod_cast hn
  have hmq : (m : ℚ) ≤ (n : ℚ) := by exact_mod_cast hm
  have hr1 : (m : ℚ) / (n : ℚ) ≤ 1 := (div_le_one hnq).mpr hmq
  have hsmall : (300 : ℚ) / 2 ^ 53 ≤ 1 / 100 := by norm_num
  unfold mathRound
  constructor
  · apply Int.floor_nonneg.mpr; linarith
  · have : ⌊fmul (fdiv (m : ℚ) (n : ℚ)) 100 + 1 / 2⌋ < 101 := by
      rw [Int.floor_lt]; push_cast; linarith [hx.2]
    omega

/-- Rounding of the skill quotient: the double computation agrees with exact
rounding (half up) unless the exact value is half-way between two integers,
where it may also give the integer below. -/
theorem skill_round_exact (m n : ℕ) (hn : 1 ≤ n) (hm : m ≤ n) (hn32 : n < 2 ^ 32) :
    ((200 * m + n) % (2 * n) ≠ 0 →
        mathRound (fmul (fdiv (m : ℚ) (n : ℚ)) 100) = ⌊(m : ℚ) / (n : ℚ) * 100 + 1 / 2⌋)
    ∧ (mathRound (fmul (fdiv (m : ℚ) (n : ℚ)) 100) = ⌊(m : ℚ) / (n : ℚ) * 100 + 1 / 2⌋
        ∨ mathRound (fmul (fdiv (m : ℚ) (n : ℚ)) 100)
            = ⌊(m : ℚ) / (n : ℚ) * 100 + 1 / 2⌋ - 1) := by
  obtain ⟨-, hx⟩ := skill_double_close m n hn hm
  have hnq : (0 : ℚ) < (n : ℚ) := by exact_mod_cast hn
  have hd : (0 : ℚ) < 2 * (n : ℚ) := by positivity
  have hd33 : 2 * (n : ℚ) ≤ 2 ^ 33 := by
    have : (n : ℚ) ≤ 2 ^ 32 := by exact_mod_cast hn32.le
    linarith
  have hinv : (1 : ℚ) / 2 ^ 33 ≤ 1 / (2 * (n : ℚ)) := one_div_le_one_div_of_le hd hd33
  have hsmall : (300 : ℚ) / 2 ^ 53 < 1 / 2 ^ 33 := by norm_num
  have hdm := Nat.div_add_mod (200 * m + n) (2 * n)
  have hlt : (200 * m + n) % (2 * n) < 2 * n := Nat.mod_lt _ (by omega)
  set k : ℕ := (200 * m + n) / (2 * n) with hk
  set ρ : ℕ := (200 * m + n) % (2 * n) with hρ
  have hdmq : 2 * (n : ℚ) * (k : ℚ) + (ρ : ℚ) = 200 * (m : ℚ) + (n : ℚ) := by exact_mod_cast hdm
  have hE : (m : ℚ) / (n : ℚ) * 100 + 1 / 2 = (k : ℚ) + (ρ : ℚ) / (2 * (n : ℚ)) := by
    have h1 : (m : ℚ) / (n : ℚ) * 100 + 1 / 2
        = (200 * (m : ℚ) + (n : ℚ)) / (2 * (n : ℚ)) := by
      field_simp; ring
    rw [h1, ← hdmq]
    field_simp
    ring
  have hρ0 : (0 : ℚ) ≤ (ρ : ℚ) / (2 * (n : ℚ)) := by positivity
  have hρ1 : (ρ : ℚ) / (2 * (n : ℚ)) ≤ 1 - 1 / (2 * (n : ℚ)) := by
    rw [div_le_iff₀ hd]
    have : (ρ : ℚ) + 1 ≤ 2 * (n : ℚ) := by exact_mod_cast hlt
    field_simp
    linarith
  have hspec : ⌊(m : ℚ) / (n : ℚ) * 100 + 1 / 2⌋ = (k : ℤ) := by
    rw [Int.floor_eq_iff]
    push_cast
    constructor <;> linarith [one_div_pos.mpr hd]
  rw [hspec]
  constructor
  · intro htie
    have hρpos : (1 : ℚ) ≤ (ρ : ℚ) := by
      have : 1 ≤ ρ := Nat.one_le_iff_ne_zero.mpr htie
      exact_mod_cast this
    have hρlow : 1 / (2 * (n : ℚ)) ≤ (ρ : ℚ) / (2 * (n : ℚ)) :=
      div_le_div_of_nonneg_right hρpos hd.le
    apply mathRound_eq_of_close hx
    · push_cast; linarith
    · push_cast; linarith
  · by_cases htie : ρ = 0
    · have hE0 : (m : ℚ) / (n : ℚ) * 100 + 1 / 2 = (k : ℚ) := by rw [hE, htie]; simp
      rw [abs_le] at hx
      have h1 : (k : ℤ) - 1 ≤ mathRound (fmul (fdiv (m : ℚ) (n : ℚ)) 100) := by
        unfold mathRound
        rw [Int.le_floor]
        push_cast
        have : (300 : ℚ) / 2 ^ 53 ≤ 1 := by norm_num
        linarith [hx.1]
      have h2 : mathRound (fmul (fdiv (m : ℚ) (n : ℚ)) 100) < (k : ℤ) + 1 := by
        unfold mathRound
        rw [Int.floor_lt]
        push_cast
        have : (300 : ℚ) / 2 ^ 53 < 1 := by norm_num
        linarith [hx.2]
      omega
    · left
      have hρpos : (1 : ℚ) ≤ (ρ : ℚ) := by
        have : 1 ≤ ρ := Nat.one_le_iff_ne_zero.mpr htie
        exact_mod_cast this
      have hρlow : 1 / (2 * (n : ℚ)) ≤ (ρ : ℚ) / (2 * (n : ℚ)) :=
        div_le_div_of_nonneg_right hρpos hd.le
      apply mathRound_eq_of_close hx
      · push_cast; linarith
      · push_cast; linarith

theorem calcSkillMatch_range (job : Job) (profile : Profile) :
    0 ≤ calcSkillMatch job profile ∧ calcSkillMatch job profile ≤ 100 := by
  rw [calcSkillMatch_eq_double]
  unfold calcSkillMatchDouble
  by_cases h : profile.skills = none ∨ profile.skills = some []
  · simp only [h, if_true]; constructor <;> decide
  · simp only [h, if_false]
    have hlen : 1 ≤ (profile.skills.getD []).length := by
      rw [Nat.one_le_iff_ne_zero]
      intro h0
      exact h ((getD_length_eq_zero_iff _).mp h0)
    exact skill_round_range _ _ hlen (matchedCountSpec_le job profile)

theorem fl_twentythree_fortieths :
    fl (23 / 40) = 5179139571476070 / 2 ^ 53 := by
  have h := fl_eval (23 / 40) (-1) 5179139571476070 (by norm_num) (by norm_num) (by norm_num)
    (by rw [abs_lt]; constructor <;> norm_num)
  rw [h]; norm_num

theorem fl_times_hundred :
    fl (5179139571476070 / 2 ^ 53 * 100) = 8092405580431359 / 2 ^ 47 := by
  have h := fl_eval (5179139571476070 / 2 ^ 53 * 100) 5 8092405580431359 (by norm_num)
    (by norm_num) (by norm_num) (by rw [abs_lt]; constructor <;> norm_num)
  rw [h]; norm_num

/-- C3, as stated, fails: with 23 of 40 different profile skills matched the
exact value is 57.5, which rounds to 58, but the double product is
57.49999999999999 and `calcSkillMatch` returns 57. -/
theorem calcSkillMatch_rounding_counterexample :
    fortySkills.Nodup
    ∧ matchedCountSpec (jobWithDescription stackDescription) (profileWithSkills fortySkills) = 23
    ∧ ((profileWithSkills fortySkills).skills.getD []).length = 40
    ∧ calcSkillMatch (jobWithDescription stackDescription) (profileWithSkills fortySkills) = 57
    ∧ calcSkillMatchSpec (jobWithDescription stackDescription) (profileWithSkills fortySkills)
        = 58 := by
  have hm : matchedCountSpec (jobWithDescription stackDescription)
      (profileWithSkills fortySkills) = 23 := by
    decide
  have hn : ((profileWithSkills fortySkills).skills.getD []).length = 40 := by decide
  have hs : ¬ ((profileWithSkills fortySkills).skills = none
      ∨ (profileWithSkills fortySkills).skills = some []) := by decide
  refine ⟨by decide, hm, hn, ?_, ?_⟩
  · rw [calcSkillMatch_eq_double]
    simp only [calcSkillMatchDouble, hs, if_false, hm, hn, fmul, fdiv]
    have h1 : ((23 : ℕ) : ℚ) / ((40 : ℕ) : ℚ) = 23 / 40 := by norm_num
    rw [h1, fl_twentythree_fortieths, fl_times_hundred]
    unfold mathRound
    rw [Int.floor_eq_iff]
    constructor <;> norm_num
  · simp only [calcSkillMatchSpec, hs, if_false, hm, hn]
    rw [Int.floor_eq_iff]
    constructor <;> norm_num

/-- C3, amended: `calcSkillMatch` returns 50 when the profile has no skills;
otherwise it returns `Math.round` of the double value of `matched / n * 100`,
with `matched` as specified.  The result is an integer in [0,100].  For a
skills list of fewer than 2^32 entries it equals the exact value of
`matched / n * 100` rounded half up whenever that value is not half-way
between two integers, and is that or one less in any case. -/
theorem calcSkillMatch_eq_double_spec (job : Job) (profile : Profile)
    (hlen : (profile.skills.getD []).length < 2 ^ 32) :
    calcSkillMatch job profile = calcSkillMatchDouble job profile
    ∧ ((profile.skills = none ∨ profile.skills = some []) → calcSkillMatch job profile = 50)
    ∧ 0 ≤ calcSkillMatch job profile
    ∧ calcSkillMatch job profile ≤ 100
    ∧ (¬ skillTie job profile → calcSkillMatch job profile = calcSkillMatchSpec job profile)
    ∧ (calcSkillMatch job profile = calcSkillMatchSpec job profile
        ∨ calcSkillMatch job profile = calcSkillMatchSpec job profile - 1) := by
  have hr := calcSkillMatch_range job profile
  refine ⟨calcSkillMatch_eq_double job profile, ?_, hr.1, hr.2, ?_, ?_⟩
  · intro h
    rw [calcSkillMatch_eq_double]
    simp only [calcSkillMatchDouble, h, if_true]
  · rw [calcSkillMatch_eq_double]
    unfold calcSkillMatchDouble calcSkillMatchSpec skillTie
    by_cases h : profile.skills = none ∨ profile.skills = some []
    · simp only [h, if_true, implies_true]
    · simp only [h, if_false]
      have hpos : 1 ≤ (profile.skills.getD []).length := by
        rw [Nat.one_le_iff_ne_zero]
        intro h0
        exact h ((getD_length_eq_zero_iff _).mp h0)
      exact (skill_round_exact _ _ hpos (matchedCountSpec_le job profile) hlen).1
  · rw [calcSkillMatch_eq_double]
    unfold calcSkillMatchDouble calcSkillMatchSpec
    by_cases h : profile.skills = none ∨ profile.skills = some []
    · simp only [h, if_true, true_or]
    · simp only [h, if_false]
      have hpos : 1 ≤ (profile.skills.getD []).length := by
        rw [Nat.one_le_iff_ne_zero]
        intro h0
        exact h ((getD_length_eq_zero_iff _).mp h0)
      exact (skill_round_exact _ _ hpos (matchedCountSpec_le job profile) hlen).2

theorem fl_exact_half : fl (1 / 2) = 1 / 2 := by
  have h := fl_eval (1 / 2) (-1) (2 ^ 52) (by norm_num) (by norm_num) (by norm_num)
    (by rw [abs_lt]; constructor <;> norm_num)
  rw [h]; norm_num

theorem fl_exact_one : fl 1 = 1 := by
  have h := fl_eval 1 0 (2 ^ 52) (by norm_num) (by norm_num) (by norm_num)
    (by rw [abs_lt]; constructor <;> norm_num)
  rw [h]; norm_num

theorem fl_exact_fifty : fl 50 = 50 := by
  have h := fl_eval 50 5 (50 * 2 ^ 47) (by norm_num) (by norm_num) (by norm_num)
    (by rw [abs_lt]; constructor <;> norm_num)
  rw [h]; norm_num

theorem fl_exact_hundred : fl 100 = 100 := by
  have h := fl_eval 100 6 (100 * 2 ^ 46) (by norm_num) (by norm_num) (by norm_num)
    (by rw [abs_lt]; constructor <;> norm_num)
  rw [h]; norm_num

theorem skill_umlaut : calcSkillMatch umlautJob umlautProfile = 100 := by
  have hm : matchedCountSpec umlautJob umlautProfile = 1 := by decide
  have hn : (umlautProfile.skills.getD []).length = 1 := by decide
  have hs : ¬ (umlautProfile.skills = none ∨ umlautProfile.skills = some []) := by decide
  rw [calcSkillMatch_eq_double]
  simp only [calcSkillMatchDouble, hs, if_false, hm, hn, fmul, fdiv]
  have h1 : ((1 : ℕ) : ℚ) / ((1 : ℕ) : ℚ) = 1 := by norm_num
  have h2 : (1 : ℚ) * 100 = 100 := by norm_num
  rw [h1, fl_exact_one, h2, fl_exact_hundred]
  unfold mathRound
  rw [Int.floor_eq_iff]
  constructor <;> norm_num

/-- Witness for C3 amended: two of the three skills occur in the description,
the exact value 66.66… is not a tie, and the factor is the exactly rounded
value; and the profile skill "ÖPNV" matches the job skill "öpnv". -/
theorem calcSkillMatch_eq_double_spec_witness :
    calcSkillMatch (jobWithDescription "Go and SQL services")
        (profileWithSkills ["Go", "Rust", "SQL"])
      = calcSkillMatchSpec (jobWithDescription "Go and SQL services")
        (profileWithSkills ["Go", "Rust", "SQL"])
    ∧ matchedCountSpec umlautJob umlautProfile = 1
    ∧ calcSkillMatch umlautJob umlautProfile = 100 :=
  ⟨(calcSkillMatch_eq_double_spec (jobWithDescription "Go and SQL services")
    (profileWithSkills ["Go", "Rust", "SQL"]) (by decide)).2.2.2.2.1 (by decide),
    by decide, skill_umlaut⟩

/-! ## Values the factor functions can take -/

theorem calcExperienceMatch_mem (job : Job) (profile : Profile) :
    calcExperienceMatch job profile ∈ ([20, 40, 60, 70, 80, 100] : List ℤ) := by
  unfold calcExperienceMatch
  split
  · decide
  · split_ifs
    · decide
    · split
      · decide
      · simp only []
        split_ifs <;> decide

theorem seniorityBonusAmended_mem (seniority : Option JsString) (title : JsString) :
    seniorityBonusAmended seniority title ∈ ([0, 25, 30] : List ℤ) := by
  unfold seniorityBonusAmended seniorityBonusClaimed
  split_ifs <;> decide

theorem calcRoleAlignment_mem (job : Job) (profile : Profile) :
    calcRoleAlignment job profile ∈ ([50, 70, 75, 80, 95, 100] : List ℤ) := by
  rw [roleAlignment_amended_aux]
  unfold calcRoleAlignmentAmended domainBonusSpec
  have h := seniorityBonusAmended_mem profile.seniority (toLowerCase (job.title.getD []))
  simp only [List.mem_cons, List.mem_singleton, List.not_mem_nil, or_false] at h
  rcases h with h | h | h <;> rw [h] <;> split_ifs <;> decide

theorem calcLocationFit_mem (job : Job) (profile : Profile) :
    calcLocationFit job profile ∈ ([30, 70, 90, 100] : List ℤ) := by
  unfold calcLocationFit
  simp only []
  split_ifs <;> decide

theorem calcCompanyPref_mem (job : Job) (profile : Profile) :
    calcCompanyPref job profile ∈ ([50, 70, 100] : List ℤ) := by
  unfold calcCompanyPref
  simp only []
  split_ifs <;> decide

/-- The total before and after the clamp, as integer arithmetic on the factor
scores. -/
theorem scoreJob_total_eq (job : Job) (profile : Profile) :
    (scoreJob (some job) (some profile)).total
        = (4 * calcSkillMatch job profile + 2 * calcExperienceMatch job profile
            + 2 * calcRoleAlignment job profile + calcLocationFit job profile
            + calcCompanyPref job profile + 5) / 10
    ∧ ⌊(2 / 5 : ℚ) * calcSkillMatch job profile + (1 / 5) * calcExperienceMatch job profile
          + (1 / 5) * calcRoleAlignment job profile + (1 / 10) * calcLocationFit job profile
          + (1 / 10) * calcCompanyPref job profile + 1 / 2⌋
        = (4 * calcSkillMatch job profile + 2 * calcExperienceMatch job profile
            + 2 * calcRoleAlignment job profile + calcLocationFit job profile
            + calcCompanyPref job profile + 5) / 10
    ∧ 0 ≤ (scoreJob (some job) (some profile)).total
    ∧ (scoreJob (some job) (some profile)).total ≤ 100 := by
  obtain ⟨hs0, hs⟩ := calcSkillMatch_range job profile
  have he := calcExperienceMatch_mem job profile
  have hr := calcRoleAlignment_mem job profile
  have hl := calcLocationFit_mem job profile
  have hc := calcCompanyPref_mem job profile
  simp only [List.mem_cons, List.mem_singleton, List.not_mem_nil, or_false] at he hr hl hc
  have he' : 0 ≤ calcExperienceMatch job profile ∧ calcExperienceMatch job profile ≤ 100
      ∧ calcExperienceMatch job profile % 10 = 0 := by
    rcases he with h | h | h | h | h | h <;> rw [h] <;> decide
  have hr' : 0 ≤ calcRoleAlignment job profile ∧ calcRoleAlignment job profile ≤ 100
      ∧ calcRoleAlignment job profile % 5 = 0 := by
    rcases hr with h | h | h | h | h | h <;> rw [h] <;> decide
  have hl' : 0 ≤ calcLocationFit job profile ∧ calcLocationFit job profile ≤ 100
      ∧ calcLocationFit job profile % 10 = 0 := by
    rcases hl with h | h | h | h <;> rw [h] <;> decide
  have hc' : 0 ≤ calcCompanyPref job profile ∧ calcCompanyPref job profile ≤ 100
      ∧ calcCompanyPref job profile % 10 = 0 := by
    rcases hc with h | h | h <;> rw [h] <;> decide
  have htie : (4 * calcSkillMatch job profile + 2 * calcExperienceMatch job profile
      + 2 * calcRoleAlignment job profile + calcLocationFit job profile
      + calcCompanyPref job profile) % 10 ≠ 5 := by omega
  obtain ⟨hround, hexact⟩ := mathRound_weightedSum _ _ _ _ _ hs0 hs he'.1 he'.2.1 hr'.1 hr'.2.1
    hl'.1 hl'.2.1 hc'.1 hc'.2.1 htie
  have htotal : (scoreJob (some job) (some profile)).total
      = min 100 (max 0 (mathRound (weightedSum (calcSkillMatch job profile)
          (calcExperienceMatch job profile) (calcRoleAlignment job profile)
          (calcLocationFit job profile) (calcCompanyPref job profile)))) := rfl
  rw [htotal, hround]
  refine ⟨?_, hexact, ?_, ?_⟩ <;> omega

/-! ## Total score (C1) -/

/-- C1: when job and profile are both present, with `s, e, r, l, c` the five
factor scores, `scoreJob` returns `total = round(0.4 s + 0.2 e + 0.2 r + 0.1 l
+ 0.1 c)` in exact arithmetic, rounding half up, and `0 ≤ total ≤ 100`. -/
theorem scoreJob_total_exact_round (job : Job) (profile : Profile) :
    (scoreJob (some job) (some profile)).total
        = ⌊(2 / 5 : ℚ) * calcSkillMatch job profile + (1 / 5) * calcExperienceMatch job profile
            + (1 / 5) * calcRoleAlignment job profile + (1 / 10) * calcLocationFit job profile
            + (1 / 10) * calcCompanyPref job profile + 1 / 2⌋
    ∧ 0 ≤ (scoreJob (some job) (some profile)).total
    ∧ (scoreJob (some job) (some profile)).total ≤ 100 := by
  obtain ⟨h1, h2, h3, h4⟩ := scoreJob_total_eq job profile
  exact ⟨h1.trans h2.symm, h3, h4⟩

/-! ## Role factor, amended (C6) -/

/-- C6, amended: the call `calcRoleAlignment(job, profile)` raises a `TypeError`
when the seniority names a property inherited from `Object.prototype`; for
every other seniority, absent or not, it returns `min(100, 50 + s + d)`, with
`d` 20 when some lower-cased profile domain occurs in the lower-cased title or
description and 0 otherwise, and `s` the seniority bonus: 30 when the
lower-cased title has a keyword of the profile's tier; for a Mid-Level profile
30 when the title has "mid" or "intermediate", otherwise 25 when it has none of
senior/junior/lead/intern/staff, otherwise 0; 0 in every other case. -/
theorem calcRoleAlignment_eq_amended (job : Job) (profile : Profile) :
    ((∃ name ∈ objectPrototypeNames, profile.seniority = some name) →
        calcRoleAlignmentCall job profile = .error .notAFunction)
    ∧ ((¬ ∃ name ∈ objectPrototypeNames, profile.seniority = some name) →
        calcRoleAlignmentCall job profile
            = .ok (min 100 (50
                + seniorityBonusAmended profile.seniority (toLowerCase (job.title.getD []))
                + domainBonusSpec job profile))
          ∧ calcRoleAlignment job profile
            = min 100 (50
                + seniorityBonusAmended profile.seniority (toLowerCase (job.title.getD []))
                + domainBonusSpec job profile)) := by
  constructor
  · rintro ⟨name, hmem, hs⟩
    have hk : expectedKeywords profile.seniority = .error .notAFunction := by
      rw [hs]
      exact expectedKeywords_inherited name hmem
    simp only [calcRoleAlignmentCall, hk]
  · intro h
    refine ⟨?_, roleAlignment_amended_aux job profile⟩
    rw [calcRoleAlignmentCall_ok job profile (fun name hs hmem => h ⟨name, hmem, hs⟩)]
    exact congrArg Except.ok (roleAlignment_amended_aux job profile)

/-- Witness for C6 amended: a seniority named "constructor" makes the call
raise; a Mid-Level profile and the title "Mid-Level Engineer" give 80. -/
theorem calcRoleAlignment_eq_amended_witness :
    calcRoleAlignmentCall (jobWithTitle "Mid-Level Engineer")
        (profileWithSeniority "constructor") = .error .notAFunction
    ∧ calcRoleAlignmentCall (jobWithTitle "Mid-Level Engineer")
        (profileWithSeniority "Mid-Level") = .ok 80 :=
  ⟨(calcRoleAlignment_eq_amended (jobWithTitle "Mid-Level Engineer")
      (profileWithSeniority "constructor")).1 ⟨"constructor".toList, by decide, rfl⟩,
    ((calcRoleAlignment_eq_amended (jobWithTitle "Mid-Level Engineer")
      (profileWithSeniority "Mid-Level")).2 (by decide)).1.trans
        (congrArg Except.ok (by decide))⟩

/-! ## Ranking (C11, C12, C13) -/

theorem rankOrder_total :
    IsTotal RankedJob (fun a b => b.matchResult.total - a.matchResult.total ≤ 0) :=
  ⟨fun a b => by
    rcases le_total a.matchResult.total b.matchResult.total with h | h
    · right; omega
    · left; omega⟩

theorem rankOrder_trans :
    IsTrans RankedJob (fun a b => b.matchResult.total - a.matchResult.total ≤ 0) :=
  ⟨fun a b c hab hbc => by
    have h1 : b.matchResult.total - a.matchResult.total ≤ 0 := hab
    have h2 : c.matchResult.total - b.matchResult.total ≤ 0 := hbc
    show c.matchResult.total - a.matchResult.total ≤ 0
    omega⟩

theorem rankJobs_sorted_aux (jobs : List Job) (profile : Option Profile) :
    (rankJobs jobs profile).Pairwise
      (fun a b => b.matchResult.total - a.matchResult.total ≤ 0) := by
  haveI := rankOrder_total
  haveI := rankOrder_trans
  exact List.sorted_insertionSort
    (fun a b : RankedJob => b.matchResult.total - a.matchResult.total ≤ 0)
    (jobs.map (annotate profile))

theorem rankJobs_perm_aux (jobs : List Job) (profile : Option Profile) :
    List.Perm (rankJobs jobs profile) (jobs.map (annotate profile)) :=
  List.perm_insertionSort _ _

theorem rankJobs_filter_aux (jobs : List Job) (profile : Option Profile) (p : RankedJob → Bool)
    (hp : ∀ a b : RankedJob, p a = true → p b = true →
      b.matchResult.total - a.matchResult.total ≤ 0) :
    (rankJobs jobs profile).filter p = (jobs.map (annotate profile)).filter p := by
  have hsub : List.Sublist ((jobs.map (annotate profile)).filter p) (rankJobs jobs profile) := by
    apply List.sublist_insertionSort
    · rw [List.pairwise_iff_forall_sublist]
      intro a b hab
      have ha : a ∈ (jobs.map (annotate profile)).filter p := hab.subset (by simp)
      have hb : b ∈ (jobs.map (annotate profile)).filter p := hab.subset (by simp)
      exact hp a b (List.mem_filter.mp ha).2 (List.mem_filter.mp hb).2
    · exact List.filter_sublist _
  have hsub2 : List.Sublist ((jobs.map (annotate profile)).filter p)
      ((rankJobs jobs profile).filter p) := by
    have := hsub.filter p
    simpa [List.filter_filter] using this
  have hlen : ((rankJobs jobs profile).filter p).length
      = ((jobs.map (annotate profile)).filter p).length :=
    ((rankJobs_perm_aux jobs profile).filter p).length_eq
  exact (hsub2.eq_of_length hlen.symm).symm

theorem scoreJob_congr (job job2 : Job) (profile profile2 : Profile)
    (h1 : job.title = job2.title) (h2 : job.description = job2.description)
    (h3 : job.skills = job2.skills) (h4 : job.isRemote = job2.isRemote)
    (h5 : job.location = job2.location) (h6 : job.company = job2.company)
    (k1 : profile.skills = profile2.skills)
    (k2 : profile.yearsOfExperience = profile2.yearsOfExperience)
    (k3 : profile.seniority = profile2.seniority) (k4 : profile.domains = profile2.domains)
    (k5 : profile.preferredLocations = profile2.preferredLocations)
    (k6 : profile.companyPreferences = profile2.companyPreferences) :
    scoreJob (some job) (some profile) = scoreJob (some job2) (some profile2) := by
  have e1 : calcSkillMatch job profile = calcSkillMatch job2 profile2 := by
    simp only [calcSkillMatch, h2, h3, k1]
  have e2 : calcExperienceMatch job profile = calcExperienceMatch job2 profile2 := by
    simp only [calcExperienceMatch, h2, k2]
  have e3 : calcRoleAlignment job profile = calcRoleAlignment job2 profile2 := by
    simp only [calcRoleAlignment, h1, h2, k3, k4]
  have e4 : calcLocationFit job profile = calcLocationFit job2 profile2 := by
    simp only [calcLocationFit, h4, h5, k5]
  have e5 : calcCompanyPref job profile = calcCompanyPref job2 profile2 := by
    simp only [calcCompanyPref, h6, k6]
  simp only [scoreJob, buildExplanation, e1, e2, e3, e4, e5]

theorem skill_jobThirty : calcSkillMatch jobThirty rankingProfile = 0 := by
  have hm : matchedCountSpec jobThirty rankingProfile = 0 := by decide
  have hn : (rankingProfile.skills.getD []).length = 2 := by decide
  have hs : ¬ (rankingProfile.skills = none ∨ rankingProfile.skills = some []) := by decide
  rw [calcSkillMatch_eq_double]
  simp only [calcSkillMatchDouble, hs, if_false, hm, hn, fmul, fdiv]
  norm_num [fl_zero, mathRound]

theorem skill_jobSixty : calcSkillMatch jobSixty rankingProfile = 50 := by
  have hm : matchedCountSpec jobSixty rankingProfile = 1 := by decide
  have hn : (rankingProfile.skills.getD []).length = 2 := by decide
  have hs : ¬ (rankingProfile.skills = none ∨ rankingProfile.skills = some []) := by decide
  rw [calcSkillMatch_eq_double]
  simp only [calcSkillMatchDouble, hs, if_false, hm, hn, fmul, fdiv]
  have h1 : ((1 : ℕ) : ℚ) / ((2 : ℕ) : ℚ) = 1 / 2 := by norm_num
  have h2 : (1 / 2 : ℚ) * 100 = 50 := by norm_num
  rw [h1, fl_exact_half, h2, fl_exact_fifty]
  unfold mathRound
  rw [Int.floor_eq_iff]
  constructor <;> norm_num

theorem skill_jobNinety : calcSkillMatch jobNinety rankingProfile = 100 := by
  have hm : matchedCountSpec jobNinety rankingProfile = 2 := by decide
  have hn : (rankingProfile.skills.getD []).length = 2 := by decide
  have hs : ¬ (rankingProfile.skills = none ∨ rankingProfile.skills = some []) := by decide
  rw [calcSkillMatch_eq_double]
  simp only [calcSkillMatchDouble, hs, if_false, hm, hn, fmul, fdiv]
  have h1 : ((2 : ℕ) : ℚ) / ((2 : ℕ) : ℚ) = 1 := by norm_num
  have h2 : (1 : ℚ) * 100 = 100 := by norm_num
  rw [h1, fl_exact_one, h2, fl_exact_hundred]
  unfold mathRound
  rw [Int.floor_eq_iff]
  constructor <;> norm_num

theorem total_jobThirty : (scoreJob (some jobThirty) (some rankingProfile)).total = 30 := by
  have he : calcExperienceMatch jobThirty rankingProfile = 20 := by decide
  have hr : calcRoleAlignment jobThirty rankingProfile = 50 := by decide
  have hl : calcLocationFit jobThirty rankingProfile = 90 := by decide
  have hc : calcCompanyPref jobThirty rankingProfile = 70 := by decide
  rw [(scoreJob_total_eq _ _).1, skill_jobThirty, he, hr, hl, hc]
  decide

theorem total_jobNinety : (scoreJob (some jobNinety) (some rankingProfile)).total = 90 := by
  have he : calcExperienceMatch jobNinety rankingProfile = 100 := by decide
  have hr : calcRoleAlignment jobNinety rankingProfile = 80 := by decide
  have hl : calcLocationFit jobNinety rankingProfile = 70 := by decide
  have hc : calcCompanyPref jobNinety rankingProfile = 70 := by decide
  rw [(scoreJob_total_eq _ _).1, skill_jobNinety, he, hr, hl, hc]
  decide

theorem total_jobSixty : (scoreJob (some jobSixty) (some rankingProfile)).total = 60 := by
  have he : calcExperienceMatch jobSixty rankingProfile = 80 := by decide
  have hr : calcRoleAlignment jobSixty rankingProfile = 50 := by decide
  have hl : calcLocationFit jobSixty rankingProfile = 70 := by decide
  have hc : calcCompanyPref jobSixty rankingProfile = 70 := by decide
  rw [(scoreJob_total_eq _ _).1, skill_jobSixty, he, hr, hl, hc]
  decide

theorem rankJobs_example_aux :
    rankJobs [jobThirty, jobNinety, jobSixty] (some rankingProfile)
      = [annotate (some rankingProfile) jobNinety, annotate (some rankingProfile) jobSixty,
          annotate (some rankingProfile) jobThirty] := by
  simp [rankJobs, arraySort, List.insertionSort, List.orderedInsert, annotate, total_jobThirty,
    total_jobNinety, total_jobSixty]

/-- C11: the list returned by `rankJobs` is sorted by `matchResult.total` in
non-increasing order: every element's total is at least the total of every
later element, in particular of the next one; jobs with totals 30, 90, 60 come
back in the order 90, 60, 30. -/
theorem rankJobs_sorted (jobs : List Job) (profile : Option Profile) :
    (rankJobs jobs profile).Pairwise (fun a b => a.matchResult.total ≥ b.matchResult.total)
    ∧ (rankJobs jobs profile).Chain' (fun a b => a.matchResult.total ≥ b.matchResult.total)
    ∧ [jobThirty, jobNinety, jobSixty].map
          (fun job => (scoreJob (some job) (some rankingProfile)).total) = [30, 90, 60]
    ∧ (rankJobs [jobThirty, jobNinety, jobSixty] (some rankingProfile)).map (fun a => a.job)
        = [jobNinety, jobSixty, jobThirty]
    ∧ (rankJobs [jobThirty, jobNinety, jobSixty] (some rankingProfile)).map
          (fun a => a.matchResult.total) = [90, 60, 30] := by
  have hs : (rankJobs jobs profile).Pairwise
      (fun a b => a.matchResult.total ≥ b.matchResult.total) :=
    (rankJobs_sorted_aux jobs profile).imp (fun h => by omega)
  refine ⟨hs, List.Pairwise.chain' hs, ?_, ?_, ?_⟩
  · simp [total_jobThirty, total_jobNinety, total_jobSixty]
  · rw [rankJobs_example_aux]; rfl
  · rw [rankJobs_example_aux]
    simp [annotate, total_jobThirty, total_jobNinety, total_jobSixty]

/-- C12: `rankJobs` is stable: for each total, the jobs that receive it appear
in the output in their input order; any two jobs with the same total keep
their relative order; with an absent profile the output order is the input
order. -/
theorem rankJobs_stable (jobs : List Job) (profile : Option Profile) :
    (∀ t : ℤ, (rankJobs jobs profile).filter (fun a => decide (a.matchResult.total = t))
        = (jobs.map (annotate profile)).filter (fun a => decide (a.matchResult.total = t)))
    ∧ (∀ a b : RankedJob, a.matchResult.total = b.matchResult.total →
        List.Sublist [a, b] (jobs.map (annotate profile)) →
        List.Sublist [a, b] (rankJobs jobs profile))
    ∧ rankJobs jobs none = jobs.map (annotate none) := by
  refine ⟨?_, ?_, ?_⟩
  · intro t
    apply rankJobs_filter_aux
    intro a b ha hb
    simp only [decide_eq_true_eq] at ha hb
    omega
  · intro a b hab hsub
    apply List.pair_sublist_insertionSort _ hsub
    show b.matchResult.total - a.matchResult.total ≤ 0
    omega
  · have hzero : ∀ a ∈ jobs.map (annotate none), decide (a.matchResult.total = 0) = true := by
      intro a ha
      obtain ⟨job, -, rfl⟩ := List.mem_map.mp ha
      rfl
    have h := rankJobs_filter_aux jobs none (fun a => decide (a.matchResult.total = 0))
      (fun a b ha hb => by
        simp only [decide_eq_true_eq] at ha hb
        omega)
    rw [List.filter_eq_self.mpr hzero,
      List.filter_eq_self.mpr (fun a ha => hzero a ((rankJobs_perm_aux jobs none).subset ha))] at h
    exact h

/-- Witness for C12: without a profile both jobs get total 0 and stay in input
order. -/
theorem rankJobs_stable_witness :
    List.Sublist [annotate none jobThirty, annotate none jobNinety]
      (rankJobs [jobThirty, jobNinety] none) :=
  (rankJobs_stable [jobThirty, jobNinety] none).2.1 (annotate none jobThirty)
    (annotate none jobNinety) rfl (List.Sublist.refl _)

/-- C13: `rankJobs` only annotates: the output has the length of the input, its
jobs are a permutation of the input jobs with every field unchanged, and each
element's `matchResult` is `scoreJob(job, profile)` for its own job. -/
theorem rankJobs_annotates (jobs : List Job) (profile : Option Profile) :
    (rankJobs jobs profile).length = jobs.length
    ∧ List.Perm ((rankJobs jobs profile).map (fun a => a.job)) jobs
    ∧ List.Perm (rankJobs jobs profile) (jobs.map (annotate profile))
    ∧ (∀ a ∈ rankJobs jobs profile,
        a.job ∈ jobs ∧ a.matchResult = scoreJob (some a.job) profile) := by
  have hperm := rankJobs_perm_aux jobs profile
  refine ⟨?_, ?_, hperm, ?_⟩
  · rw [hperm.length_eq, List.length_map]
  · have h := hperm.map (fun a => a.job)
    simpa [List.map_map, Function.comp_def, annotate] using h
  · intro a ha
    have hmem : a ∈ jobs.map (annotate profile) := hperm.subset ha
    obtain ⟨job, hjob, rfl⟩ := List.mem_map.mp hmem
    exact ⟨hjob, rfl⟩

/-! ## Determinism and scored fields (C14) -/

/-- C14: `scoreJob` depends only on the scored fields: two calls whose jobs
agree on title, description, skills, isRemote, location and company and whose
profiles agree on skills, yearsOfExperience, seniority, domains,
preferredLocations and companyPreferences return equal results, whatever the
other fields are. -/
theorem scoreJob_scored_fields_only (job job2 : Job) (profile profile2 : Profile)
    (hjob : job.title = job2.title ∧ job.description = job2.description
      ∧ job.skills = job2.skills ∧ job.isRemote = job2.isRemote
      ∧ job.location = job2.location ∧ job.company = job2.company)
    (hprofile : profile.skills = profile2.skills
      ∧ profile.yearsOfExperience = profile2.yearsOfExperience
      ∧ profile.seniority = profile2.seniority ∧ profile.domains = profile2.domains
      ∧ profile.preferredLocations = profile2.preferredLocations
      ∧ profile.companyPreferences = profile2.companyPreferences) :
    scoreJob (some job) (some profile) = scoreJob (some job2) (some profile2) := by
  obtain ⟨h1, h2, h3, h4, h5, h6⟩ := hjob
  obtain ⟨k1, k2, k3, k4, k5, k6⟩ := hprofile
  exact scoreJob_congr job job2 profile profile2 h1 h2 h3 h4 h5 h6 k1 k2 k3 k4 k5 k6

/-- Witness for C14: a relisted job and a profile with a name and an email
score as the originals do, although they are different objects. -/
theorem scoreJob_scored_fields_only_witness :
    jobSixty ≠ jobSixtyRelisted ∧ rankingProfile ≠ rankingProfileNamed
    ∧ scoreJob (some jobSixty) (some rankingProfile)
        = scoreJob (some jobSixtyRelisted) (some rankingProfileNamed) :=
  ⟨by decide, by decide,
    scoreJob_scored_fields_only jobSixty jobSixtyRelisted rankingProfile rankingProfileNamed
      ⟨rfl, rfl, rfl, rfl, rfl, rfl⟩ ⟨rfl, rfl, rfl, rfl, rfl, rfl⟩⟩

/-! ## Resume parser: input guards (C15) -/

theorem jsLength_le (t : JsString) : jsLength t ≤ 2 * t.length := by
  induction t with
  | nil => simp [jsLength]
  | cons c cs ih =>
    simp only [jsLength, List.map_cons, List.sum_cons, List.length_cons] at ih ⊢
    split_ifs <;> omega

theorem parseResume_short (t : JsString) (hne : t ≠ []) (hlen : jsLength t < 50) :
    parseResume (some t) = .error .tooShort := by
  have h1 : t.isEmpty = false := by
    cases t with
    | nil => exact absurd rfl hne
    | cons c cs => rfl
  simp only [parseResume, h1, Bool.false_eq_true, if_false, hlen, if_true]

theorem filterE_error {ε α : Type} (f : α → Except ε Bool) (pre : List α) (x : α)
    (post : List α) (e : ε) (hpre : ∀ y ∈ pre, ∃ b, f y = .ok b) (hx : f x = .error e) :
    filterE f (pre ++ x :: post) = .error e := by
  induction pre with
  | nil => simp only [List.nil_append, filterE, hx]
  | cons y ys ih =>
    obtain ⟨b, hb⟩ := hpre y (List.mem_cons_self _ _)
    have ih2 := ih (fun z hz => hpre z (List.mem_cons_of_mem _ hz))
    simp only [List.cons_append, filterE, hb, List.append_eq, ih2]

theorem keywordTest_ok (text keyword : JsString)
    (h : (wordPattern keyword).toOption.isSome = true) : ∃ b, keywordTest text keyword = .ok b := by
  unfold keywordTest
  cases hw : wordPattern keyword with
  | error e => rw [hw] at h; simp [Except.toOption] at h
  | ok r => exact ⟨_, rfl⟩

theorem skills_filter_raises (text : JsString) :
    filterE (keywordTest text) SKILL_KEYWORDS
      = .error (.invalidPattern "\\bC++\\b".toList .nothingToRepeat) := by
  have hsplit : SKILL_KEYWORDS
      = (["JavaScript", "TypeScript", "React", "Vue", "Angular", "Node.js", "Python",
            "Java"].map String.toList)
          ++ "C++".toList :: (SKILL_KEYWORDS.drop 9) := by decide
  rw [hsplit]
  apply filterE_error
  · intro y hy
    apply keywordTest_ok
    revert y
    decide
  · rfl

theorem parseResume_long (t : JsString) (hlen : 50 ≤ jsLength t) :
    parseResume (some t) = .error (.invalidPattern "\\bC++\\b".toList .nothingToRepeat) := by
  have h1 : t.isEmpty = false := by
    cases t with
    | nil => simp [jsLength] at hlen
    | cons c cs => rfl
  have h2 : ¬ jsLength t < 50 := by omega
  simp only [parseResume, h1, Bool.false_eq_true, if_false, h2, skills_filter_raises]

theorem parseResume_raises (text : Option JsString) : ∃ e, parseResume text = .error e := by
  cases text with
  | none => exact ⟨_, rfl⟩
  | some t =>
    by_cases hne : t = []
    · subst hne; exact ⟨_, rfl⟩
    · by_cases hlen : jsLength t < 50
      · exact ⟨_, parseResume_short t hne hlen⟩
      · exact ⟨_, parseResume_long t (by omega)⟩

/-- C15: `parseResume` raises, and returns no profile, for every text that is
absent, empty or shorter than 50 characters: "No text provided" without a text,
"Text too short to analyze" below a `length` of 50, in particular for every
10-character string. -/
theorem parseResume_rejects_short_text :
    parseResume none = .error .noText
    ∧ parseResume (some []) = .error .noText
    ∧ (∀ t : JsString, t ≠ [] → jsLength t < 50 → parseResume (some t) = .error .tooShort)
    ∧ (∀ t : JsString, t.length = 10 → parseResume (some t) = .error .tooShort)
    ∧ (∀ t : JsString, t.length < 50 → ∃ e, parseResume (some t) = .error e) := by
  refine ⟨rfl, rfl, parseResume_short, ?_, fun t _ => parseResume_raises (some t)⟩
  intro t ht
  have hle := jsLength_le t
  apply parseResume_short t
  · intro h; rw [h] at ht; simp at ht
  · omega

/-- Witness for C15: a 10-character string. -/
theorem parseResume_rejects_short_text_witness :
    parseResume (some "0123456789".toList) = .error .tooShort :=
  parseResume_rejects_short_text.2.2.2.1 "0123456789".toList rfl

/-! ## Resume parser: the skill patterns (C16) -/

/-- C16: the code at the failing input.  The pattern built from the keyword
"C++" is rejected ("Nothing to repeat"); it is the only rejected keyword of the
skill table and no keyword of the domain table is rejected.  The 66-character
text `sampleResume` passes both guards and `parseResume` raises the
`SyntaxError` of that pattern; indeed `parseResume` returns for no text. -/
theorem parseResume_raises_on_sample :
    wordPattern "C++".toList = .error .nothingToRepeat
    ∧ SKILL_KEYWORDS.filter (fun k => !(wordPattern k).toOption.isSome) = ["C++".toList]
    ∧ DOMAIN_KEYWORDS.all
        (fun row => row.keywords.all (fun k => (wordPattern k).toOption.isSome)) = true
    ∧ jsLength sampleResume = 66
    ∧ parseResume (some sampleResume)
        = .error (.invalidPattern "\\bC++\\b".toList .nothingToRepeat)
    ∧ (∀ text : Option JsString, ∃ e, parseResume text = .error e) := by
  refine ⟨rfl, by decide, by decide, by decide, parseResume_long _ (by decide),
    parseResume_raises⟩

/-! ## Resume parser: duplicate-free lists (C17) -/

theorem uniqueInOrder_nodup_aux (xs seen : List JsString) (h : seen.Nodup) :
    (xs.foldl (fun seen x => if x ∈ seen then seen else seen ++ [x]) seen).Nodup := by
  induction xs generalizing seen with
  | nil => exact h
  | cons x xs ih =>
    simp only [List.foldl_cons]
    apply ih
    split_ifs with hx
    · exact h
    · rw [List.nodup_append]
      refine ⟨h, List.nodup_singleton x, ?_⟩
      intro a ha hb
      rw [List.mem_singleton] at hb
      subst hb
      exact hx ha

/-- C17: the code at the failing input.  On `resumeRepeatedSkill` (78
characters) `parseResume` raises before any list is built, so no profile with
duplicate-free lists is returned.  The step that would build the lists,
`[...new Set(xs)]`, does remove duplicates. -/
theorem parseResume_raises_before_lists :
    jsLength resumeRepeatedSkill = 78
    ∧ parseResume (some resumeRepeatedSkill)
        = .error (.invalidPattern "\\bC++\\b".toList .nothingToRepeat)
    ∧ (∀ xs : List JsString, (uniqueInOrder xs).Nodup)
    ∧ uniqueInOrder ["React".toList, "Vue".toList, "React".toList]
        = ["React".toList, "Vue".toList] := by
  refine ⟨by decide, parseResume_long _ (by decide), ?_, by decide⟩
  intro xs
  exact uniqueInOrder_nodup_aux xs [] List.nodup_nil

/-! ## Resume parser: seniority (C18) -/

/-- C18: the code at the failing input.  On `resumeSenior` (76 characters)
`parseResume` raises before the seniority is computed, so no seniority is
returned.  The step that would compute it follows the stated rule. -/
theorem parseResume_raises_before_seniority :
    jsLength resumeSenior = 76
    ∧ parseResume (some resumeSenior)
        = .error (.invalidPattern "\\bC++\\b".toList .nothingToRepeat)
    ∧ (∀ (years : ℕ) (text : JsString),
        (detectSeniority years text = "Senior".toList
          ↔ (5 < years ∨ seniorityPattern.test flagsI text = true))
        ∧ (detectSeniority years text = "Mid-Level".toList
          ↔ (¬ (5 < years ∨ seniorityPattern.test flagsI text = true) ∧ 2 < years))
        ∧ (detectSeniority years text = "Junior".toList
          ↔ (¬ (5 < years ∨ seniorityPattern.test flagsI text = true) ∧ ¬ 2 < years)))
    ∧ detectSeniority (yearsOfExperience (experienceSection resumeSenior)) resumeSenior
        = "Senior".toList := by
  refine ⟨by decide, parseResume_long _ (by decide), ?_, by decide⟩
  intro years text
  have d1 : "Senior".toList ≠ "Mid-Level".toList := by decide
  have d2 : "Senior".toList ≠ "Junior".toList := by decide
  have d3 : "Mid-Level".toList ≠ "Junior".toList := by decide
  unfold detectSeniority
  by_cases h1 : 5 < years ∨ seniorityPattern.test flagsI text = true
  · simp only [h1, if_true, true_iff, not_true_eq_false, false_and, iff_false]
    exact ⟨trivial, d1, d2⟩
  · by_cases h2 : 2 < years
    · simp only [h1, h2, if_false, if_true, not_false_eq_true, and_self, iff_true, not_true_eq_false,
        and_false, iff_false]
      exact ⟨d1.symm, trivial, d3⟩
    · simp only [h1, h2, if_false, not_false_eq_true, and_self, iff_true, and_false, iff_false]
      exact ⟨d2.symm, d3.symm, trivial⟩

/-! ## Resume parser: achievements (C19) -/

/-- C19: the code at the failing input.  On `resumeWithBullets` `parseResume`
raises before the achievements are extracted.  Applied to the experience
section of that text, `extractAchievements` keeps at most three lines but
strips only one marker at the very start of a line: an indented bullet and a
doubled bullet leave entries that begin with a bullet marker. -/
theorem parseResume_raises_before_achievements :
    jsLength resumeWithBullets = 109
    ∧ parseResume (some resumeWithBullets)
        = .error (.invalidPattern "\\bC++\\b".toList .nothingToRepeat)
    ∧ experienceSection resumeWithBullets = sectionWithBullets
    ∧ extractAchievements sectionWithBullets
        = ["- Led the platform team".toList, "* Built the billing service".toList]
    ∧ (∀ text : JsString, (extractAchievements text).length ≤ 3) := by
  refine ⟨by decide, parseResume_long _ (by decide), by decide, by decide, ?_⟩
  intro text
  exact List.length_take_le 3 _

/-! ## Resume parser: links (C20) -/

/-- C20: the code at the failing input.  On `resumeWithSite` `parseResume`
raises before the links are normalised.  The step that would normalise them
tests `startsWith('http')`, not the scheme: the first URL-like match of that
text is "httpbin.org/jane", which is kept without a scheme. -/
theorem parseResume_raises_before_links :
    jsLength resumeWithSite = 82
    ∧ parseResume (some resumeWithSite)
        = .error (.invalidPattern "\\bC++\\b".toList .nothingToRepeat)
    ∧ portfolioMatch resumeWithSite = some "httpbin.org/jane".toList
    ∧ withHttps "httpbin.org/jane".toList = "httpbin.org/jane".toList
    ∧ (linkedinPattern.exec flagsI resumeWithSite).map (fun m => withHttps m.matched)
        = some "https://linkedin.com/in/jane-doe".toList := by
  refine ⟨by decide, parseResume_long _ (by decide), by decide, by decide, by decide⟩

/-! ## Monotonicity of rounding -/

theorem roundTiesEven_mono {z w : ℚ} (h : z ≤ w) : roundTiesEven z ≤ roundTiesEven w := by
  have hz1 : ((⌊z⌋ : ℤ) : ℚ) ≤ z := Int.floor_le z
  have hz2 : z < ((⌊z⌋ : ℤ) : ℚ) + 1 := Int.lt_floor_add_one z
  have hw1 : ((⌊w⌋ : ℤ) : ℚ) ≤ w := Int.floor_le w
  have hw2 : w < ((⌊w⌋ : ℤ) : ℚ) + 1 := Int.lt_floor_add_one w
  have hfl : ⌊z⌋ ≤ ⌊w⌋ := Int.floor_mono h
  have hzle : roundTiesEven z ≤ ⌊z⌋ + 1 := by
    unfold roundTiesEven; simp only []; split_ifs <;> omega
  have hwge : ⌊w⌋ ≤ roundTiesEven w := by
    unfold roundTiesEven; simp only []; split_ifs <;> omega
  rcases hfl.lt_or_eq with hlt | heq
  · omega
  · have heq' : ((⌊z⌋ : ℤ) : ℚ) = ((⌊w⌋ : ℤ) : ℚ) := by rw [heq]
    unfold roundTiesEven
    simp only []
    rw [← heq] 
    split_ifs with a1 a2 a3 a4 a5 a6 a7 a8 a9 <;> first | omega | (exfalso; linarith)

theorem roundTiesEven_intCast (n : ℤ) : roundTiesEven (n : ℚ) = n := by
  unfold roundTiesEven
  simp

theorem fl_le_pow_succ {x : ℚ} (hx : 0 < x) : fl x ≤ (2 : ℚ) ^ (Int.log 2 x + 1) := by
  have hlt : x < ((2 : ℕ) : ℚ) ^ (Int.log 2 x + 1) := Int.lt_zpow_succ_log_self (by norm_num) x
  have hu : (0 : ℚ) < (2 : ℚ) ^ (Int.log 2 x - 52) := by positivity
  have hsplit : (2 : ℚ) ^ (Int.log 2 x + 1) = 2 ^ (53 : ℕ) * (2 : ℚ) ^ (Int.log 2 x - 52) := by
    rw [← zpow_natCast, ← zpow_add₀ (by norm_num : (2 : ℚ) ≠ 0)]
    congr 1; push_cast; ring
  have hz : x / (2 : ℚ) ^ (Int.log 2 x - 52) ≤ (((2 ^ 53 : ℕ) : ℤ) : ℚ) := by
    have hz2 : x / (2 : ℚ) ^ (Int.log 2 x - 52) ≤ 2 ^ (53 : ℕ) := by
      rw [div_le_iff₀ hu, ← hsplit]
      exact_mod_cast hlt.le
    push_cast
    exact hz2
  have hr := roundTiesEven_mono hz
  rw [roundTiesEven_intCast] at hr
  have hrq : ((roundTiesEven (x / (2 : ℚ) ^ (Int.log 2 x - 52)) : ℤ) : ℚ) ≤ 2 ^ (53 : ℕ) := by
    exact_mod_cast hr
  simp only [fl, if_neg hx.ne', abs_of_pos hx]
  rw [hsplit]
  exact mul_le_mul_of_nonneg_right hrq hu.le

theorem pow_le_fl {x : ℚ} (hx : 0 < x) : (2 : ℚ) ^ (Int.log 2 x) ≤ fl x := by
  have hle : ((2 : ℕ) : ℚ) ^ (Int.log 2 x) ≤ x := Int.zpow_log_le_self (by norm_num) hx
  have hu : (0 : ℚ) < (2 : ℚ) ^ (Int.log 2 x - 52) := by positivity
  have hsplit : (2 : ℚ) ^ (Int.log 2 x) = 2 ^ (52 : ℕ) * (2 : ℚ) ^ (Int.log 2 x - 52) := by
    rw [← zpow_natCast, ← zpow_add₀ (by norm_num : (2 : ℚ) ≠ 0)]
    congr 1; push_cast; ring
  have hz : (((2 ^ 52 : ℕ) : ℤ) : ℚ) ≤ x / (2 : ℚ) ^ (Int.log 2 x - 52) := by
    have hz2 : (2 : ℚ) ^ (52 : ℕ) ≤ x / (2 : ℚ) ^ (Int.log 2 x - 52) := by
      rw [le_div_iff₀ hu, ← hsplit]
      exact_mod_cast hle
    push_cast
    exact hz2
  have hr := roundTiesEven_mono hz
  rw [roundTiesEven_intCast] at hr
  have hrq : (2 : ℚ) ^ (52 : ℕ) ≤ ((roundTiesEven (x / (2 : ℚ) ^ (Int.log 2 x - 52)) : ℤ) : ℚ) := by
    exact_mod_cast hr
  simp only [fl, if_neg hx.ne', abs_of_pos hx]
  rw [hsplit]
  exact mul_le_mul_of_nonneg_right hrq hu.le

theorem fl_mono {x y : ℚ} (hx : 0 ≤ x) (h : x ≤ y) : fl x ≤ fl y := by
  rcases hx.lt_or_eq with hpos | hzero
  · have hy : 0 < y := lt_of_lt_of_le hpos h
    have hlog : Int.log 2 x ≤ Int.log 2 y := Int.log_mono_right hpos h
    rcases hlog.lt_or_eq with hlt | heq
    · calc fl x ≤ (2 : ℚ) ^ (Int.log 2 x + 1) := fl_le_pow_succ hpos
        _ ≤ (2 : ℚ) ^ (Int.log 2 y) := zpow_le_zpow_right₀ (by norm_num) (by omega)
        _ ≤ fl y := pow_le_fl hy
    · have hu : (0 : ℚ) < (2 : ℚ) ^ (Int.log 2 y - 52) := by positivity
      simp only [fl, if_neg hpos.ne', if_neg hy.ne', abs_of_pos hpos, abs_of_pos hy, heq]
      apply mul_le_mul_of_nonneg_right _ hu.le
      have := roundTiesEven_mono (div_le_div_of_nonneg_right h hu.le)
      exact_mod_cast this
  · rw [← hzero, fl_zero]
    exact fl_nonneg (hzero ▸ h)

theorem mathRound_mono {x y : ℚ} (h : x ≤ y) : mathRound x ≤ mathRound y := by
  unfold mathRound
  exact Int.floor_mono (by linarith)

/-! ## Double values at the extreme scores -/

theorem fl_weight_04 : fl (2 / 5) = 3602879701896397 / 2 ^ 53 := by
  have h := fl_eval (2 / 5) (-2) 7205759403792794 (by norm_num) (by norm_num) (by norm_num)
    (by rw [abs_lt]; constructor <;> norm_num)
  rw [h]; norm_num

theorem fl_weight_02 : fl (1 / 5) = 3602879701896397 / 2 ^ 54 := by
  have h := fl_eval (1 / 5) (-3) 7205759403792794 (by norm_num) (by norm_num) (by norm_num)
    (by rw [abs_lt]; constructor <;> norm_num)
  rw [h]; norm_num

theorem fl_weight_01 : fl (1 / 10) = 3602879701896397 / 2 ^ 55 := by
  have h := fl_eval (1 / 10) (-4) 7205759403792794 (by norm_num) (by norm_num) (by norm_num)
    (by rw [abs_lt]; constructor <;> norm_num)
  rw [h]; norm_num

theorem fl_prod_20_02 : fl (20 * (3602879701896397 / 2 ^ 54)) = 4 := by
  have h := fl_eval (20 * (3602879701896397 / 2 ^ 54)) (2) 4503599627370496 (by norm_num) (by norm_num) (by norm_num)
    (by rw [abs_lt]; constructor <;> norm_num)
  rw [h]; norm_num

theorem fl_prod_50_02 : fl (50 * (3602879701896397 / 2 ^ 54)) = 10 := by
  have h := fl_eval (50 * (3602879701896397 / 2 ^ 54)) (3) 5629499534213120 (by norm_num) (by norm_num) (by norm_num)
    (by rw [abs_lt]; constructor <;> norm_num)
  rw [h]; norm_num

theorem fl_prod_30_01 : fl (30 * (3602879701896397 / 2 ^ 55)) = 3 := by
  have h := fl_eval (30 * (3602879701896397 / 2 ^ 55)) (1) 6755399441055744 (by norm_num) (by norm_num) (by norm_num)
    (by rw [abs_lt]; constructor <;> norm_num)
  rw [h]; norm_num

theorem fl_prod_50_01 : fl (50 * (3602879701896397 / 2 ^ 55)) = 5 := by
  have h := fl_eval (50 * (3602879701896397 / 2 ^ 55)) (2) 5629499534213120 (by norm_num) (by norm_num) (by norm_num)
    (by rw [abs_lt]; constructor <;> norm_num)
  rw [h]; norm_num

theorem fl_prod_100_04 : fl (100 * (3602879701896397 / 2 ^ 53)) = 40 := by
  have h := fl_eval (100 * (3602879701896397 / 2 ^ 53)) (5) 5629499534213120 (by norm_num) (by norm_num) (by norm_num)
    (by rw [abs_lt]; constructor <;> norm_num)
  rw [h]; norm_num

theorem fl_prod_100_02 : fl (100 * (3602879701896397 / 2 ^ 54)) = 20 := by
  have h := fl_eval (100 * (3602879701896397 / 2 ^ 54)) (4) 5629499534213120 (by norm_num) (by norm_num) (by norm_num)
    (by rw [abs_lt]; constructor <;> norm_num)
  rw [h]; norm_num

theorem fl_prod_100_01 : fl (100 * (3602879701896397 / 2 ^ 55)) = 10 := by
  have h := fl_eval (100 * (3602879701896397 / 2 ^ 55)) (3) 5629499534213120 (by norm_num) (by norm_num) (by norm_num)
    (by rw [abs_lt]; constructor <;> norm_num)
  rw [h]; norm_num

theorem fl_exact_4 : fl (4) = 4 := by
  have h := fl_eval (4) (2) 4503599627370496 (by norm_num) (by norm_num) (by norm_num)
    (by rw [abs_lt]; constructor <;> norm_num)
  rw [h]; norm_num

theorem fl_exact_14 : fl (14) = 14 := by
  have h := fl_eval (14) (3) 7881299347898368 (by norm_num) (by norm_num) (by norm_num)
    (by rw [abs_lt]; constructor <;> norm_num)
  rw [h]; norm_num

theorem fl_exact_17 : fl (17) = 17 := by
  have h := fl_eval (17) (4) 4785074604081152 (by norm_num) (by norm_num) (by norm_num)
    (by rw [abs_lt]; constructor <;> norm_num)
  rw [h]; norm_num

theorem fl_exact_22 : fl (22) = 22 := by
  have h := fl_eval (22) (4) 6192449487634432 (by norm_num) (by norm_num) (by norm_num)
    (by rw [abs_lt]; constructor <;> norm_num)
  rw [h]; norm_num

theorem fl_exact_60 : fl (60) = 60 := by
  have h := fl_eval (60) (5) 8444249301319680 (by norm_num) (by norm_num) (by norm_num)
    (by rw [abs_lt]; constructor <;> norm_num)
  rw [h]; norm_num

theorem fl_exact_80 : fl (80) = 80 := by
  have h := fl_eval (80) (6) 5629499534213120 (by norm_num) (by norm_num) (by norm_num)
    (by rw [abs_lt]; constructor <;> norm_num)
  rw [h]; norm_num

theorem fl_exact_90 : fl (90) = 90 := by
  have h := fl_eval (90) (6) 6333186975989760 (by norm_num) (by norm_num) (by norm_num)
    (by rw [abs_lt]; constructor <;> norm_num)
  rw [h]; norm_num

theorem weight_nonneg : 0 ≤ w04 ∧ 0 ≤ w02 ∧ 0 ≤ w01 :=
  ⟨fl_nonneg (by norm_num), fl_nonneg (by norm_num), fl_nonneg (by norm_num)⟩

theorem fmul_mono {a b w : ℚ} (ha : 0 ≤ a) (hab : a ≤ b) (hw : 0 ≤ w) :
    0 ≤ fmul a w ∧ fmul a w ≤ fmul b w :=
  ⟨fl_nonneg (mul_nonneg ha hw),
    fl_mono (mul_nonneg ha hw) (mul_le_mul_of_nonneg_right hab hw)⟩

theorem fadd_mono {a b c d : ℚ} (ha : 0 ≤ a) (hc : 0 ≤ c) (hab : a ≤ b) (hcd : c ≤ d) :
    0 ≤ fadd a c ∧ fadd a c ≤ fadd b d :=
  ⟨fl_nonneg (add_nonneg ha hc), fl_mono (add_nonneg ha hc) (add_le_add hab hcd)⟩

/-- The double weighted sum is monotone in each score. -/
theorem weightedSum_mono {s e r l c s2 e2 r2 l2 c2 : ℤ} (hs0 : 0 ≤ s) (he0 : 0 ≤ e)
    (hr0 : 0 ≤ r) (hl0 : 0 ≤ l) (hc0 : 0 ≤ c) (hs : s ≤ s2) (he : e ≤ e2) (hr : r ≤ r2)
    (hl : l ≤ l2) (hc : c ≤ c2) :
    weightedSum s e r l c ≤ weightedSum s2 e2 r2 l2 c2 := by
  obtain ⟨h4, h2, h1⟩ := weight_nonneg
  have q : ∀ {a b : ℤ}, 0 ≤ a → a ≤ b → (0 : ℚ) ≤ (a : ℚ) ∧ (a : ℚ) ≤ (b : ℚ) :=
    fun h0 h => ⟨by exact_mod_cast h0, by exact_mod_cast h⟩
  obtain ⟨a0, a1⟩ := fmul_mono (q hs0 hs).1 (q hs0 hs).2 h4
  obtain ⟨b0, b1⟩ := fmul_mono (q he0 he).1 (q he0 he).2 h2
  obtain ⟨c0, c1⟩ := fmul_mono (q hr0 hr).1 (q hr0 hr).2 h2
  obtain ⟨d0, d1⟩ := fmul_mono (q hl0 hl).1 (q hl0 hl).2 h1
  obtain ⟨e0, e1⟩ := fmul_mono (q hc0 hc).1 (q hc0 hc).2 h1
  obtain ⟨f0, f1⟩ := fadd_mono a0 b0 a1 b1
  obtain ⟨g0, g1⟩ := fadd_mono f0 c0 f1 c1
  obtain ⟨i0, i1⟩ := fadd_mono g0 d0 g1 d1
  exact (fadd_mono i0 e0 i1 e1).2

theorem weightedSum_lowest : weightedSum 0 20 50 30 50 = 22 := by
  simp only [weightedSum, fmul, fadd, w04, w02, w01, fl_weight_04, fl_weight_02, fl_weight_01]
  have e1 : ((0 : ℤ) : ℚ) * (3602879701896397 / 2 ^ 53) = 0 := by norm_num
  have e2 : ((20 : ℤ) : ℚ) = 20 := by norm_num
  have e3 : ((50 : ℤ) : ℚ) = 50 := by norm_num
  have e4 : ((30 : ℤ) : ℚ) = 30 := by norm_num
  rw [e1, e2, e3, e4, fl_zero, fl_prod_20_02, fl_prod_50_02, fl_prod_30_01, fl_prod_50_01]
  have s1 : (0 : ℚ) + 4 = 4 := by norm_num
  have s2 : (4 : ℚ) + 10 = 14 := by norm_num
  have s3 : (14 : ℚ) + 3 = 17 := by norm_num
  have s4 : (17 : ℚ) + 5 = 22 := by norm_num
  rw [s1, fl_exact_4, s2, fl_exact_14, s3, fl_exact_17, s4, fl_exact_22]

theorem weightedSum_highest : weightedSum 100 100 100 100 100 = 100 := by
  simp only [weightedSum, fmul, fadd, w04, w02, w01, fl_weight_04, fl_weight_02, fl_weight_01]
  have e2 : ((100 : ℤ) : ℚ) = 100 := by norm_num
  rw [e2, fl_prod_100_04, fl_prod_100_02, fl_prod_100_01]
  have s1 : (40 : ℚ) + 20 = 60 := by norm_num
  have s2 : (60 : ℚ) + 20 = 80 := by norm_num
  have s3 : (80 : ℚ) + 10 = 90 := by norm_num
  have s4 : (90 : ℚ) + 10 = 100 := by norm_num
  rw [s1, fl_exact_60, s2, fl_exact_80, s3, fl_exact_90, s4, fl_exact_hundred]

theorem factor_bounds (job : Job) (profile : Profile) :
    (0 ≤ calcSkillMatch job profile ∧ calcSkillMatch job profile ≤ 100)
    ∧ (20 ≤ calcExperienceMatch job profile ∧ calcExperienceMatch job profile ≤ 100)
    ∧ (50 ≤ calcRoleAlignment job profile ∧ calcRoleAlignment job profile ≤ 100)
    ∧ (30 ≤ calcLocationFit job profile ∧ calcLocationFit job profile ≤ 100)
    ∧ (50 ≤ calcCompanyPref job profile ∧ calcCompanyPref job profile ≤ 100) := by
  have he := calcExperienceMatch_mem job profile
  have hr := calcRoleAlignment_mem job profile
  have hl := calcLocationFit_mem job profile
  have hc := calcCompanyPref_mem job profile
  simp only [List.mem_cons, List.mem_singleton, List.not_mem_nil, or_false] at he hr hl hc
  refine ⟨calcSkillMatch_range job profile, ?_, ?_, ?_, ?_⟩
  · rcases he with h | h | h | h | h | h <;> rw [h] <;> decide
  · rcases hr with h | h | h | h | h | h <;> rw [h] <;> decide
  · rcases hl with h | h | h | h <;> rw [h] <;> decide
  · rcases hc with h | h | h <;> rw [h] <;> decide

/-! ## Lower bound of the total (C29) -/

/-- C29: with job and profile present the factors lie in [0,100],
{20,40,60,70,80,100}, {50,70,75,80,95,100}, {30,70,90,100} and {50,70,100};
the weighted sum, exact or in doubles, stays in [22,100]; the clamp does not
change the rounded sum; the total is at least 22; and a total of 0 occurs
exactly for an absent job or profile. -/
theorem scoreJob_total_at_least_22 (job : Job) (profile : Profile) :
    (0 ≤ calcSkillMatch job profile ∧ calcSkillMatch job profile ≤ 100)
    ∧ calcExperienceMatch job profile ∈ ([20, 40, 60, 70, 80, 100] : List ℤ)
    ∧ calcRoleAlignment job profile ∈ ([50, 70, 75, 80, 95, 100] : List ℤ)
    ∧ calcLocationFit job profile ∈ ([30, 70, 90, 100] : List ℤ)
    ∧ calcCompanyPref job profile ∈ ([50, 70, 100] : List ℤ)
    ∧ (22 ≤ (2 / 5 : ℚ) * calcSkillMatch job profile + (1 / 5) * calcExperienceMatch job profile
          + (1 / 5) * calcRoleAlignment job profile + (1 / 10) * calcLocationFit job profile
          + (1 / 10) * calcCompanyPref job profile
        ∧ (2 / 5 : ℚ) * calcSkillMatch job profile + (1 / 5) * calcExperienceMatch job profile
          + (1 / 5) * calcRoleAlignment job profile + (1 / 10) * calcLocationFit job profile
          + (1 / 10) * calcCompanyPref job profile ≤ 100)
    ∧ (22 ≤ weightedSum (calcSkillMatch job profile) (calcExperienceMatch job profile)
          (calcRoleAlignment job profile) (calcLocationFit job profile)
          (calcCompanyPref job profile)
        ∧ weightedSum (calcSkillMatch job profile) (calcExperienceMatch job profile)
          (calcRoleAlignment job profile) (calcLocationFit job profile)
          (calcCompanyPref job profile) ≤ 100)
    ∧ (scoreJob (some job) (some profile)).total
        = mathRound (weightedSum (calcSkillMatch job profile) (calcExperienceMatch job profile)
            (calcRoleAlignment job profile) (calcLocationFit job profile)
            (calcCompanyPref job profile))
    ∧ 22 ≤ (scoreJob (some job) (some profile)).total
    ∧ (∀ (j : Option Job) (p : Option Profile),
        (scoreJob j p).total = 0 ↔ (j = none ∨ p = none)) := by
  obtain ⟨⟨hs0, hs⟩, ⟨he0, he⟩, ⟨hr0, hr⟩, ⟨hl0, hl⟩, ⟨hc0, hc⟩⟩ := factor_bounds job profile
  have hlow : ∀ (j : Job) (p : Profile), 22 ≤ (scoreJob (some j) (some p)).total := by
    intro j p
    obtain ⟨⟨a0, -⟩, ⟨b0, -⟩, ⟨c0, -⟩, ⟨d0, -⟩, ⟨e0, -⟩⟩ := factor_bounds j p
    rw [(scoreJob_total_eq j p).1]
    omega
  have hsum_lo := weightedSum_mono (le_refl 0) (by norm_num : (0 : ℤ) ≤ 20)
    (by norm_num : (0 : ℤ) ≤ 50) (by norm_num : (0 : ℤ) ≤ 30) (by norm_num : (0 : ℤ) ≤ 50)
    hs0 he0 hr0 hl0 hc0
  have hsum_hi := weightedSum_mono hs0 (by omega : (0 : ℤ) ≤ calcExperienceMatch job profile)
    (by omega : (0 : ℤ) ≤ calcRoleAlignment job profile)
    (by omega : (0 : ℤ) ≤ calcLocationFit job profile)
    (by omega : (0 : ℤ) ≤ calcCompanyPref job profile) hs he hr hl hc
  rw [weightedSum_lowest] at hsum_lo
  rw [weightedSum_highest] at hsum_hi
  have q : ∀ {a b : ℤ}, a ≤ b → (a : ℚ) ≤ (b : ℚ) := fun h => by exact_mod_cast h
  have hs0q := q hs0; have hsq := q hs; have he0q := q he0; have heq := q he
  have hr0q := q hr0; have hrq := q hr; have hl0q := q hl0; have hlq := q hl
  have hc0q := q hc0; have hcq := q hc
  push_cast at hs0q hsq he0q heq hr0q hrq hl0q hlq hc0q hcq
  refine ⟨⟨hs0, hs⟩, calcExperienceMatch_mem job profile, calcRoleAlignment_mem job profile,
    calcLocationFit_mem job profile, calcCompanyPref_mem job profile,
    ⟨by linarith, by linarith⟩, ⟨hsum_lo, hsum_hi⟩, ?_, hlow job profile, ?_⟩
  · have hm : 22 ≤ mathRound (weightedSum (calcSkillMatch job profile)
        (calcExperienceMatch job profile) (calcRoleAlignment job profile)
        (calcLocationFit job profile) (calcCompanyPref job profile)) := by
      unfold mathRound
      rw [Int.le_floor]
      push_cast
      linarith
    have hM : mathRound (weightedSum (calcSkillMatch job profile)
        (calcExperienceMatch job profile) (calcRoleAlignment job profile)
        (calcLocationFit job profile) (calcCompanyPref job profile)) ≤ 100 := by
      have : mathRound (weightedSum (calcSkillMatch job profile)
          (calcExperienceMatch job profile) (calcRoleAlignment job profile)
          (calcLocationFit job profile) (calcCompanyPref job profile)) < 101 := by
        unfold mathRound
        rw [Int.floor_lt]
        push_cast
        linarith
      omega
    show min 100 (max 0 _) = _
    omega
  · intro j p
    cases j with
    | none => cases p <;> simp [scoreJob]
    | some j =>
      cases p with
      | none => simp [scoreJob]
      | some p =>
        have := hlow j p
        constructor
        · intro h0; omega
        · intro h; simp at h

/-! ## More job skills (C30) -/

theorem skill_round_mono (m m2 n : ℕ) (h : m ≤ m2) :
    mathRound (fmul (fdiv (m : ℚ) (n : ℚ)) 100) ≤ mathRound (fmul (fdiv (m2 : ℚ) (n : ℚ)) 100) := by
  have hn : (0 : ℚ) ≤ (n : ℚ) := by positivity
  have hm : (0 : ℚ) ≤ (m : ℚ) := by positivity
  have hq : (m : ℚ) / (n : ℚ) ≤ (m2 : ℚ) / (n : ℚ) :=
    div_le_div_of_nonneg_right (by exact_mod_cast h) hn
  have h1 : fl ((m : ℚ) / (n : ℚ)) ≤ fl ((m2 : ℚ) / (n : ℚ)) := fl_mono (by positivity) hq
  have h0 : 0 ≤ fl ((m : ℚ) / (n : ℚ)) := fl_nonneg (by positivity)
  unfold fmul fdiv
  exact mathRound_mono (fl_mono (by positivity) (mul_le_mul_of_nonneg_right h1 (by norm_num)))

/-- C30: appending entries to a job's skills never lowers its match: the skill
factor does not decrease, the other four factors are unchanged, and the total
does not decrease. -/
theorem scoreJob_more_skills (job : Job) (extra : List JsString) (profile : Profile) :
    calcSkillMatch job profile
        ≤ calcSkillMatch { job with skills := some (job.skills.getD [] ++ extra) } profile
    ∧ calcExperienceMatch { job with skills := some (job.skills.getD [] ++ extra) } profile
        = calcExperienceMatch job profile
    ∧ calcRoleAlignment { job with skills := some (job.skills.getD [] ++ extra) } profile
        = calcRoleAlignment job profile
    ∧ calcLocationFit { job with skills := some (job.skills.getD [] ++ extra) } profile
        = calcLocationFit job profile
    ∧ calcCompanyPref { job with skills := some (job.skills.getD [] ++ extra) } profile
        = calcCompanyPref job profile
    ∧ (scoreJob (some job) (some profile)).total
        ≤ (scoreJob (some { job with skills := some (job.skills.getD [] ++ extra) })
            (some profile)).total := by
  have hcount : matchedCountSpec job profile
      ≤ matchedCountSpec { job with skills := some (job.skills.getD [] ++ extra) } profile := by
    unfold matchedCountSpec
    apply List.countP_mono_left
    intro skill _ hm
    simp only [decide_eq_true_eq] at hm ⊢
    rcases hm with ⟨js, hjs, h⟩ | h
    · exact Or.inl ⟨js, by simp only [Option.getD_some, List.mem_append]; exact Or.inl hjs, h⟩
    · exact Or.inr h
  have hskill : calcSkillMatch job profile
      ≤ calcSkillMatch { job with skills := some (job.skills.getD [] ++ extra) } profile := by
    rw [calcSkillMatch_eq_double, calcSkillMatch_eq_double]
    unfold calcSkillMatchDouble
    split_ifs
    · exact le_refl _
    · exact skill_round_mono _ _ _ hcount
  have h2 : calcExperienceMatch { job with skills := some (job.skills.getD [] ++ extra) } profile
      = calcExperienceMatch job profile := rfl
  have h3 : calcRoleAlignment { job with skills := some (job.skills.getD [] ++ extra) } profile
      = calcRoleAlignment job profile := rfl
  have h4 : calcLocationFit { job with skills := some (job.skills.getD [] ++ extra) } profile
      = calcLocationFit job profile := rfl
  have h5 : calcCompanyPref { job with skills := some (job.skills.getD [] ++ extra) } profile
      = calcCompanyPref job profile := rfl
  refine ⟨hskill, h2, h3, h4, h5, ?_⟩
  rw [(scoreJob_total_eq _ _).1, (scoreJob_total_eq _ _).1, h2, h3, h4, h5]
  omega

/-! ## Job search: identifiers (C22) -/

theorem remotive_id_ne (r1 : RawRemotive) (tail : JsString) :
    (normalizeRemotive r1).id ≠ "arbeitnow-".toList ++ tail := by
  intro h
  have h1 : (normalizeRemotive r1).id = 'r' :: ("emotive-".toList ++ templateValue r1.id) := rfl
  have h2 : "arbeitnow-".toList ++ tail = 'a' :: ("rbeitnow-".toList ++ tail) := rfl
  rw [h1, h2] at h
  have := (List.cons.inj h).1
  exact absurd this (by decide)

theorem normalizeArbeitnow_id (r2 : RawArbeitnow) (j2 : NormalizedJob)
    (h : normalizeArbeitnow r2 = .ok j2) : j2.id = "arbeitnow-".toList ++ arbeitnowSlug r2 := by
  unfold normalizeArbeitnow at h
  cases hp : arbeitnowPostedAt r2.created_at with
  | error e => rw [hp] at h; cases h
  | ok postedAt =>
    rw [hp] at h
    simp only [Except.ok.injEq] at h
    rw [← h]

/-- C22: ids never collide across sources: the id of a normalized Remotive
posting is "remotive-" followed by the raw identifier, the id of a normalized
Arbeitnow posting is "arbeitnow-" followed by the slug (or the dashed title),
and the two differ for every pair of raw postings. -/
theorem normalized_ids_differ (r1 : RawRemotive) (r2 : RawArbeitnow) :
    (normalizeRemotive r1).id = "remotive-".toList ++ templateValue r1.id
    ∧ (normalizeRemotive r1).id ≠ "arbeitnow-".toList ++ arbeitnowSlug r2
    ∧ (∀ j2 : NormalizedJob, normalizeArbeitnow r2 = .ok j2 →
        j2.id = "arbeitnow-".toList ++ arbeitnowSlug r2 ∧ (normalizeRemotive r1).id ≠ j2.id) := by
  refine ⟨rfl, remotive_id_ne r1 _, ?_⟩
  intro j2 h
  have hid := normalizeArbeitnow_id r2 j2 h
  exact ⟨hid, by rw [hid]; exact remotive_id_ne r1 _⟩

/-! ## Job search: skills of a posting (C24) -/

theorem foldl_setAdd_eq (xs seen : List JsString) :
    xs.foldl setAdd seen = xs.foldl (fun seen x => if x ∈ seen then seen else seen ++ [x]) seen :=
  rfl

theorem uniqueInOrder_append (xs ys : List JsString) :
    uniqueInOrder (xs ++ ys) = ys.foldl setAdd (uniqueInOrder xs) := by
  unfold uniqueInOrder
  rw [List.foldl_append]
  rfl

theorem foldl_table (lower : JsString) (table : List (JsString × JsString))
    (seen : List JsString) :
    table.foldl (fun acc kv => if includes lower kv.1 then setAdd acc kv.2 else acc) seen
      = ((table.filter (fun kv => decide (kv.1 <:+: lower))).map (fun kv => kv.2)).foldl
          setAdd seen := by
  induction table generalizing seen with
  | nil => rfl
  | cons kv rest ih =>
    simp only [List.foldl_cons, List.filter_cons]
    by_cases h : includes lower kv.1 = true
    · have h2 : kv.1 <:+: lower := (includes_iff _ _).mp h
      simp only [h, if_true, h2, decide_True, List.map_cons, List.foldl_cons, ih]
    · have h2 : ¬ kv.1 <:+: lower := fun hc => h ((includes_iff _ _).mpr hc)
      simp only [h, if_false, h2, decide_False, ih]
      rfl

theorem extractJobSkills_fold (desc : JsString) (tags : List JsString) :
    extractJobSkills desc tags = extractJobSkillsSpec desc tags := by
  unfold extractJobSkills extractJobSkillsSpec cleanTags
  simp only [foldl_table, uniqueInOrder_append]

/-- C24: `extractJobSkills` returns the first eight entries of the
duplicate-free sequence formed by the clean tags followed by the labels whose
keyword occurs in the lower-cased text `desc + ' ' + tags.join(' ')`, in table
order; the result has at most eight entries and no duplicates.  Lower-casing
is that of `toLowerCase`: "REST APİ" (dotted capital I) gives "REST API", and
"KAFKA" written with the Kelvin sign gives "Kafka". -/
theorem extractJobSkills_eq_spec (desc : JsString) (tags : List JsString) :
    extractJobSkills desc tags
        = (uniqueInOrder (cleanTags tags
            ++ (skillTable.filter (fun kv => decide (kv.1 <:+: skillScanText desc tags))).map
              (fun kv => kv.2))).take 8
    ∧ cleanTags tags = (tags.map trim).filter (fun t => !t.isEmpty)
    ∧ skillScanText desc tags = toLowerCase (desc ++ " ".toList ++ joinWith " ".toList tags)
    ∧ (extractJobSkills desc tags).length ≤ 8
    ∧ (extractJobSkills desc tags).Nodup
    ∧ extractJobSkills "REST APİ".toList [] = ["REST API".toList]
    ∧ extractJobSkills (Char.ofNat 8490 :: "AFKA streams".toList) [] = ["Kafka".toList] := by
  have h := extractJobSkills_fold desc tags
  refine ⟨h, rfl, rfl, ?_, ?_, by decide, by decide⟩
  · rw [h]; exact List.length_take_le 8 _
  · rw [h]
    exact (uniqueInOrder_nodup_aux _ [] List.nodup_nil).sublist (List.take_sublist 8 _)

/-! ## Job search: defaults of the normalisers (C25) -/

theorem orElse_none (fallback : JsString) : orElse none fallback = fallback := rfl

theorem stripHtml_empty : stripHtml [] = [] := by decide

theorem extractJobSkills_empty : extractJobSkills [] [] = [] := by decide

/-- C25, as stated, fails: a posting without a title, a company and a location
is normalised to the placeholders "Untitled", "Unknown" and "Worldwide" or "Not
specified", none of which is the empty string. -/
theorem normalize_placeholder_counterexample :
    emptyRemotive.title = none
    ∧ (normalizeRemotive emptyRemotive).title = "Untitled".toList
    ∧ (normalizeRemotive emptyRemotive).title ≠ []
    ∧ (normalizeRemotive emptyRemotive).company = "Unknown".toList
    ∧ (normalizeRemotive emptyRemotive).location = "Worldwide".toList
    ∧ (normalizeArbeitnow emptyArbeitnow).toOption.map (fun j => j.location)
        = some "Not specified".toList := by
  decide

/-- C25, amended: normalisation fills in what is missing.  `normalizeRemotive`
returns a job for every raw posting, and `normalizeArbeitnow` for every raw
posting whose `created_at` is absent, zero or a valid time (it raises a
`RangeError` otherwise).  An absent title, company or location becomes
"Untitled", "Unknown", "Worldwide" (Remotive) or "Not specified" (Arbeitnow);
an absent description, applyLink, postedAt or category becomes the empty
string; an absent logo or salary becomes `null`; so no field is undefined. -/
theorem normalize_defaults (r : RawRemotive) (a : RawArbeitnow) :
    (r.title = none → (normalizeRemotive r).title = "Untitled".toList)
    ∧ (r.company_name = none → (normalizeRemotive r).company = "Unknown".toList)
    ∧ (r.candidate_required_location = none →
        (normalizeRemotive r).location = "Worldwide".toList)
    ∧ (r.description = none → (normalizeRemotive r).description = [])
    ∧ (r.url = none → (normalizeRemotive r).applyLink = [])
    ∧ (r.publication_date = none → (normalizeRemotive r).postedAt = [])
    ∧ (r.category = none → (normalizeRemotive r).category = [])
    ∧ (r.company_logo = none → (normalizeRemotive r).companyLogo = none)
    ∧ (r.salary = none → (normalizeRemotive r).salary = none)
    ∧ ((a.created_at = none ∨ a.created_at = some 0
          ∨ ∃ t : ℤ, a.created_at = some t ∧ -8640000000000 ≤ t ∧ t ≤ 8640000000000) →
        ∃ j : NormalizedJob, normalizeArbeitnow a = .ok j
          ∧ (a.title = none → j.title = "Untitled".toList)
          ∧ (a.company_name = none → j.company = "Unknown".toList)
          ∧ (a.location = none → j.location = "Not specified".toList)
          ∧ (a.description = none → j.description = [])
          ∧ (a.url = none → j.applyLink = [])
          ∧ (a.created_at = none → j.postedAt = [])
          ∧ j.category = [] ∧ j.companyLogo = none ∧ j.salary = none)
    ∧ ((∃ t : ℤ, a.created_at = some t ∧ (t < -8640000000000 ∨ 8640000000000 < t)) →
        normalizeArbeitnow a = .error .invalidTime) := by
  refine ⟨?_, ?_, ?_, ?_, ?_, ?_, ?_, ?_, ?_, ?_, ?_⟩
  · intro h; simp only [normalizeRemotive, h, orElse_none]
  · intro h; simp only [normalizeRemotive, h, orElse_none]
  · intro h; simp only [normalizeRemotive, h, orElse_none]
  · intro h; simp only [normalizeRemotive, h, orElse_none, stripHtml_empty]
  · intro h; simp only [normalizeRemotive, h, orElse_none]
  · intro h; simp only [normalizeRemotive, h, orElse_none]
  · intro h; simp only [normalizeRemotive, h, orElse_none]
  · intro h; simp only [normalizeRemotive, h, orNull]
  · intro h; simp only [normalizeRemotive, h, orNull]
  · intro h
    have hp : ∃ p, arbeitnowPostedAt a.created_at = .ok p
        ∧ (a.created_at = none → p = []) := by
      rcases h with h | h | ⟨t, h, hlo, hhi⟩
      · exact ⟨[], by rw [h]; rfl, fun _ => rfl⟩
      · exact ⟨[], by rw [h]; rfl, fun _ => rfl⟩
      · by_cases h0 : t = 0
        · exact ⟨[], by rw [h, h0]; rfl, fun _ => rfl⟩
        · refine ⟨toISOString (t * 1000), ?_, fun hn => by rw [h] at hn; cases hn⟩
          have hr : -8640000000000000 ≤ t * 1000 ∧ t * 1000 ≤ 8640000000000000 := by
            constructor <;> omega
          simp only [h, arbeitnowPostedAt, h0, if_false, hr, and_self, if_true]
    obtain ⟨p, hp1, hp2⟩ := hp
    simp only [normalizeArbeitnow, hp1]
    refine ⟨_, rfl, ?_, ?_, ?_, ?_, ?_, hp2, rfl, rfl, rfl⟩
    · intro h; simp only [h, orElse_none]
    · intro h; simp only [h, orElse_none]
    · intro h; simp only [h, orElse_none]
    · intro h; simp only [h, orElse_none, stripHtml_empty]
    · intro h; simp only [h, orElse_none]
  · rintro ⟨t, h, ht⟩
    have h0 : t ≠ 0 := by omega
    have hr : ¬ (-8640000000000000 ≤ t * 1000 ∧ t * 1000 ≤ 8640000000000000) := by omega
    simp only [normalizeArbeitnow, arbeitnowPostedAt, h, h0, if_false, hr]

/-- Witness for C25 amended: the postings with no property at all, and a
posting dated beyond the range of `Date`. -/
theorem normalize_defaults_witness :
    (normalizeRemotive emptyRemotive).title = "Untitled".toList
    ∧ (normalizeRemotive emptyRemotive).description = []
    ∧ (∃ j : NormalizedJob, normalizeArbeitnow emptyArbeitnow = .ok j)
    ∧ normalizeArbeitnow farFutureArbeitnow = .error .invalidTime :=
  ⟨(normalize_defaults emptyRemotive emptyArbeitnow).1 rfl,
    (normalize_defaults emptyRemotive emptyArbeitnow).2.2.2.1 rfl,
    (((normalize_defaults emptyRemotive emptyArbeitnow).2.2.2.2.2.2.2.2.2.1 (Or.inl rfl)).imp
      fun _ h => h.1),
    (normalize_defaults emptyRemotive farFutureArbeitnow).2.2.2.2.2.2.2.2.2.2
      ⟨10000000000000, rfl, Or.inr (by decide)⟩⟩

/-- Witness for C22: the two listings of one position. -/
theorem normalized_ids_differ_witness :
    ∃ j2 : NormalizedJob, normalizeArbeitnow acmeArbeitnow = .ok j2
      ∧ (normalizeRemotive acmeRemotive).id ≠ j2.id :=
  ⟨_, rfl, ((normalized_ids_differ acmeRemotive acmeArbeitnow).2.2 _ rfl).2⟩

/-! ## Job search: filter stage (C26) and deduplication (C27) -/

theorem filter_if (c : Bool) (p : NormalizedJob → Bool) (l : List NormalizedJob) :
    (if c = true then l.filter p else l) = l.filter (fun j => !c || p j) := by
  cases c <;> simp

theorem applyFilters_eq_filter (criteria : SearchCriteria) (results : List NormalizedJob) :
    applyFilters criteria results
      = results.filter (fun job => decide (meetsCriteria criteria job)) := by
  unfold applyFilters
  simp only [filter_if]
  simp only [List.filter_filter]
  apply List.filter_congr
  intro job _
  rw [Bool.eq_iff_iff]
  simp only [meetsCriteria, Bool.and_eq_true, Bool.or_eq_true, Bool.not_eq_true',
    decide_eq_true_eq, includes_iff, List.any_eq_true]
  constructor
  · rintro ⟨h4, h3, h2, h1⟩
    refine ⟨?_, ?_, ?_, ?_⟩
    · intro hq
      rcases h1 with h1 | h1
      · rw [hq] at h1; cases h1
      · rcases h1 with ((h1 | h1) | h1) | ⟨s, hs, h1⟩
        · exact Or.inl h1
        · exact Or.inr (Or.inl h1)
        · exact Or.inr (Or.inr (Or.inl h1))
        · exact Or.inr (Or.inr (Or.inr ⟨s, hs, h1⟩))
    · intro hq
      rcases h2 with h2 | h2
      · rw [hq] at h2; cases h2
      · exact h2
    · intro hq
      rcases h3 with h3 | h3
      · rw [hq] at h3; cases h3
      · exact h3
    · intro hq
      rcases h4 with h4 | h4
      · rw [hq] at h4; cases h4
      · exact h4
  · rintro ⟨h1, h2, h3, h4⟩
    refine ⟨?_, ?_, ?_, ?_⟩
    · by_cases hq : isSet criteria.employmentType = true
      · exact Or.inr (h4 hq)
      · exact Or.inl (by simpa using hq)
    · by_cases hq : criteria.remoteOnly = true
      · exact Or.inr (h3 hq)
      · exact Or.inl (by simpa using hq)
    · by_cases hq : isSet criteria.location = true
      · exact Or.inr (h2 hq)
      · exact Or.inl (by simpa using hq)
    · by_cases hq : isSet criteria.query = true
      · right
        rcases h1 hq with h | h | h | ⟨s, hs, h⟩
        · exact Or.inl (Or.inl (Or.inl h))
        · exact Or.inl (Or.inl (Or.inr h))
        · exact Or.inl (Or.inr h)
        · exact Or.inr ⟨s, hs, h⟩
      · exact Or.inl (by simpa using hq)

theorem dedupBySeen_sublist (l : List NormalizedJob) (seen : List JsString) :
    List.Sublist (dedupBySeen l seen) l := by
  induction l generalizing seen with
  | nil => exact List.Sublist.slnil
  | cons job rest ih =>
    unfold dedupBySeen
    split_ifs
    · exact (ih seen).cons _
    · exact (ih _).cons₂ _

theorem dedupBySeen_keys (l : List NormalizedJob) (seen : List JsString) :
    ((dedupBySeen l seen).map dedupKey).Nodup
      ∧ ∀ j ∈ dedupBySeen l seen, dedupKey j ∉ seen := by
  induction l generalizing seen with
  | nil => exact ⟨List.nodup_nil, fun j hj => by cases hj⟩
  | cons job rest ih =>
    unfold dedupBySeen
    split_ifs with h
    · exact ih seen
    · obtain ⟨hn, hd⟩ := ih (seen ++ [dedupKey job])
      constructor
      · rw [List.map_cons, List.nodup_cons]
        refine ⟨?_, hn⟩
        intro hmem
        obtain ⟨j, hj, hk⟩ := List.mem_map.mp hmem
        exact hd j hj (by rw [hk]; simp)
      · intro j hj
        rcases List.mem_cons.mp hj with rfl | hj
        · exact h
        · intro hs
          exact hd j hj (List.mem_append_left _ hs)

theorem dedupBySeen_first (pre post : List NormalizedJob) (job : NormalizedJob)
    (seen : List JsString) (hseen : dedupKey job ∉ seen)
    (hpre : ∀ j ∈ pre, dedupKey j ≠ dedupKey job) :
    job ∈ dedupBySeen (pre ++ job :: post) seen := by
  induction pre generalizing seen with
  | nil =>
    simp only [List.nil_append]
    unfold dedupBySeen
    rw [if_neg hseen]
    exact List.mem_cons_self _ _
  | cons x xs ih =>
    simp only [List.cons_append]
    unfold dedupBySeen
    have hx : dedupKey x ≠ dedupKey job := hpre x (List.mem_cons_self _ _)
    have hxs : ∀ j ∈ xs, dedupKey j ≠ dedupKey job :=
      fun j hj => hpre j (List.mem_cons_of_mem _ hj)
    split_ifs with h
    · exact ih seen hseen hxs
    · apply List.mem_cons_of_mem
      apply ih _ _ hxs
      intro hmem
      rcases List.mem_append.mp hmem with hm | hm
      · exact hseen hm
      · rw [List.mem_singleton] at hm
        exact hx hm.symm

theorem dedupBySeen_kept_first (l : List NormalizedJob) (seen : List JsString)
    (job : NormalizedJob) (h : job ∈ dedupBySeen l seen) :
    ∃ pre post, l = pre ++ job :: post ∧ ∀ j ∈ pre, dedupKey j ≠ dedupKey job := by
  induction l generalizing seen with
  | nil => cases h
  | cons x xs ih =>
    unfold dedupBySeen at h
    split_ifs at h with hx
    · obtain ⟨pre, post, hl, hp⟩ := ih seen h
      refine ⟨x :: pre, post, by rw [hl]; rfl, ?_⟩
      intro j hj
      rcases List.mem_cons.mp hj with rfl | hj
      · intro hk
        exact (dedupBySeen_keys xs seen).2 job h (hk ▸ hx)
      · exact hp j hj
    · rcases List.mem_cons.mp h with rfl | h
      · exact ⟨[], xs, rfl, fun j hj => by cases hj⟩
      · obtain ⟨pre, post, hl, hp⟩ := ih _ h
        refine ⟨x :: pre, post, by rw [hl]; rfl, ?_⟩
        intro j hj
        rcases List.mem_cons.mp hj with rfl | hj
        · intro hk
          exact (dedupBySeen_keys xs _).2 job h (by rw [← hk]; simp)
        · exact hp j hj

theorem dedupBySeen_covers (l : List NormalizedJob) (seen : List JsString)
    (job : NormalizedJob) (h : job ∈ l) :
    dedupKey job ∈ seen ∨ ∃ kept ∈ dedupBySeen l seen, dedupKey kept = dedupKey job := by
  induction l generalizing seen with
  | nil => cases h
  | cons x xs ih =>
    unfold dedupBySeen
    split_ifs with hx
    · rcases List.mem_cons.mp h with rfl | h
      · exact Or.inl hx
      · exact ih seen h
    · rcases List.mem_cons.mp h with rfl | h
      · exact Or.inr ⟨job, List.mem_cons_self _ _, rfl⟩
      · rcases ih (seen ++ [dedupKey x]) h with hs | ⟨kept, hk, he⟩
        · rcases List.mem_append.mp hs with hs | hs
          · exact Or.inl hs
          · rw [List.mem_singleton] at hs
            exact Or.inr ⟨x, List.mem_cons_self _ _, hs.symm⟩
        · exact Or.inr ⟨kept, List.mem_cons_of_mem _ hk, he⟩

theorem filter_split (p : NormalizedJob → Bool) (pre post : List NormalizedJob)
    (job : NormalizedJob) (hjob : p job = true) :
    (pre ++ job :: post).filter p = pre.filter p ++ job :: post.filter p := by
  rw [List.filter_append, List.filter_cons, if_pos hjob]

/-- C26: the filter stage of `searchJobs` is sound and complete.  Every
returned job is a fetched job that meets each criterion that is set; every
fetched job that meets them is returned unless an earlier fetched job that
meets them has the same dedup key; criteria that are not set exclude nothing. -/
theorem filterAndDedup_sound_complete (criteria : SearchCriteria)
    (results : List NormalizedJob) :
    (∀ job ∈ filterAndDedup criteria results, job ∈ results ∧ meetsCriteria criteria job)
    ∧ (∀ (pre post : List NormalizedJob) (job : NormalizedJob),
        results = pre ++ job :: post → meetsCriteria criteria job →
        (∀ j ∈ pre, meetsCriteria criteria j → dedupKey j ≠ dedupKey job) →
        job ∈ filterAndDedup criteria results)
    ∧ ((isSet criteria.query = false ∧ isSet criteria.location = false
          ∧ criteria.remoteOnly = false ∧ isSet criteria.employmentType = false) →
        applyFilters criteria results = results) := by
  refine ⟨?_, ?_, ?_⟩
  · intro job hjob
    unfold filterAndDedup at hjob
    have hmem := (dedupBySeen_sublist _ _).subset hjob
    rw [applyFilters_eq_filter, List.mem_filter, decide_eq_true_eq] at hmem
    exact hmem
  · intro pre post job hres hmeets hpre
    unfold filterAndDedup
    rw [applyFilters_eq_filter, hres, filter_split _ _ _ _ (by simpa using hmeets)]
    apply dedupBySeen_first
    · simp
    · intro j hj
      rw [List.mem_filter, decide_eq_true_eq] at hj
      exact hpre j hj.1 hj.2
  · rintro ⟨h1, h2, h3, h4⟩
    rw [applyFilters_eq_filter]
    apply List.filter_eq_self.mpr
    intro job _
    simp [meetsCriteria, h1, h2, h3, h4]

/-- Witness for C26: a search for "backend" among two fetched jobs, and a
search for the location "österreich", which keeps the job located in
"Österreich". -/
theorem filterAndDedup_sound_complete_witness :
    normalizeRemotive acmeRemotive
      ∈ filterAndDedup { query := some "backend".toList }
          [normalizeRemotive emptyRemotive, normalizeRemotive acmeRemotive]
    ∧ wienJob ∈ filterAndDedup { location := some "österreich".toList }
          [normalizeRemotive emptyRemotive, wienJob]
    ∧ filterAndDedup { location := some "österreich".toList }
          [normalizeRemotive emptyRemotive, wienJob] = [wienJob] :=
  ⟨(filterAndDedup_sound_complete { query := some "backend".toList }
      [normalizeRemotive emptyRemotive, normalizeRemotive acmeRemotive]).2.1
    [normalizeRemotive emptyRemotive] [] (normalizeRemotive acmeRemotive) rfl (by decide)
    (by decide),
    (filterAndDedup_sound_complete { location := some "österreich".toList }
      [normalizeRemotive emptyRemotive, wienJob]).2.1
    [normalizeRemotive emptyRemotive] [] wienJob rfl (by decide) (by decide),
    by decide⟩

/-- C27: after deduplication no two returned jobs have the same key
`lowercase(title)|lowercase(company)`; the returned jobs are filtered jobs in
their fetch order; each is the first filtered job with its key; Remotive
results come before Arbeitnow results, so the two listings of one position,
whose ids differ, collapse to the Remotive one.  The key is lower-cased by
`toLowerCase`: "Café Manager" of "X" and "CAFÉ MANAGER" of "x" have one key
and collapse to the first. -/
theorem searchJobs_dedup (criteria : SearchCriteria) (results : List NormalizedJob)
    (remotive : Option (List RawRemotive)) (arbeitnow : Option (List RawArbeitnow)) :
    ((filterAndDedup criteria results).map dedupKey).Nodup
    ∧ List.Sublist (filterAndDedup criteria results) (applyFilters criteria results)
    ∧ (∀ job ∈ filterAndDedup criteria results,
        ∃ pre post, applyFilters criteria results = pre ++ job :: post
          ∧ ∀ j ∈ pre, dedupKey j ≠ dedupKey job)
    ∧ (∀ job ∈ applyFilters criteria results,
        ∃ kept ∈ filterAndDedup criteria results, dedupKey kept = dedupKey job)
    ∧ searchJobs criteria remotive arbeitnow
        = filterAndDedup criteria
            (fetchRemotive remotive ++ fetchArbeitnow criteria.query arbeitnow)
    ∧ (normalizeRemotive acmeRemotive).id = "remotive-101".toList
    ∧ (normalizeArbeitnow acmeArbeitnow).toOption.map (fun j => (j.id, dedupKey j))
        = some ("arbeitnow-backend-engineer-acme".toList, dedupKey (normalizeRemotive acmeRemotive))
    ∧ searchJobs {} (some [acmeRemotive]) (some [acmeArbeitnow])
        = [normalizeRemotive acmeRemotive]
    ∧ dedupKey cafeManager = "café manager|x".toList
    ∧ dedupKey cafeManagerUpper = "café manager|x".toList
    ∧ filterAndDedup {} [cafeManager, cafeManagerUpper] = [cafeManager] := by
  refine ⟨(dedupBySeen_keys _ _).1, dedupBySeen_sublist _ _,
    fun job h => dedupBySeen_kept_first _ _ job h, ?_, rfl, by decide, by decide, by decide,
    by decide, by decide, by decide⟩
  intro job hjob
  rcases dedupBySeen_covers _ [] job hjob with h | h
  · cases h
  · exact h

/-! ## Matcher lemmas for the patterns of `stripHtml` -/

theorem repLoop_greedy_cont (body : MatchState → List MatchState) (p : Char → Bool)
    (k : MatchState → List MatchState) (hbody : ∀ s, body s = s.step p)
    (hk : ∀ s x xs, s.rest = x :: xs → p x = true → k s = []) :
    ∀ (fuel min : ℕ) (s : MatchState), s.rest.length < fuel →
      (repLoop body true fuel min none s).flatMap k
        = if min ≤ (s.rest.takeWhile p).length then
            k { s with before := (s.rest.takeWhile p).reverse ++ s.before,
                       rest := s.rest.dropWhile p }
          else [] := by
  intro fuel
  induction fuel with
  | zero => intro min s h; omega
  | succ fuel ih =>
    intro min s hlen
    rcases s with ⟨before, rest, caps⟩
    cases rest with
    | nil =>
      by_cases hmin : min = 0
      · simp [repLoop, hbody, MatchState.step, hmin]
      · have : 0 < min := Nat.pos_of_ne_zero hmin
        simp [repLoop, hbody, MatchState.step, hmin, this]
    | cons x xs =>
      by_cases hp : p x = true
      · have hstep : k { before := before, rest := x :: xs, captures := caps } = [] :=
          hk _ x xs rfl hp
        have hrec := ih (min - 1) { before := x :: before, rest := xs, captures := caps }
          (by simp at hlen ⊢; omega)
        simp only [] at hrec
        have hb : body { before := before, rest := x :: xs, captures := caps }
            = [{ before := x :: before, rest := xs, captures := caps }] := by
          rw [hbody]; simp [MatchState.step, hp]
        have hgoal : (List.takeWhile p (x :: xs)) = x :: List.takeWhile p xs := by
          simp [List.takeWhile, hp]
        have hdrop : (List.dropWhile p (x :: xs)) = List.dropWhile p xs := by
          simp [List.dropWhile, hp]
        have hne : ¬ (min = 0 ∧ xs.length = xs.length + 1) := by omega
        simp only [repLoop, hb, List.flatMap_cons, List.flatMap_nil,
          List.append_nil, List.length_cons, Option.map_none', reduceCtorEq, if_false, hne,
          hgoal, hdrop]
        by_cases hmin : 0 < min
        · simp only [hmin, if_true]
          rw [hrec]
          simp only [List.length_cons, List.reverse_cons, List.append_assoc, List.singleton_append]
          have : (min - 1 ≤ (List.takeWhile p xs).length) ↔ (min ≤ (List.takeWhile p xs).length + 1) := by
            omega
          simp only [this]
        · have hm0 : min = 0 := by omega
          subst hm0
          simp only [lt_irrefl, if_false, if_true, List.flatMap_append, List.flatMap_cons,
            List.flatMap_nil, List.append_nil, hstep]
          rw [hrec]
          simp
      · have hp2 : p x = false := by simpa using hp
        have htake : (List.takeWhile p (x :: xs)) = [] := by simp [List.takeWhile, hp2]
        have hdrop : (List.dropWhile p (x :: xs)) = x :: xs := by simp [List.dropWhile, hp2]
        have hb : body { before := before, rest := x :: xs, captures := caps } = [] := by
          rw [hbody]; simp [MatchState.step, hp2]
        simp only [htake, hdrop]
        by_cases hmin : 0 < min
        · have : ¬ min ≤ 0 := by omega
          simp [repLoop, hb, hmin, this]
        · have hm0 : min = 0 := by omega
          subst hm0
          simp [repLoop, hb]

theorem repLoop_greedy_head (body : MatchState → List MatchState) (p : Char → Bool)
    (hbody : ∀ s, body s = s.step p) :
    ∀ (fuel min : ℕ) (s : MatchState), s.rest.length < fuel →
      (repLoop body true fuel min none s).head?
        = if min ≤ (s.rest.takeWhile p).length then
            some { s with before := (s.rest.takeWhile p).reverse ++ s.before,
                          rest := s.rest.dropWhile p }
          else none := by
  intro fuel
  induction fuel with
  | zero => intro min s h; omega
  | succ fuel ih =>
    intro min s hlen
    rcases s with ⟨before, rest, caps⟩
    cases rest with
    | nil =>
      by_cases hmin : min = 0
      · simp [repLoop, hbody, MatchState.step, hmin]
      · have : 0 < min := Nat.pos_of_ne_zero hmin
        simp [repLoop, hbody, MatchState.step, hmin, this]
    | cons x xs =>
      by_cases hp : p x = true
      · have hrec := ih (min - 1) { before := x :: before, rest := xs, captures := caps }
          (by simp at hlen ⊢; omega)
        simp only [] at hrec
        have hb : body { before := before, rest := x :: xs, captures := caps }
            = [{ before := x :: before, rest := xs, captures := caps }] := by
          rw [hbody]; simp [MatchState.step, hp]
        have hgoal : (List.takeWhile p (x :: xs)) = x :: List.takeWhile p xs := by
          simp [List.takeWhile, hp]
        have hdrop : (List.dropWhile p (x :: xs)) = List.dropWhile p xs := by
          simp [List.dropWhile, hp]
        have hne : ¬ (min = 0 ∧ xs.length = xs.length + 1) := by omega
        simp only [repLoop, hb, List.flatMap_cons, List.flatMap_nil,
          List.append_nil, List.length_cons, Option.map_none', reduceCtorEq, if_false, hne,
          hgoal, hdrop]
        by_cases hmin : 0 < min
        · simp only [hmin, if_true]
          rw [hrec]
          simp only [List.length_cons, List.reverse_cons, List.append_assoc, List.singleton_append]
          have : (min - 1 ≤ (List.takeWhile p xs).length) ↔ (min ≤ (List.takeWhile p xs).length + 1) := by
            omega
          simp only [this]
        · have hm0 : min = 0 := by omega
          subst hm0
          simp only [lt_irrefl, if_false, if_true]
          simp only [Nat.zero_sub, Nat.zero_le, if_true] at hrec
          rw [List.head?_append, hrec]
          simp
      · have hp2 : p x = false := by simpa using hp
        have htake : (List.takeWhile p (x :: xs)) = [] := by simp [List.takeWhile, hp2]
        have hdrop : (List.dropWhile p (x :: xs)) = x :: xs := by simp [List.dropWhile, hp2]
        have hb : body { before := before, rest := x :: xs, captures := caps } = [] := by
          rw [hbody]; simp [MatchState.step, hp2]
        simp only [htake, hdrop]
        by_cases hmin : 0 < min
        · have : ¬ min ≤ 0 := by omega
          simp [repLoop, hb, hmin, this]
        · have hm0 : min = 0 := by omega
          subst hm0
          simp [repLoop, hb]

theorem char_eq_of_toNat (x : Char) (n : ℕ) (h : x.toNat = n) : x = Char.ofNat n := by
  rw [← h, Char.ofNat_toNat]

theorem span_then_char (body : MatchState → List MatchState) (p : Char → Bool) (c : Char)
    (hbody : ∀ s, body s = s.step p) (hpc : p c = false)
    (fuel min : ℕ) (s : MatchState) (hfuel : s.rest.length < fuel) :
    ((((repLoop body true fuel min none s).flatMap
        (fun s3 => (Regex.seq (.char c) .empty).run flagsNone s3)).head?).map
          (fun s4 => s4.rest)) = spanAt p min c s.rest := by
  rw [repLoop_greedy_cont body p _ hbody _ fuel min s hfuel]
  · unfold spanAt
    split_ifs with h
    · cases hd : List.dropWhile p s.rest with
      | nil => simp [Regex.run, MatchState.step, hd]
      | cons x post =>
        by_cases hx : x = c
        · subst hx
          simp [Regex.run, MatchState.step, hd, charEq, flagsNone]
        · have : ¬ c = x := fun h => hx h.symm
          simp [Regex.run, MatchState.step, hd, charEq, flagsNone, hx, this]
    · rfl
  · intro s3 x xs hs hp
    have hne : ¬ c = x := by
      intro h
      rw [← h, hpc] at hp
      cases hp
    simp [Regex.run, MatchState.step, hs, charEq, flagsNone, hne]

theorem notGreater_run (s : MatchState) :
    notGreater.run flagsNone s = s.step (fun c => c != '>') := by
  have hfun : (fun x => ([ClassItem.range '>' '>'].any
      (fun item => item.admits flagsNone.ignoreCase x)) != true) = (fun c => c != '>') := by
    funext x
    by_cases hx : x = '>'
    · subst hx; decide
    · have hn : x.toNat ≠ 62 := fun h => hx (char_eq_of_toNat x 62 h)
      have h62 : ('>' : Char).toNat = 62 := by decide
      simp only [List.any_cons, List.any_nil, ClassItem.admits, flagsNone, h62, Bool.false_and,
        Bool.or_false]
      have hd : decide (62 ≤ x.toNat ∧ x.toNat ≤ 62) = false := by
        rw [decide_eq_false_iff_not]; omega
      rw [hd]
      simp [hx]
  simp only [notGreater, Regex.run]
  rw [hfun]

theorem tagPattern_execAt (before rest : List Char) :
    (tagPattern.execAt flagsNone before rest).map (fun m => m.stop.rest) = tagAt rest := by
  unfold Regex.execAt tagAt
  cases rest with
  | nil => simp [tagPattern, Regex.seqs, Regex.run, MatchState.step]
  | cons x t =>
    by_cases hx : x = '<'
    · subst hx
      have hstep : (Regex.char '<').run flagsNone
          { before := before, rest := '<' :: t, captures := [] }
          = [{ before := '<' :: before, rest := t, captures := [] }] := by
        simp [Regex.run, MatchState.step, charEq, flagsNone]
      have h := span_then_char (notGreater.run flagsNone) (fun c => c != '>') '>'
        notGreater_run (by decide) (t.length + 1 + 1) 1
        { before := '<' :: before, rest := t, captures := [] } (Nat.lt_succ_of_le (Nat.le_succ _))
      simp only [if_true, Option.map_map]
      rw [← h]
      simp only [tagPattern, Regex.seqs]
      rw [Regex.run, hstep]
      simp only [List.flatMap_cons, List.flatMap_nil, List.append_nil]
      rw [Regex.run]
      simp only [Regex.run, Option.map_map]
      rfl
    · have : ¬ '<' = x := fun h => hx h.symm
      simp [tagPattern, Regex.seqs, Regex.run, MatchState.step, charEq, flagsNone, hx, this]

/-! ## The global replace of the matcher is the character-by-character one -/

theorem execAt_leading (flags : RegexFlags) (r : Regex) (before rest : List Char)
    (m : RegexMatch) (h : r.execAt flags before rest = some m) :
    m.leading = before.reverse := by
  unfold Regex.execAt at h
  cases hh : (r.run flags { before := before, rest := rest, captures := [] }).head? with
  | none => rw [hh] at h; cases h
  | some s2 =>
    rw [hh] at h
    simp only [Option.map_some', Option.some.injEq] at h
    rw [← h]

theorem execFrom_bounds (flags : RegexFlags) (r : Regex)
    (matchAt : List Char → Option (List Char))
    (hAt : ∀ before rest, (r.execAt flags before rest).map (fun m => m.stop.rest) = matchAt rest)
    (hSuf : ∀ rest post, matchAt rest = some post → post.length ≤ rest.length) :
    ∀ (rest before : List Char) (m : RegexMatch), r.execFrom flags before rest = some m →
      before.length ≤ m.leading.length ∧ m.stop.rest.length ≤ rest.length := by
  intro rest
  induction rest with
  | nil =>
    intro before m h
    unfold Regex.execFrom at h
    constructor
    · rw [execAt_leading flags r before [] m h]; simp
    · apply hSuf [] m.stop.rest
      rw [← hAt before [], h]; rfl
  | cons c cs ih =>
    intro before m h
    unfold Regex.execFrom at h
    cases hh : r.execAt flags before (c :: cs) with
    | some m2 =>
      rw [hh] at h
      simp only [Option.some.injEq] at h
      subst h
      constructor
      · rw [execAt_leading flags r before (c :: cs) m2 hh]; simp
      · apply hSuf (c :: cs) m2.stop.rest
        rw [← hAt before (c :: cs), hh]; rfl
    | none =>
      rw [hh] at h
      have := ih (c :: before) m h
      simp only [List.length_cons] at this ⊢
      omega

theorem replaceAllFrom_skip (flags : RegexFlags) (r : Regex)
    (matchAt : List Char → Option (List Char))
    (hAt : ∀ before rest, (r.execAt flags before rest).map (fun m => m.stop.rest) = matchAt rest)
    (hSuf : ∀ rest post, matchAt rest = some post → post.length ≤ rest.length)
    (replacement : JsString) (fuel : ℕ) (before : List Char) (c : Char) (cs : List Char)
    (h : r.execAt flags before (c :: cs) = none) :
    r.replaceAllFrom flags replacement fuel before (c :: cs)
      = c :: r.replaceAllFrom flags replacement fuel (c :: before) cs := by
  cases fuel with
  | zero => rfl
  | succ fuel =>
    have hex : r.execFrom flags before (c :: cs) = r.execFrom flags (c :: before) cs := by
      rw [Regex.execFrom, h]
    unfold Regex.replaceAllFrom
    rw [hex]
    cases hm : r.execFrom flags (c :: before) cs with
    | none => rfl
    | some m =>
      obtain ⟨h1, h2⟩ := execFrom_bounds flags r matchAt hAt hSuf cs (c :: before) m hm
      simp only [List.length_cons] at h1 ⊢
      have hs : m.leading.length - before.length = (m.leading.length - (before.length + 1)) + 1 := by
        omega
      have ht : cs.length + 1 - m.stop.rest.length = (cs.length - m.stop.rest.length) + 1 := by
        omega
      rw [hs, ht]
      simp only [List.take_succ_cons, List.drop_succ_cons, add_left_inj, List.cons_append,
        List.reverse_cons, List.append_assoc, List.singleton_append, List.nil_append]
      split_ifs
      · cases List.drop (cs.length - m.stop.rest.length) cs <;> rfl
      · rfl

theorem drop_of_suffix (rest post : List Char) (h : post <:+ rest) :
    rest.drop (rest.length - post.length) = post := by
  obtain ⟨mid, rfl⟩ := h
  simp

theorem replaceAllFrom_eq_spec (flags : RegexFlags) (r : Regex)
    (matchAt : List Char → Option (List Char))
    (hAt : ∀ before rest, (r.execAt flags before rest).map (fun m => m.stop.rest) = matchAt rest)
    (hSuf : ∀ rest post, matchAt rest = some post → post <:+ rest)
    (replacement : JsString) :
    ∀ (n : ℕ) (rest : List Char), rest.length ≤ n → ∀ (fuel1 fuel2 : ℕ) (before : List Char),
      rest.length < fuel1 → rest.length < fuel2 →
      r.replaceAllFrom flags replacement fuel1 before rest
        = replaceAllSpec matchAt replacement fuel2 rest := by
  have hLen : ∀ rest post, matchAt rest = some post → post.length ≤ rest.length :=
    fun rest post h => (hSuf rest post h).length_le
  intro n
  induction n with
  | zero =>
    intro rest hn fuel1 fuel2 before h1 h2
    have hnil : rest = [] := List.length_eq_zero.mp (Nat.le_zero.mp hn)
    subst hnil
    obtain ⟨f1, rfl⟩ : ∃ f, fuel1 = f + 1 := ⟨fuel1 - 1, by simp at h1; omega⟩
    obtain ⟨f2, rfl⟩ : ∃ f, fuel2 = f + 1 := ⟨fuel2 - 1, by simp at h2; omega⟩
    have hA := hAt before []
    unfold Regex.replaceAllFrom replaceAllSpec Regex.execFrom
    cases hm : r.execAt flags before [] with
    | none =>
      rw [hm] at hA
      simp only [Option.map_none'] at hA
      rw [← hA]
    | some m =>
      rw [hm] at hA
      simp only [Option.map_some'] at hA
      rw [← hA]
      have hl := execAt_leading flags r before [] m hm
      have hp : m.stop.rest = [] := by
        have := hLen [] m.stop.rest hA.symm
        exact List.length_eq_zero.mp (Nat.le_zero.mp this)
      simp [hl, hp]
  | succ n ih =>
    intro rest hn fuel1 fuel2 before h1 h2
    cases rest with
    | nil => exact ih [] (Nat.zero_le _) fuel1 fuel2 before h1 h2
    | cons c cs =>
      simp only [List.length_cons] at hn h1 h2
      obtain ⟨f1, rfl⟩ : ∃ f, fuel1 = f + 1 := ⟨fuel1 - 1, by omega⟩
      obtain ⟨f2, rfl⟩ : ∃ f, fuel2 = f + 1 := ⟨fuel2 - 1, by omega⟩
      have hA := hAt before (c :: cs)
      cases hm : r.execAt flags before (c :: cs) with
      | none =>
        rw [hm] at hA
        simp only [Option.map_none'] at hA
        rw [replaceAllFrom_skip flags r matchAt hAt hLen replacement (f1 + 1) before c cs hm]
        rw [replaceAllSpec, ← hA]
        simp only []
        rw [ih cs (by omega) (f1 + 1) f2 (c :: before) (by omega) (by omega)]
      | some m =>
        rw [hm] at hA
        simp only [Option.map_some'] at hA
        have hl := execAt_leading flags r before (c :: cs) m hm
        have hsuf := hSuf (c :: cs) m.stop.rest hA.symm
        have hle := hsuf.length_le
        simp only [List.length_cons] at hle
        have hex : r.execFrom flags before (c :: cs) = some m := by
          rw [Regex.execFrom, hm]
        rw [Regex.replaceAllFrom, hex, replaceAllSpec, ← hA]
        simp only [hl, List.length_reverse, Nat.sub_self, List.take_zero, List.nil_append,
          List.length_cons]
        by_cases hlt : m.stop.rest.length < cs.length + 1
        · have hne : ¬ cs.length + 1 - m.stop.rest.length = 0 := by omega
          rw [if_neg hne, if_pos hlt]
          have hd := drop_of_suffix (c :: cs) m.stop.rest hsuf
          simp only [List.length_cons] at hd
          rw [hd]
          rw [ih m.stop.rest (by omega) f1 f2 _ (by omega) (by omega)]
        · have he : cs.length + 1 - m.stop.rest.length = 0 := by omega
          rw [if_pos he, if_neg hlt, he]
          simp only [List.drop_zero, List.take_zero, List.reverse_nil, List.nil_append]
          rw [ih cs (by omega) f1 f2 _ (by omega) (by omega)]

theorem replaceAll_eq_spec (flags : RegexFlags) (r : Regex)
    (matchAt : List Char → Option (List Char))
    (hAt : ∀ before rest, (r.execAt flags before rest).map (fun m => m.stop.rest) = matchAt rest)
    (hSuf : ∀ rest post, matchAt rest = some post → post <:+ rest)
    (text replacement : JsString) :
    r.replaceAll flags text replacement
      = replaceAllSpec matchAt replacement (text.length + 1) text :=
  replaceAllFrom_eq_spec flags r matchAt hAt hSuf replacement text.length text (le_refl _)
    _ _ [] (Nat.lt_succ_self _) (Nat.lt_succ_self _)

/-! ## What the patterns of `stripHtml` match -/

theorem newlinesPattern_execAt (before rest : List Char) :
    (newlinesPattern.execAt flagsNone before rest).map (fun m => m.stop.rest)
      = newlinesAt rest := by
  have hbody : ∀ s : MatchState, (Regex.char (Char.ofNat 10)).run flagsNone s
      = s.step (fun c => c == Char.ofNat 10) := by
    intro s
    have hfun : (fun x => charEq flagsNone.ignoreCase (Char.ofNat 10) x)
        = (fun c => c == Char.ofNat 10) := by
      funext x
      simp only [charEq, flagsNone, Bool.false_eq_true, if_false]
      by_cases hx : x = Char.ofNat 10
      · subst hx; rfl
      · have : ¬ Char.ofNat 10 = x := fun h => hx h.symm
        simp [hx, this]
    simp only [Regex.run]
    rw [hfun]
  have h := repLoop_greedy_head _ _ hbody (rest.length + 3 + 1) 3
    { before := before, rest := rest, captures := [] } (by simp only []; omega)
  have e : newlinesPattern.run flagsNone { before := before, rest := rest, captures := [] }
      = repLoop ((Regex.char (Char.ofNat 10)).run flagsNone) true (rest.length + 3 + 1) 3 none
          { before := before, rest := rest, captures := [] } := rfl
  unfold Regex.execAt newlinesAt
  rw [e, h]
  split_ifs <;> rfl

theorem lit_run (w : List Char) : ∀ s : MatchState,
    (Regex.lit w).run flagsNone s
      = if w.isPrefixOf s.rest = true then
          [{ s with before := w.reverse ++ s.before, rest := s.rest.drop w.length }]
        else [] := by
  induction w with
  | nil => intro s; simp [Regex.lit, Regex.run]
  | cons c cs ih =>
    intro s
    rcases s with ⟨before, rest, caps⟩
    cases rest with
    | nil => simp [Regex.lit, Regex.run, MatchState.step]
    | cons x xs =>
      by_cases hx : c = x
      · subst hx
        have hflag : flagsNone.ignoreCase = false := rfl
        simp only [Regex.lit, Regex.run, MatchState.step, charEq, hflag, Bool.false_eq_true,
          if_false, decide_True, if_true, List.flatMap_cons, List.flatMap_nil, List.append_nil]
        rw [ih]
        simp [List.isPrefixOf]
      · simp [Regex.lit, Regex.run, MatchState.step, charEq, flagsNone, hx, List.isPrefixOf]

theorem lit_execAt (w before rest : List Char) :
    ((Regex.lit w).execAt flagsNone before rest).map (fun m => m.stop.rest) = litAt w rest := by
  unfold Regex.execAt litAt
  rw [lit_run]
  split_ifs <;> rfl

theorem numericEntityPattern_execAt (before rest : List Char) :
    (numericEntityPattern.execAt flagsNone before rest).map (fun m => m.stop.rest)
      = numericEntityAt rest := by
  have hbody : ∀ s : MatchState, (Regex.charClass false [.digit]).run flagsNone s
      = s.step isRegexDigit := by
    intro s
    have hfun : (fun x => ([ClassItem.digit].any
        (fun item => item.admits flagsNone.ignoreCase x)) != false) = isRegexDigit := by
      funext x
      simp [ClassItem.admits]
    simp only [Regex.run]
    rw [hfun]
  have hlit : "&#".toList = ['&', '#'] := rfl
  unfold Regex.execAt
  simp only [numericEntityPattern, Regex.seqs, hlit]
  rw [Regex.run, lit_run]
  match rest with
  | [] => simp [numericEntityAt, List.isPrefixOf]
  | [x] =>
    by_cases hx : x = '&'
    · simp [numericEntityAt, List.isPrefixOf, hx]
    · have hx2 : ¬ '&' = x := fun h => hx h.symm
      simp [numericEntityAt, List.isPrefixOf, hx, hx2]
  | x :: y :: t =>
    by_cases hx : x = '&'
    · by_cases hy : y = '#'
      · subst hx hy
        have h := span_then_char _ isRegexDigit ';' hbody (by decide) (t.length + 1 + 1) 1
          { before := ['#', '&'] ++ before, rest := t, captures := [] }
          (Nat.lt_succ_of_le (Nat.le_succ _))
        simp only [numericEntityAt, and_self, if_true]
        rw [← h]
        simp only [List.isPrefixOf, beq_self_eq_true, Bool.and_self, if_true, List.flatMap_cons,
          List.flatMap_nil, List.append_nil, Option.map_map]
        rw [Regex.run]
        simp only [Regex.run, Option.map_map]
        rfl
      · have hy2 : ¬ '#' = y := fun h => hy h.symm
        simp [numericEntityAt, List.isPrefixOf, hx, hy, hy2]
    · have hx2 : ¬ '&' = x := fun h => hx h.symm
      simp [numericEntityAt, List.isPrefixOf, hx, hx2]

theorem spanAt_suffix (p : Char → Bool) (min : ℕ) (c : Char) (rest post : List Char)
    (h : spanAt p min c rest = some post) :
    rest = rest.takeWhile p ++ c :: post ∧ min ≤ (rest.takeWhile p).length := by
  unfold spanAt at h
  split_ifs at h with hmin
  cases hd : List.dropWhile p rest with
  | nil => rw [hd] at h; cases h
  | cons x tl =>
    rw [hd] at h
    simp only [] at h
    split_ifs at h with hx
    simp only [Option.some.injEq] at h
    subst hx h
    refine ⟨?_, hmin⟩
    rw [← hd, List.takeWhile_append_dropWhile]

theorem tagAt_spec (rest post : List Char) (h : tagAt rest = some post) :
    ∃ m, rest = '<' :: m ++ '>' :: post ∧ m ≠ [] ∧ ∀ c ∈ m, c ≠ '>' := by
  unfold tagAt at h
  cases rest with
  | nil => cases h
  | cons x t =>
    simp only [] at h
    split_ifs at h with hx
    subst hx
    obtain ⟨h1, h2⟩ := spanAt_suffix _ _ _ _ _ h
    refine ⟨t.takeWhile (fun c => c != '>'), ?_, ?_, ?_⟩
    · rw [List.cons_append, ← h1]
    · intro hnil
      rw [hnil] at h2
      simp at h2
    · intro c hc
      have := List.mem_takeWhile_imp hc
      simpa using this

theorem tagAt_suffix (rest post : List Char) (h : tagAt rest = some post) : post <:+ rest := by
  obtain ⟨m, hm, _⟩ := tagAt_spec rest post h
  exact ⟨'<' :: m ++ ['>'], by rw [hm]; simp⟩

theorem newlinesAt_suffix (rest post : List Char) (h : newlinesAt rest = some post) :
    post <:+ rest := by
  unfold newlinesAt at h
  split_ifs at h
  simp only [Option.some.injEq] at h
  rw [← h]
  exact List.dropWhile_suffix _

theorem litAt_suffix (w rest post : List Char) (h : litAt w rest = some post) :
    post <:+ rest := by
  unfold litAt at h
  split_ifs at h
  simp only [Option.some.injEq] at h
  rw [← h]
  exact List.drop_suffix _ _

theorem numericEntityAt_spec (rest post : List Char) (h : numericEntityAt rest = some post) :
    ∃ m, rest = '&' :: '#' :: m ++ ';' :: post := by
  unfold numericEntityAt at h
  match rest, h with
  | x :: y :: t, h =>
    simp only [] at h
    split_ifs at h with hxy
    obtain ⟨hx, hy⟩ := hxy
    subst hx hy
    obtain ⟨h1, _⟩ := spanAt_suffix _ _ _ _ _ h
    exact ⟨t.takeWhile isRegexDigit, by rw [List.cons_append, List.cons_append, ← h1]⟩

theorem numericEntityAt_suffix (rest post : List Char) (h : numericEntityAt rest = some post) :
    post <:+ rest := by
  obtain ⟨m, hm⟩ := numericEntityAt_spec rest post h
  exact ⟨'&' :: '#' :: m ++ [';'], by rw [hm]; simp⟩

/-! ## Tags in a text -/

theorem containsTag_nil : ¬ containsTag [] := by
  rintro ⟨a, m, b, hs, _, _⟩
  cases a <;> cases hs

theorem split_at_first (x : Char) (s : List Char) (h : x ∈ s) :
    ∃ m b, s = m ++ x :: b ∧ ∀ c ∈ m, c ≠ x := by
  induction s with
  | nil => cases h
  | cons y ys ih =>
    by_cases hy : y = x
    · subst hy
      exact ⟨[], ys, rfl, fun c hc => by cases hc⟩
    · have hmem : x ∈ ys := by
        rcases List.mem_cons.mp h with h | h
        · exact absurd h.symm hy
        · exact h
      obtain ⟨m, b, hs, hm⟩ := ih hmem
      refine ⟨y :: m, b, by rw [hs]; rfl, ?_⟩
      intro c hc
      rcases List.mem_cons.mp hc with rfl | hc
      · exact hy
      · exact hm c hc

theorem containsTag_cons (c : Char) (s : List Char) :
    containsTag (c :: s)
      ↔ (c = '<' ∧ s.head? ≠ some '>' ∧ '>' ∈ s) ∨ containsTag s := by
  constructor
  · rintro ⟨a, m, b, hs, hm, hc⟩
    cases a with
    | nil =>
      left
      simp only [List.nil_append, List.cons_append, List.cons.injEq] at hs
      obtain ⟨h1, h2⟩ := hs
      refine ⟨h1, ?_, ?_⟩
      · cases m with
        | nil => exact absurd rfl hm
        | cons x m2 =>
          rw [h2]
          simp only [List.cons_append, List.head?_cons, ne_eq, Option.some.injEq]
          exact hc x (List.mem_cons_self _ _)
      · rw [h2]; simp
    | cons a0 a2 =>
      right
      simp only [List.cons_append, List.cons.injEq] at hs
      exact ⟨a2, m, b, hs.2, hm, hc⟩
  · rintro (⟨h1, h2, h3⟩ | ⟨a, m, b, hs, hm, hc⟩)
    · obtain ⟨m, b, hs, hm⟩ := split_at_first '>' s h3
      refine ⟨[], m, b, by rw [h1, hs]; rfl, ?_, hm⟩
      intro hnil
      rw [hs, hnil] at h2
      exact h2 rfl
    · exact ⟨c :: a, m, b, by rw [hs]; rfl, hm, hc⟩

theorem containsTag_of_suffix (post rest : List Char) (h : post <:+ rest)
    (ht : containsTag post) : containsTag rest := by
  obtain ⟨pre, rfl⟩ := h
  obtain ⟨a, m, b, hs, hm, hc⟩ := ht
  exact ⟨pre ++ a, m, b, by rw [hs]; simp, hm, hc⟩

theorem containsTag_of_prefix (pre rest : List Char) (h : pre <+: rest)
    (ht : containsTag pre) : containsTag rest := by
  obtain ⟨post, rfl⟩ := h
  obtain ⟨a, m, b, hs, hm, hc⟩ := ht
  exact ⟨a, m, b ++ post, by rw [hs]; simp, hm, hc⟩

theorem spanAt_of_split (p : Char → Bool) (min : ℕ) (x : Char) (m b : List Char)
    (hm : ∀ c ∈ m, p c = true) (hx : p x = false) (hmin : min ≤ m.length) :
    spanAt p min x (m ++ x :: b) = some b := by
  have ht : (m ++ x :: b).takeWhile p = m := by
    clear hmin
    induction m with
    | nil => simp [List.takeWhile, hx]
    | cons y ys ih =>
      have hy := hm y (List.mem_cons_self _ _)
      simp only [List.cons_append, List.takeWhile, hy, List.append_eq]
      rw [ih (fun c hc => hm c (List.mem_cons_of_mem _ hc))]
  have hd : (m ++ x :: b).dropWhile p = x :: b := by
    clear hmin ht
    induction m with
    | nil => simp [List.dropWhile, hx]
    | cons y ys ih =>
      have hy := hm y (List.mem_cons_self _ _)
      simp only [List.cons_append, List.dropWhile, hy, List.append_eq]
      rw [ih (fun c hc => hm c (List.mem_cons_of_mem _ hc))]
  unfold spanAt
  rw [ht, hd, if_pos hmin]
  simp

theorem tagAt_none (cs : List Char) (h : tagAt ('<' :: cs) = none) :
    cs.head? = some '>' ∨ '>' ∉ cs := by
  by_contra hcon
  push_neg at hcon
  obtain ⟨h1, h2⟩ := hcon
  obtain ⟨m, b, hs, hm⟩ := split_at_first '>' cs h2
  have hne : m ≠ [] := by
    intro hnil
    rw [hs, hnil] at h1
    exact h1 rfl
  have : tagAt ('<' :: cs) = some b := by
    unfold tagAt
    simp only [if_true]
    rw [hs]
    apply spanAt_of_split
    · intro c hc
      simpa using hm c hc
    · decide
    · cases m with
      | nil => exact absurd rfl hne
      | cons y ys => simp
  rw [this] at h
  cases h

theorem tagAt_ne (x : Char) (cs : List Char) (hx : x ≠ '<') : tagAt (x :: cs) = none := by
  unfold tagAt
  simp [hx]

/-! ## Properties of the character-by-character replace -/

theorem replaceAllSpec_mem (matchAt : List Char → Option (List Char))
    (hSuf : ∀ rest post, matchAt rest = some post → post <:+ rest)
    (replacement : JsString) (x : Char) :
    ∀ (fuel : ℕ) (rest : List Char), x ∈ replaceAllSpec matchAt replacement fuel rest →
      x ∈ rest ∨ x ∈ replacement := by
  intro fuel
  induction fuel with
  | zero => intro rest h; exact Or.inl h
  | succ fuel ih =>
    intro rest h
    cases rest with
    | nil =>
      unfold replaceAllSpec at h
      cases hm : matchAt [] with
      | none => rw [hm] at h; cases h
      | some post => rw [hm] at h; exact Or.inr h
    | cons c cs =>
      unfold replaceAllSpec at h
      cases hm : matchAt (c :: cs) with
      | none =>
        rw [hm] at h
        rcases List.mem_cons.mp h with rfl | h
        · exact Or.inl (List.mem_cons_self _ _)
        · rcases ih cs h with h | h
          · exact Or.inl (List.mem_cons_of_mem _ h)
          · exact Or.inr h
      | some post =>
        rw [hm] at h
        simp only [] at h
        split_ifs at h
        · rcases List.mem_append.mp h with h | h
          · exact Or.inr h
          · rcases ih post h with h | h
            · exact Or.inl ((hSuf _ _ hm).subset h)
            · exact Or.inr h
        · rcases List.mem_append.mp h with h | h
          · exact Or.inr h
          · rcases List.mem_cons.mp h with rfl | h
            · exact Or.inl (List.mem_cons_self _ _)
            · rcases ih cs h with h | h
              · exact Or.inl (List.mem_cons_of_mem _ h)
              · exact Or.inr h

theorem replaceAllSpec_cons_none (matchAt : List Char → Option (List Char))
    (replacement : JsString) (fuel : ℕ) (c : Char) (cs : List Char)
    (h : matchAt (c :: cs) = none) :
    replaceAllSpec matchAt replacement (fuel + 1) (c :: cs)
      = c :: replaceAllSpec matchAt replacement fuel cs := by
  rw [replaceAllSpec, h]

theorem replaceAllSpec_none (matchAt : List Char → Option (List Char))
    (replacement : JsString) :
    ∀ (s : List Char) (fuel : ℕ), (∀ t, t <:+ s → matchAt t = none) →
      replaceAllSpec matchAt replacement fuel s = s := by
  intro s
  induction s with
  | nil =>
    intro fuel h
    cases fuel with
    | zero => rfl
    | succ fuel => rw [replaceAllSpec, h [] (List.suffix_refl _)]
  | cons c cs ih =>
    intro fuel h
    cases fuel with
    | zero => rfl
    | succ fuel =>
      rw [replaceAllSpec_cons_none _ _ _ _ _ (h _ (List.suffix_refl _)),
        ih fuel (fun t ht => h t (ht.trans (List.suffix_cons _ _)))]

theorem replaceAllSpec_skip (matchAt : List Char → Option (List Char))
    (replacement : JsString) (u : List Char) :
    ∀ (a : List Char) (fuel : ℕ),
      (∀ x t, x :: t <:+ a → matchAt (x :: t ++ u) = none) →
      replaceAllSpec matchAt replacement (fuel + a.length) (a ++ u)
        = a ++ replaceAllSpec matchAt replacement fuel u := by
  intro a
  induction a with
  | nil => intro fuel _; rfl
  | cons c cs ih =>
    intro fuel h
    have h0 : matchAt (c :: (cs ++ u)) = none := h c cs (List.suffix_refl _)
    rw [List.length_cons, ← Nat.add_assoc, List.cons_append,
      replaceAllSpec_cons_none _ _ _ _ _ h0,
      ih fuel (fun x t ht => h x t (ht.trans (List.suffix_cons _ _)))]
    rfl

/-- The text after a global tag removal has no tag. -/
theorem replaceAllSpec_tagAt_tagFree :
    ∀ (fuel : ℕ) (rest : List Char), rest.length < fuel →
      ¬ containsTag (replaceAllSpec tagAt [] fuel rest) := by
  intro fuel
  induction fuel with
  | zero => intro rest h; omega
  | succ fuel ih =>
    intro rest hlen
    cases rest with
    | nil =>
      have : tagAt [] = none := rfl
      rw [replaceAllSpec, this]
      exact containsTag_nil
    | cons c cs =>
      simp only [List.length_cons] at hlen
      cases hm : tagAt (c :: cs) with
      | none =>
        rw [replaceAllSpec_cons_none _ _ _ _ _ hm, containsTag_cons]
        rintro (⟨hc, hhead, hmem⟩ | h)
        · subst hc
          rcases tagAt_none cs hm with h1 | h1
          · cases cs with
            | nil => cases h1
            | cons y ys =>
              simp only [List.head?_cons, Option.some.injEq] at h1
              subst h1
              obtain ⟨f, rfl⟩ : ∃ f, fuel = f + 1 := ⟨fuel - 1, by
                simp only [List.length_cons] at hlen; omega⟩
              rw [replaceAllSpec_cons_none _ _ _ _ _ (tagAt_ne '>' ys (by decide))] at hhead
              exact hhead rfl
          · rcases replaceAllSpec_mem tagAt tagAt_suffix [] '>' fuel cs hmem with h | h
            · exact h1 h
            · cases h
        · exact ih cs (by omega) h
      | some post =>
        obtain ⟨m, hs, hne, _⟩ := tagAt_spec _ _ hm
        have hpl : post.length < cs.length + 1 := by
          have := congrArg List.length hs
          simp only [List.length_cons, List.length_append] at this
          omega
        rw [replaceAllSpec, hm]
        simp only [if_pos hpl, List.nil_append]
        exact ih post (by omega)

/-! ## Replacements that leave a text alone -/

theorem replaceAllFrom_mem (flags : RegexFlags) (r : Regex) (replacement : JsString) (x : Char) :
    ∀ (fuel : ℕ) (before rest : List Char),
      x ∈ r.replaceAllFrom flags replacement fuel before rest → x ∈ rest ∨ x ∈ replacement := by
  intro fuel
  induction fuel with
  | zero => intro before rest h; exact Or.inl h
  | succ fuel ih =>
    intro before rest h
    unfold Regex.replaceAllFrom at h
    cases hm : r.execFrom flags before rest with
    | none => rw [hm] at h; exact Or.inl h
    | some m =>
      rw [hm] at h
      simp only [] at h
      split_ifs at h with hst
      · cases hd : List.drop (rest.length - m.stop.rest.length) rest with
        | nil =>
          rw [hd] at h
          rcases List.mem_append.mp h with h | h
          · exact Or.inl (List.mem_of_mem_take h)
          · exact Or.inr h
        | cons c cs =>
          rw [hd] at h
          simp only [List.append_assoc, List.mem_append, List.mem_cons] at h
          have hsub : ∀ y, y ∈ c :: cs → y ∈ rest := fun y hy =>
            List.mem_of_mem_drop (hd ▸ hy)
          rcases h with h | h | h | h
          · exact Or.inl (List.mem_of_mem_take h)
          · exact Or.inr h
          · exact Or.inl (hsub x (h ▸ List.mem_cons_self _ _))
          · rcases ih _ _ h with h | h
            · exact Or.inl (hsub x (List.mem_cons_of_mem _ h))
            · exact Or.inr h
      · simp only [List.append_assoc, List.mem_append] at h
        rcases h with h | h | h
        · exact Or.inl (List.mem_of_mem_take h)
        · exact Or.inr h
        · rcases ih _ _ h with h | h
          · exact Or.inl (List.mem_of_mem_drop h)
          · exact Or.inr h

theorem replaceAll_mem (flags : RegexFlags) (r : Regex) (text replacement : JsString) (x : Char)
    (h : x ∈ r.replaceAll flags text replacement) : x ∈ text ∨ x ∈ replacement :=
  replaceAllFrom_mem flags r replacement x _ _ _ h

theorem execFrom_none (flags : RegexFlags) (r : Regex) :
    ∀ (rest before : List Char), (∀ b t, t <:+ rest → r.execAt flags b t = none) →
      r.execFrom flags before rest = none := by
  intro rest
  induction rest with
  | nil => intro before h; rw [Regex.execFrom]; exact h before [] (List.suffix_refl _)
  | cons c cs ih =>
    intro before h
    rw [Regex.execFrom, h before (c :: cs) (List.suffix_refl _)]
    exact ih (c :: before) (fun b t ht => h b t (ht.trans (List.suffix_cons _ _)))

theorem replaceAll_of_no_match (flags : RegexFlags) (r : Regex) (text replacement : JsString)
    (h : ∀ b t, t <:+ text → r.execAt flags b t = none) :
    r.replaceAll flags text replacement = text := by
  unfold Regex.replaceAll
  rw [Regex.replaceAllFrom, execFrom_none flags r text [] h]

theorem head_of_suffix_not_mem (x : Char) (s t : List Char) (hs : x ∉ s) (ht : t <:+ s) :
    t.head? ≠ some x := by
  intro h
  cases t with
  | nil => cases h
  | cons y ys =>
    simp only [List.head?_cons, Option.some.injEq] at h
    subst h
    exact hs (ht.subset (List.mem_cons_self _ _))

theorem toLower_ne_less (x : Char) (hx : x ≠ '<') : ¬ ('<' : Char).toLower = x.toLower := by
  have h60 : ('<' : Char).toLower = '<' := by decide
  rw [h60]
  intro h
  by_cases hu : x.toNat ≥ 65 ∧ x.toNat ≤ 90
  · have h1 : Char.toLower x = Char.ofNat (x.toNat + 32) := by
      simp only [Char.toLower, hu, and_self, if_true]
    have h2 : (Char.ofNat (x.toNat + 32)).toNat = x.toNat + 32 :=
      toNat_ofNat_small _ (by omega)
    rw [h1] at h
    have h3 := congrArg Char.toNat h
    rw [h2] at h3
    have h4 : ('<' : Char).toNat = 60 := by decide
    omega
  · have h1 : Char.toLower x = x := by
      simp only [Char.toLower, hu, if_false]
    rw [h1] at h
    exact hx h.symm

theorem brPattern_execAt_none (before rest : List Char) (h : rest.head? ≠ some '<') :
    brPattern.execAt flagsGI before rest = none := by
  have hlit : "<br".toList = ['<', 'b', 'r'] := rfl
  unfold Regex.execAt
  cases rest with
  | nil => simp [brPattern, Regex.seqs, hlit, Regex.lit, Regex.run, MatchState.step]
  | cons x xs =>
    have hx : x ≠ '<' := fun hx => h (by rw [hx]; rfl)
    have hl := toLower_ne_less x hx
    have hl2 : ¬ '<' = x.toLower := hl
    simp [brPattern, Regex.seqs, hlit, Regex.lit, Regex.run, MatchState.step, charEq, flagsGI, hl, hl2]

theorem blockPattern_execAt_none (before rest : List Char) (h : rest.head? ≠ some '<') :
    blockPattern.execAt flagsGI before rest = none := by
  unfold Regex.execAt
  cases rest with
  | nil => simp [blockPattern, Regex.seqs, Regex.run, MatchState.step]
  | cons x xs =>
    have hx : x ≠ '<' := fun hx => h (by rw [hx]; rfl)
    have hl := toLower_ne_less x hx
    have hl2 : ¬ '<' = x.toLower := hl
    simp [blockPattern, Regex.seqs, Regex.run, MatchState.step, charEq, flagsGI, hl, hl2]

theorem tagPattern_replaceAll (text replacement : JsString) :
    tagPattern.replaceAll flagsNone text replacement
      = replaceAllSpec tagAt replacement (text.length + 1) text :=
  replaceAll_eq_spec flagsNone tagPattern tagAt tagPattern_execAt tagAt_suffix text replacement

theorem removeTags_tagFree (html : JsString) : ¬ containsTag (removeTags html) := by
  unfold removeTags
  simp only []
  rw [tagPattern_replaceAll]
  exact replaceAllSpec_tagAt_tagFree _ _ (Nat.lt_succ_self _)

theorem removeTags_mem (html : JsString) (x : Char) (hx : x ≠ Char.ofNat 10)
    (h : x ∈ removeTags html) : x ∈ html := by
  unfold removeTags at h
  simp only [] at h
  rcases replaceAll_mem _ _ _ _ _ h with h | h
  · rcases replaceAll_mem _ _ _ _ _ h with h | h
    · rcases replaceAll_mem _ _ _ _ _ h with h | h
      · exact h
      · simp only [List.mem_singleton] at h; exact absurd h hx
    · simp only [List.mem_singleton] at h; exact absurd h hx
  · cases h

theorem removeTags_of_no_tag_start (text : JsString) (h : '<' ∉ text) :
    removeTags text = text := by
  unfold removeTags
  simp only []
  rw [replaceAll_of_no_match flagsGI brPattern text _
      (fun b t ht => brPattern_execAt_none b t (head_of_suffix_not_mem _ _ _ h ht)),
    replaceAll_of_no_match flagsGI blockPattern text _
      (fun b t ht => blockPattern_execAt_none b t (head_of_suffix_not_mem _ _ _ h ht)),
    tagPattern_replaceAll]
  apply replaceAllSpec_none
  intro t ht
  cases t with
  | nil => rfl
  | cons x xs =>
    apply tagAt_ne
    intro hx
    exact h (ht.subset (hx ▸ List.mem_cons_self _ _))

/-! ## Replacements whose matches start with a known character -/

theorem replaceAll_id_of_head (flags : RegexFlags) (r : Regex)
    (matchAt : List Char → Option (List Char))
    (hAt : ∀ before rest, (r.execAt flags before rest).map (fun m => m.stop.rest) = matchAt rest)
    (hSuf : ∀ rest post, matchAt rest = some post → post <:+ rest)
    (h : Char) (hhead : ∀ t post, matchAt t = some post → t.head? = some h)
    (s replacement : JsString) (hs : h ∉ s) :
    r.replaceAll flags s replacement = s := by
  rw [replaceAll_eq_spec flags r matchAt hAt hSuf]
  apply replaceAllSpec_none
  intro t ht
  cases hm : matchAt t with
  | none => rfl
  | some post => exact absurd (hhead t post hm) (head_of_suffix_not_mem h s t hs ht)

theorem replaceAll_miss (flags : RegexFlags) (r : Regex)
    (matchAt : List Char → Option (List Char))
    (hAt : ∀ before rest, (r.execAt flags before rest).map (fun m => m.stop.rest) = matchAt rest)
    (hSuf : ∀ rest post, matchAt rest = some post → post <:+ rest)
    (h : Char) (hhead : ∀ t post, matchAt t = some post → t.head? = some h)
    (a u replacement : JsString) (ha : h ∉ a) (hu : h ∉ u) (hno : matchAt (h :: u) = none) :
    r.replaceAll flags (a ++ h :: u) replacement = a ++ h :: u := by
  rw [replaceAll_eq_spec flags r matchAt hAt hSuf]
  have hfuel : (a ++ h :: u).length + 1 = (u.length + 1 + 1) + a.length := by
    simp only [List.length_append, List.length_cons]; omega
  rw [hfuel, replaceAllSpec_skip]
  · have hu2 : replaceAllSpec matchAt replacement (u.length + 1) u = u := by
      apply replaceAllSpec_none
      intro t ht
      cases hm : matchAt t with
      | none => rfl
      | some post => exact absurd (hhead t post hm) (head_of_suffix_not_mem h u t hu ht)
    rw [replaceAllSpec_cons_none _ _ _ _ _ hno, hu2]
  · intro x t ht
    cases hm : matchAt (x :: t ++ h :: u) with
    | none => rfl
    | some post =>
      have hh := hhead _ post hm
      simp only [List.cons_append, List.head?_cons, Option.some.injEq] at hh
      exact absurd (ht.subset (hh ▸ List.mem_cons_self _ _)) ha

theorem replaceAll_hit (flags : RegexFlags) (r : Regex)
    (matchAt : List Char → Option (List Char))
    (hAt : ∀ before rest, (r.execAt flags before rest).map (fun m => m.stop.rest) = matchAt rest)
    (hSuf : ∀ rest post, matchAt rest = some post → post <:+ rest)
    (h : Char) (hhead : ∀ t post, matchAt t = some post → t.head? = some h)
    (a w b replacement : JsString) (ha : h ∉ a) (hb : h ∉ b)
    (hw : matchAt (h :: w ++ b) = some b) :
    r.replaceAll flags (a ++ (h :: w ++ b)) replacement = a ++ (replacement ++ b) := by
  rw [replaceAll_eq_spec flags r matchAt hAt hSuf]
  have hfuel : (a ++ (h :: w ++ b)).length + 1 = (w.length + b.length + 1 + 1) + a.length := by
    simp only [List.length_append, List.length_cons]; omega
  rw [hfuel, replaceAllSpec_skip]
  · have hlt : b.length < (w ++ b).length + 1 := by
      simp only [List.length_append]; omega
    have hb2 : replaceAllSpec matchAt replacement (w.length + b.length + 1) b = b := by
      apply replaceAllSpec_none
      intro t ht
      cases hm : matchAt t with
      | none => rfl
      | some post => exact absurd (hhead t post hm) (head_of_suffix_not_mem h b t hb ht)
    have hw2 : matchAt (h :: (w ++ b)) = some b := hw
    show a ++ replaceAllSpec matchAt replacement (w.length + b.length + 1 + 1) (h :: (w ++ b)) = _
    rw [replaceAllSpec, hw2]
    simp only [if_pos hlt, hb2]
  · intro x t ht
    cases hm : matchAt (x :: t ++ (h :: w ++ b)) with
    | none => rfl
    | some post =>
      have hh := hhead _ post hm
      simp only [List.cons_append, List.head?_cons, Option.some.injEq] at hh
      exact absurd (ht.subset (hh ▸ List.mem_cons_self _ _)) ha

theorem litAt_head (h : Char) (w t post : List Char) (hm : litAt (h :: w) t = some post) :
    t.head? = some h := by
  unfold litAt at hm
  cases t with
  | nil => simp [List.isPrefixOf] at hm
  | cons y ys =>
    by_cases hy : h = y
    · rw [hy]; rfl
    · simp [List.isPrefixOf, hy] at hm

theorem litAt_self (w b : List Char) : litAt w (w ++ b) = some b := by
  unfold litAt
  have : w.isPrefixOf (w ++ b) = true := List.isPrefixOf_iff_prefix.mpr (List.prefix_append _ _)
  rw [if_pos this, List.drop_left]

theorem litAt_none_of_not_mem (x : Char) (w t : List Char) (hw : x ∈ w) (ht : x ∉ t) :
    litAt w t = none := by
  unfold litAt
  split_ifs with h
  · exact absurd ((List.isPrefixOf_iff_prefix.mp h).subset hw) ht
  · rfl

theorem numericEntityAt_head (t post : List Char) (hm : numericEntityAt t = some post) :
    t.head? = some '&' := by
  obtain ⟨m, hm⟩ := numericEntityAt_spec t post hm
  rw [hm]; rfl

theorem numericEntityAt_none_of_not_mem (t : List Char) (ht : ';' ∉ t) :
    numericEntityAt t = none := by
  cases hm : numericEntityAt t with
  | none => rfl
  | some post =>
    obtain ⟨m, hm⟩ := numericEntityAt_spec t post hm
    exact absurd (by rw [hm]; simp) ht

theorem newlinesAt_head (t post : List Char) (hm : newlinesAt t = some post) :
    t.head? = some (Char.ofNat 10) := by
  unfold newlinesAt at hm
  cases t with
  | nil => simp at hm
  | cons y ys =>
    by_cases hy : y = Char.ofNat 10
    · rw [hy]; rfl
    · have hb : (y == Char.ofNat 10) = false := by simpa using hy
      simp [List.takeWhile, hb] at hm

theorem replaceEntities_of_no_amp (s : JsString) (hs : '&' ∉ s) : replaceEntities s = s := by
  unfold replaceEntities
  simp only []
  rw [replaceAll_id_of_head flagsNone _ _ (lit_execAt "&amp;".toList) (litAt_suffix _) '&'
      (litAt_head '&' "amp;".toList) s _ hs,
    replaceAll_id_of_head flagsNone _ _ (lit_execAt "&lt;".toList) (litAt_suffix _) '&'
      (litAt_head '&' "lt;".toList) s _ hs,
    replaceAll_id_of_head flagsNone _ _ (lit_execAt "&gt;".toList) (litAt_suffix _) '&'
      (litAt_head '&' "gt;".toList) s _ hs,
    replaceAll_id_of_head flagsNone _ _ (lit_execAt "&nbsp;".toList) (litAt_suffix _) '&'
      (litAt_head '&' "nbsp;".toList) s _ hs,
    replaceAll_id_of_head flagsNone _ _ numericEntityPattern_execAt numericEntityAt_suffix '&'
      numericEntityAt_head s _ hs]

theorem newlines_replaceAll_of_no_newline (s replacement : JsString)
    (hs : Char.ofNat 10 ∉ s) : newlinesPattern.replaceAll flagsNone s replacement = s :=
  replaceAll_id_of_head flagsNone _ _ newlinesPattern_execAt newlinesAt_suffix _
    newlinesAt_head s _ hs

/-! ## Collapsing newlines and trimming keep a text free of tags -/

theorem replaceAllSpec_newlines_tagFree :
    ∀ (fuel : ℕ) (rest : List Char), ¬ containsTag rest →
      ¬ containsTag
        (replaceAllSpec newlinesAt [Char.ofNat 10, Char.ofNat 10] fuel rest) := by
  intro fuel
  induction fuel with
  | zero => intro rest h; exact h
  | succ fuel ih =>
    intro rest hrest
    cases rest with
    | nil =>
      have : newlinesAt [] = none := rfl
      rw [replaceAllSpec, this]
      exact containsTag_nil
    | cons c cs =>
      cases hm : newlinesAt (c :: cs) with
      | none =>
        rw [replaceAllSpec_cons_none _ _ _ _ _ hm, containsTag_cons]
        rw [containsTag_cons] at hrest
        push_neg at hrest
        rintro (⟨hc, hhead, hmem⟩ | h)
        · have hin : '>' ∈ cs := by
            rcases replaceAllSpec_mem newlinesAt newlinesAt_suffix _ '>' fuel cs hmem with h | h
            · exact h
            · exact absurd h (by decide)
          refine hrest.1 hc ?_ hin
          intro hcs
          cases cs with
          | nil => cases hcs
          | cons y ys =>
            simp only [List.head?_cons, Option.some.injEq] at hcs
            subst hcs
            have hn : newlinesAt ('>' :: ys) = none := by
              cases hq : newlinesAt ('>' :: ys) with
              | none => rfl
              | some post =>
                exact absurd (newlinesAt_head _ _ hq)
                  (by simp only [List.head?_cons, Option.some.injEq]; decide)
            cases fuel with
            | zero => exact hhead rfl
            | succ f =>
              rw [replaceAllSpec_cons_none _ _ _ _ _ hn] at hhead
              exact hhead rfl
        · exact ih cs hrest.2 h
      | some post =>
        have hsuf := newlinesAt_suffix _ _ hm
        have hpost : ¬ containsTag post := fun h => hrest (containsTag_of_suffix _ _ hsuf h)
        have hnn : ∀ X : List Char, ¬ containsTag X →
            ¬ containsTag ([Char.ofNat 10, Char.ofNat 10] ++ X) := by
          intro X hX
          show ¬ containsTag (Char.ofNat 10 :: Char.ofNat 10 :: X)
          rw [containsTag_cons, containsTag_cons]
          rintro (⟨h, _⟩ | ⟨h, _⟩ | h)
          · exact absurd h (by decide)
          · exact absurd h (by decide)
          · exact hX h
        rw [replaceAllSpec, hm]
        simp only []
        split_ifs
        · exact hnn _ (ih post hpost)
        · apply hnn
          rw [containsTag_cons]
          rw [containsTag_cons] at hrest
          push_neg at hrest
          have hc : c = Char.ofNat 10 := by
            have := newlinesAt_head _ _ hm
            simpa using this
          rintro (⟨h, _⟩ | h)
          · rw [hc] at h
            exact absurd h (by decide)
          · exact ih cs hrest.2 h

theorem trim_infix (s : JsString) : ∃ pre post, s = pre ++ trim s ++ post := by
  unfold trim
  obtain ⟨pre, hpre⟩ := List.dropWhile_suffix (l := s) isRegexSpace
  obtain ⟨q, hq⟩ := List.dropWhile_suffix (l := (s.dropWhile isRegexSpace).reverse) isRegexSpace
  refine ⟨pre, q.reverse, ?_⟩
  have h2 := congrArg List.reverse hq
  simp only [List.reverse_append, List.reverse_reverse] at h2
  rw [List.append_assoc, h2, hpre]

theorem containsTag_of_trim (s : JsString) (h : containsTag (trim s)) : containsTag s := by
  obtain ⟨pre, post, hs⟩ := trim_infix s
  rw [hs]
  exact containsTag_of_prefix _ _ ⟨post, rfl⟩ (containsTag_of_suffix _ _ ⟨pre, rfl⟩ h)

theorem stripHtml_tagFree_of_no_amp (html : JsString) (h : '&' ∉ html) :
    ¬ containsTag (stripHtml html) := by
  intro hc
  have h1 := containsTag_of_trim _ hc
  have hamp : '&' ∉ removeTags html := fun hm => h (removeTags_mem html '&' (by decide) hm)
  rw [replaceEntities_of_no_amp _ hamp,
    replaceAll_eq_spec flagsNone _ _ newlinesPattern_execAt newlinesAt_suffix] at h1
  exact replaceAllSpec_newlines_tagFree _ _ (removeTags_tagFree html) h1

/-! ## Entities between plain texts -/

theorem lit_replaceAll_hit (w a b replacement : JsString) (ha : '&' ∉ a) (hb : '&' ∉ b) :
    (Regex.lit ('&' :: w)).replaceAll flagsNone (a ++ '&' :: (w ++ b)) replacement
      = a ++ (replacement ++ b) :=
  replaceAll_hit flagsNone _ _ (lit_execAt _) (litAt_suffix _) '&' (litAt_head '&' w)
    a w b replacement ha hb (litAt_self ('&' :: w) b)

theorem lit_replaceAll_miss (w a u replacement : JsString) (ha : '&' ∉ a) (hu : '&' ∉ u)
    (hno : litAt ('&' :: w) ('&' :: u) = none) :
    (Regex.lit ('&' :: w)).replaceAll flagsNone (a ++ '&' :: u) replacement = a ++ '&' :: u :=
  replaceAll_miss flagsNone _ _ (lit_execAt _) (litAt_suffix _) '&' (litAt_head '&' w)
    a u replacement ha hu hno

theorem lit_replaceAll_id (w s replacement : JsString) (hs : '&' ∉ s) :
    (Regex.lit ('&' :: w)).replaceAll flagsNone s replacement = s :=
  replaceAll_id_of_head flagsNone _ _ (lit_execAt _) (litAt_suffix _) '&' (litAt_head '&' w)
    s replacement hs

theorem numeric_replaceAll_hit (w a b replacement : JsString) (ha : '&' ∉ a) (hb : '&' ∉ b)
    (hw : numericEntityAt ('&' :: w ++ b) = some b) :
    numericEntityPattern.replaceAll flagsNone (a ++ '&' :: (w ++ b)) replacement
      = a ++ (replacement ++ b) :=
  replaceAll_hit flagsNone _ _ numericEntityPattern_execAt numericEntityAt_suffix '&'
    numericEntityAt_head a w b replacement ha hb hw

theorem numeric_replaceAll_miss (a u replacement : JsString) (ha : '&' ∉ a) (hu : '&' ∉ u)
    (hno : numericEntityAt ('&' :: u) = none) :
    numericEntityPattern.replaceAll flagsNone (a ++ '&' :: u) replacement = a ++ '&' :: u :=
  replaceAll_miss flagsNone _ _ numericEntityPattern_execAt numericEntityAt_suffix '&'
    numericEntityAt_head a u replacement ha hu hno

theorem numeric_replaceAll_id (s replacement : JsString) (hs : '&' ∉ s) :
    numericEntityPattern.replaceAll flagsNone s replacement = s :=
  replaceAll_id_of_head flagsNone _ _ numericEntityPattern_execAt numericEntityAt_suffix '&'
    numericEntityAt_head s replacement hs

theorem replaceEntities_eq (s : JsString) :
    replaceEntities s
      = numericEntityPattern.replaceAll flagsNone
          ((Regex.lit "&nbsp;".toList).replaceAll flagsNone
            ((Regex.lit "&gt;".toList).replaceAll flagsNone
              ((Regex.lit "&lt;".toList).replaceAll flagsNone
                ((Regex.lit "&amp;".toList).replaceAll flagsNone s "&".toList)
                "<".toList) ">".toList) " ".toList) [] := rfl

theorem not_mem_mid (x : Char) (a m b : List Char) (ha : x ∉ a) (hm : x ∉ m) (hb : x ∉ b) :
    x ∉ a ++ (m ++ b) := by
  simp only [List.mem_append, not_or]
  exact ⟨ha, hm, hb⟩

theorem not_mem_cons_of (x y : Char) (b : List Char) (hxy : x ≠ y) (hb : x ∉ b) :
    x ∉ y :: b := by
  simp only [List.mem_cons, not_or]
  exact ⟨hxy, hb⟩

theorem stripHtml_of (text result : JsString) (h1 : '<' ∉ text)
    (h2 : replaceEntities text = result) (h3 : Char.ofNat 10 ∉ result) :
    stripHtml text = trim result := by
  unfold stripHtml
  rw [removeTags_of_no_tag_start text h1, h2, newlines_replaceAll_of_no_newline result _ h3]

theorem replaceEntities_amp (a b : JsString) (ha : isPlainText a) (hb : isPlainText b) :
    replaceEntities (a ++ '&' :: ("amp;".toList ++ b)) = a ++ '&' :: b := by
  have ha1 : '&' ∉ a := fun h => (ha _ h).2.1 rfl
  have hb1 : '&' ∉ b := fun h => (hb _ h).2.1 rfl
  have hb2 : ';' ∉ '&' :: b := not_mem_cons_of _ _ _ (by decide) (fun h => (hb _ h).2.2.1 rfl)
  have h4 : (Regex.lit "&amp;".toList).replaceAll flagsNone (a ++ '&' :: ("amp;".toList ++ b))
      "&".toList = a ++ '&' :: b := lit_replaceAll_hit "amp;".toList a b "&".toList ha1 hb1
  have h5 : (Regex.lit "&lt;".toList).replaceAll flagsNone (a ++ '&' :: b) "<".toList
      = a ++ '&' :: b :=
    lit_replaceAll_miss "lt;".toList a b _ ha1 hb1
      (litAt_none_of_not_mem ';' _ _ (by decide) hb2)
  have h6 : (Regex.lit "&gt;".toList).replaceAll flagsNone (a ++ '&' :: b) ">".toList
      = a ++ '&' :: b :=
    lit_replaceAll_miss "gt;".toList a b _ ha1 hb1
      (litAt_none_of_not_mem ';' _ _ (by decide) hb2)
  have h7 : (Regex.lit "&nbsp;".toList).replaceAll flagsNone (a ++ '&' :: b) " ".toList
      = a ++ '&' :: b :=
    lit_replaceAll_miss "nbsp;".toList a b _ ha1 hb1
      (litAt_none_of_not_mem ';' _ _ (by decide) hb2)
  have h8 : numericEntityPattern.replaceAll flagsNone (a ++ '&' :: b) [] = a ++ '&' :: b :=
    numeric_replaceAll_miss a b _ ha1 hb1 (numericEntityAt_none_of_not_mem _ hb2)
  rw [replaceEntities_eq, h4, h5, h6, h7, h8]

theorem replaceEntities_lt (a b : JsString) (ha : isPlainText a) (hb : isPlainText b) :
    replaceEntities (a ++ '&' :: ("lt;".toList ++ b)) = a ++ '<' :: b := by
  have ha1 : '&' ∉ a := fun h => (ha _ h).2.1 rfl
  have hb1 : '&' ∉ b := fun h => (hb _ h).2.1 rfl
  have hu : '&' ∉ "lt;".toList ++ b := by
    simp only [List.mem_append, not_or]; exact ⟨by decide, hb1⟩
  have hr : '&' ∉ a ++ '<' :: b := by
    simp only [List.mem_append, List.mem_cons, not_or]; exact ⟨ha1, by decide, hb1⟩
  have h4 : (Regex.lit "&amp;".toList).replaceAll flagsNone (a ++ '&' :: ("lt;".toList ++ b))
      "&".toList = a ++ '&' :: ("lt;".toList ++ b) :=
    lit_replaceAll_miss "amp;".toList a _ _ ha1 hu rfl
  have h5 : (Regex.lit "&lt;".toList).replaceAll flagsNone (a ++ '&' :: ("lt;".toList ++ b))
      "<".toList = a ++ '<' :: b := lit_replaceAll_hit "lt;".toList a b "<".toList ha1 hb1
  have h6 : (Regex.lit "&gt;".toList).replaceAll flagsNone (a ++ '<' :: b) ">".toList
      = a ++ '<' :: b := lit_replaceAll_id "gt;".toList _ _ hr
  have h7 : (Regex.lit "&nbsp;".toList).replaceAll flagsNone (a ++ '<' :: b) " ".toList
      = a ++ '<' :: b := lit_replaceAll_id "nbsp;".toList _ _ hr
  have h8 : numericEntityPattern.replaceAll flagsNone (a ++ '<' :: b) [] = a ++ '<' :: b :=
    numeric_replaceAll_id _ _ hr
  rw [replaceEntities_eq, h4, h5, h6, h7, h8]

theorem replaceEntities_gt (a b : JsString) (ha : isPlainText a) (hb : isPlainText b) :
    replaceEntities (a ++ '&' :: ("gt;".toList ++ b)) = a ++ '>' :: b := by
  have ha1 : '&' ∉ a := fun h => (ha _ h).2.1 rfl
  have hb1 : '&' ∉ b := fun h => (hb _ h).2.1 rfl
  have hu : '&' ∉ "gt;".toList ++ b := by
    simp only [List.mem_append, not_or]; exact ⟨by decide, hb1⟩
  have hr : '&' ∉ a ++ '>' :: b := by
    simp only [List.mem_append, List.mem_cons, not_or]; exact ⟨ha1, by decide, hb1⟩
  have h4 : (Regex.lit "&amp;".toList).replaceAll flagsNone (a ++ '&' :: ("gt;".toList ++ b))
      "&".toList = a ++ '&' :: ("gt;".toList ++ b) :=
    lit_replaceAll_miss "amp;".toList a _ _ ha1 hu rfl
  have h5 : (Regex.lit "&lt;".toList).replaceAll flagsNone (a ++ '&' :: ("gt;".toList ++ b))
      "<".toList = a ++ '&' :: ("gt;".toList ++ b) :=
    lit_replaceAll_miss "lt;".toList a _ _ ha1 hu rfl
  have h6 : (Regex.lit "&gt;".toList).replaceAll flagsNone (a ++ '&' :: ("gt;".toList ++ b))
      ">".toList = a ++ '>' :: b := lit_replaceAll_hit "gt;".toList a b ">".toList ha1 hb1
  have h7 : (Regex.lit "&nbsp;".toList).replaceAll flagsNone (a ++ '>' :: b) " ".toList
      = a ++ '>' :: b := lit_replaceAll_id "nbsp;".toList _ _ hr
  have h8 : numericEntityPattern.replaceAll flagsNone (a ++ '>' :: b) [] = a ++ '>' :: b :=
    numeric_replaceAll_id _ _ hr
  rw [replaceEntities_eq, h4, h5, h6, h7, h8]

theorem replaceEntities_nbsp (a b : JsString) (ha : isPlainText a) (hb : isPlainText b) :
    replaceEntities (a ++ '&' :: ("nbsp;".toList ++ b)) = a ++ ' ' :: b := by
  have ha1 : '&' ∉ a := fun h => (ha _ h).2.1 rfl
  have hb1 : '&' ∉ b := fun h => (hb _ h).2.1 rfl
  have hu : '&' ∉ "nbsp;".toList ++ b := by
    simp only [List.mem_append, not_or]; exact ⟨by decide, hb1⟩
  have hr : '&' ∉ a ++ ' ' :: b := by
    simp only [List.mem_append, List.mem_cons, not_or]; exact ⟨ha1, by decide, hb1⟩
  have h4 : (Regex.lit "&amp;".toList).replaceAll flagsNone (a ++ '&' :: ("nbsp;".toList ++ b))
      "&".toList = a ++ '&' :: ("nbsp;".toList ++ b) :=
    lit_replaceAll_miss "amp;".toList a _ _ ha1 hu rfl
  have h5 : (Regex.lit "&lt;".toList).replaceAll flagsNone (a ++ '&' :: ("nbsp;".toList ++ b))
      "<".toList = a ++ '&' :: ("nbsp;".toList ++ b) :=
    lit_replaceAll_miss "lt;".toList a _ _ ha1 hu rfl
  have h6 : (Regex.lit "&gt;".toList).replaceAll flagsNone (a ++ '&' :: ("nbsp;".toList ++ b))
      ">".toList = a ++ '&' :: ("nbsp;".toList ++ b) :=
    lit_replaceAll_miss "gt;".toList a _ _ ha1 hu rfl
  have h7 : (Regex.lit "&nbsp;".toList).replaceAll flagsNone
      (a ++ '&' :: ("nbsp;".toList ++ b)) " ".toList = a ++ ' ' :: b :=
    lit_replaceAll_hit "nbsp;".toList a b " ".toList ha1 hb1
  have h8 : numericEntityPattern.replaceAll flagsNone (a ++ ' ' :: b) [] = a ++ ' ' :: b :=
    numeric_replaceAll_id _ _ hr
  rw [replaceEntities_eq, h4, h5, h6, h7, h8]

theorem replaceEntities_quot (a b : JsString) (ha : isPlainText a) (hb : isPlainText b) :
    replaceEntities (a ++ '&' :: ("quot;".toList ++ b)) = a ++ '&' :: ("quot;".toList ++ b) := by
  have ha1 : '&' ∉ a := fun h => (ha _ h).2.1 rfl
  have hb1 : '&' ∉ b := fun h => (hb _ h).2.1 rfl
  have hu : '&' ∉ "quot;".toList ++ b := by
    simp only [List.mem_append, not_or]; exact ⟨by decide, hb1⟩
  have h4 : (Regex.lit "&amp;".toList).replaceAll flagsNone (a ++ '&' :: ("quot;".toList ++ b))
      "&".toList = a ++ '&' :: ("quot;".toList ++ b) :=
    lit_replaceAll_miss "amp;".toList a _ _ ha1 hu rfl
  have h5 : (Regex.lit "&lt;".toList).replaceAll flagsNone (a ++ '&' :: ("quot;".toList ++ b))
      "<".toList = a ++ '&' :: ("quot;".toList ++ b) :=
    lit_replaceAll_miss "lt;".toList a _ _ ha1 hu rfl
  have h6 : (Regex.lit "&gt;".toList).replaceAll flagsNone (a ++ '&' :: ("quot;".toList ++ b))
      ">".toList = a ++ '&' :: ("quot;".toList ++ b) :=
    lit_replaceAll_miss "gt;".toList a _ _ ha1 hu rfl
  have h7 : (Regex.lit "&nbsp;".toList).replaceAll flagsNone
      (a ++ '&' :: ("quot;".toList ++ b)) " ".toList = a ++ '&' :: ("quot;".toList ++ b) :=
    lit_replaceAll_miss "nbsp;".toList a _ _ ha1 hu rfl
  have h8 : numericEntityPattern.replaceAll flagsNone (a ++ '&' :: ("quot;".toList ++ b)) []
      = a ++ '&' :: ("quot;".toList ++ b) :=
    numeric_replaceAll_miss a _ _ ha1 hu rfl
  rw [replaceEntities_eq, h4, h5, h6, h7, h8]

theorem replaceEntities_apos (a b : JsString) (ha : isPlainText a) (hb : isPlainText b) :
    replaceEntities (a ++ '&' :: ("#39;".toList ++ b)) = a ++ b := by
  have ha1 : '&' ∉ a := fun h => (ha _ h).2.1 rfl
  have hb1 : '&' ∉ b := fun h => (hb _ h).2.1 rfl
  have hu : '&' ∉ "#39;".toList ++ b := by
    simp only [List.mem_append, not_or]; exact ⟨by decide, hb1⟩
  have h4 : (Regex.lit "&amp;".toList).replaceAll flagsNone (a ++ '&' :: ("#39;".toList ++ b))
      "&".toList = a ++ '&' :: ("#39;".toList ++ b) :=
    lit_replaceAll_miss "amp;".toList a _ _ ha1 hu rfl
  have h5 : (Regex.lit "&lt;".toList).replaceAll flagsNone (a ++ '&' :: ("#39;".toList ++ b))
      "<".toList = a ++ '&' :: ("#39;".toList ++ b) :=
    lit_replaceAll_miss "lt;".toList a _ _ ha1 hu rfl
  have h6 : (Regex.lit "&gt;".toList).replaceAll flagsNone (a ++ '&' :: ("#39;".toList ++ b))
      ">".toList = a ++ '&' :: ("#39;".toList ++ b) :=
    lit_replaceAll_miss "gt;".toList a _ _ ha1 hu rfl
  have h7 : (Regex.lit "&nbsp;".toList).replaceAll flagsNone
      (a ++ '&' :: ("#39;".toList ++ b)) " ".toList = a ++ '&' :: ("#39;".toList ++ b) :=
    lit_replaceAll_miss "nbsp;".toList a _ _ ha1 hu rfl
  have hw : numericEntityAt ('&' :: "#39;".toList ++ b) = some b := by
    show spanAt isRegexDigit 1 ';' (['3', '9'] ++ ';' :: b) = some b
    exact spanAt_of_split isRegexDigit 1 ';' ['3', '9'] b (by decide) (by decide) (by decide)
  have h8 : numericEntityPattern.replaceAll flagsNone (a ++ '&' :: ("#39;".toList ++ b)) []
      = a ++ b := numeric_replaceAll_hit "#39;".toList a b [] ha1 hb1 hw
  rw [replaceEntities_eq, h4, h5, h6, h7, h8]

/-! ## HTML stripping: tags (C23) and entities (C28) -/

/-- C23, amended: for every description, the text left by the three tag
replacements of `stripHtml` contains no HTML tag, and when the description
has no `&` the output of `stripHtml` contains no HTML tag. -/
theorem stripHtml_no_tag (html : JsString) :
    ¬ containsTag (removeTags html)
    ∧ ('&' ∉ html → ¬ containsTag (stripHtml html)) :=
  ⟨removeTags_tagFree html, stripHtml_tagFree_of_no_amp html⟩

/-- C28, amended: between plain texts `a` and `b` (none of `<`, `&`, `;`, line
feed), `stripHtml` turns `&amp;`, `&lt;`, `&gt;` and `&nbsp;` into `&`, `<`,
`>` and a space, leaves `&quot;` as it is and deletes `&#39;`; the result is
trimmed. -/
theorem stripHtml_entities (a b : JsString) (ha : isPlainText a) (hb : isPlainText b) :
    stripHtml (a ++ "&amp;".toList ++ b) = trim (a ++ "&".toList ++ b)
    ∧ stripHtml (a ++ "&lt;".toList ++ b) = trim (a ++ "<".toList ++ b)
    ∧ stripHtml (a ++ "&gt;".toList ++ b) = trim (a ++ ">".toList ++ b)
    ∧ stripHtml (a ++ "&nbsp;".toList ++ b) = trim (a ++ " ".toList ++ b)
    ∧ stripHtml (a ++ "&quot;".toList ++ b) = trim (a ++ "&quot;".toList ++ b)
    ∧ stripHtml (a ++ "&#39;".toList ++ b) = trim (a ++ b) := by
  have ha0 : '<' ∉ a := fun h => (ha _ h).1 rfl
  have hb0 : '<' ∉ b := fun h => (hb _ h).1 rfl
  have ha3 : Char.ofNat 10 ∉ a := fun h => (ha _ h).2.2.2 rfl
  have hb3 : Char.ofNat 10 ∉ b := fun h => (hb _ h).2.2.2 rfl
  have hlt : ∀ e : List Char, '<' ∉ e → '<' ∉ a ++ '&' :: (e ++ b) := by
    intro e he
    simp only [List.mem_append, List.mem_cons, not_or]
    exact ⟨ha0, by decide, he, hb0⟩
  have hnl : ∀ e : List Char, Char.ofNat 10 ∉ e → Char.ofNat 10 ∉ a ++ (e ++ b) :=
    fun e he => not_mem_mid _ a e b ha3 he hb3
  have hform : ∀ e : List Char, a ++ '&' :: e ++ b = a ++ '&' :: (e ++ b) := by
    intro e; simp
  refine ⟨?_, ?_, ?_, ?_, ?_, ?_⟩
  · have e1 : a ++ "&amp;".toList ++ b = a ++ '&' :: ("amp;".toList ++ b) := hform _
    have e2 : a ++ "&".toList ++ b = a ++ '&' :: b := hform []
    rw [e1, e2]
    exact stripHtml_of _ _ (hlt _ (by decide)) (replaceEntities_amp a b ha hb)
      (hnl ['&'] (by decide))
  · have e1 : a ++ "&lt;".toList ++ b = a ++ '&' :: ("lt;".toList ++ b) := hform _
    have e2 : a ++ "<".toList ++ b = a ++ '<' :: b := by simp
    rw [e1, e2]
    exact stripHtml_of _ _ (hlt _ (by decide)) (replaceEntities_lt a b ha hb)
      (hnl ['<'] (by decide))
  · have e1 : a ++ "&gt;".toList ++ b = a ++ '&' :: ("gt;".toList ++ b) := hform _
    have e2 : a ++ ">".toList ++ b = a ++ '>' :: b := by simp
    rw [e1, e2]
    exact stripHtml_of _ _ (hlt _ (by decide)) (replaceEntities_gt a b ha hb)
      (hnl ['>'] (by decide))
  · have e1 : a ++ "&nbsp;".toList ++ b = a ++ '&' :: ("nbsp;".toList ++ b) := hform _
    have e2 : a ++ " ".toList ++ b = a ++ ' ' :: b := by simp
    rw [e1, e2]
    exact stripHtml_of _ _ (hlt _ (by decide)) (replaceEntities_nbsp a b ha hb)
      (hnl [' '] (by decide))
  · have e1 : a ++ "&quot;".toList ++ b = a ++ '&' :: ("quot;".toList ++ b) := hform _
    rw [e1]
    exact stripHtml_of _ _ (hlt _ (by decide)) (replaceEntities_quot a b ha hb)
      (hnl ('&' :: "quot;".toList) (by decide))
  · have e1 : a ++ "&#39;".toList ++ b = a ++ '&' :: ("#39;".toList ++ b) := hform _
    rw [e1]
    exact stripHtml_of _ _ (hlt _ (by decide)) (replaceEntities_apos a b ha hb)
      (by simpa using hnl [] (by decide))


/-- C23, as stated, fails: entities are unescaped after the tags are removed,
so an escaped tag comes out as a tag. -/
theorem stripHtml_escaped_tag_counterexample :
    stripHtml "&lt;b&gt;bold&lt;/b&gt;".toList = "<b>bold</b>".toList
    ∧ containsTag (stripHtml "&lt;b&gt;bold&lt;/b&gt;".toList) :=
  ⟨by decide, ⟨[], ['b'], "bold</b>".toList, by decide, by decide, by decide⟩⟩

/-- Witness for C23: a description with tags and no entity. -/
theorem stripHtml_no_tag_witness :
    '&' ∉ "<p>Hi <b>there</b></p>".toList
    ∧ stripHtml "<p>Hi <b>there</b></p>".toList = "Hi there".toList
    ∧ ¬ containsTag (stripHtml "<p>Hi <b>there</b></p>".toList) :=
  ⟨by decide, by decide, (stripHtml_no_tag "<p>Hi <b>there</b></p>".toList).2 (by decide)⟩

/-- C28, as stated, fails: `&quot;` is not replaced and `&#39;` is deleted
rather than replaced by a single quote. -/
theorem stripHtml_quote_counterexample :
    stripHtml "say &quot;hi&quot;".toList = "say &quot;hi&quot;".toList
    ∧ Char.ofNat 34 ∉ stripHtml "say &quot;hi&quot;".toList
    ∧ stripHtml "it&#39;s".toList = "its".toList
    ∧ Char.ofNat 39 ∉ stripHtml "it&#39;s".toList := by
  decide

/-- Witness for C28: the entity `&amp;` between two plain texts. -/
theorem stripHtml_entities_witness :
    isPlainText "Tom ".toList ∧ isPlainText " Jerry".toList
    ∧ stripHtml ("Tom ".toList ++ "&amp;".toList ++ " Jerry".toList) = "Tom & Jerry".toList :=
  ⟨by decide, by decide,
    (stripHtml_entities "Tom ".toList " Jerry".toList (by decide) (by decide)).1.trans
      (by decide)⟩

/-! ## Resume parser: the worked example (C21) -/


/-- C21: the code at the failing input.  On the example text (111 characters)
`parseResume` raises the `SyntaxError` of the pattern built from "C++" and
returns no profile.  The steps it does not reach would give the stated values:
seniority "Senior", a match for the keyword "Kubernetes", and one achievement,
which contains "increased". -/
theorem parseResume_raises_on_example :
    jsLength resumeExample = 111
    ∧ parseResume (some resumeExample)
        = .error (.invalidPattern "\\bC++\\b".toList .nothingToRepeat)
    ∧ detectSeniority (yearsOfExperience (experienceSection resumeExample)) resumeExample
        = "Senior".toList
    ∧ (keywordTest resumeExample "Kubernetes".toList).toOption = some true
    ∧ extractAchievements (experienceSection resumeExample)
        = ["... Led migration to Kubernetes, increased throughput by 40%".toList]
    ∧ includes "... Led migration to Kubernetes, increased throughput by 40%".toList
        "increased".toList = true := by
  refine ⟨by decide, parseResume_long _ (by decide), by decide, by decide, by decide,
    by decide⟩

end JobAgent
